import Mathlib

/-!
Verification of the core-ledger storage engine (community-bank-platform).

The definitions below are a shallow embedding of the repository's core:
the Go store layer (`internal/store`, PostTransfer / CreateAccount /
Balance / insertEvent) and the PostgreSQL genesis schema
(`internal/store/migrations/000_genesis.sql`: triggers, the hash-chained
event log, the deferred balanced-transaction check, the idempotency
guard and the snapshot layer).  Stateful SQL is modelled as explicit
state passing over a `DBState` record; every fallible operation returns
`Except`; a storage error aborts the enclosing transaction, which is
modelled by returning the caller's original state.
-/

namespace CoreLedger

/-! ## Bytes, hex, UTF-8 and SHA-256

The schema relies on pgcrypto's `digest(..., 'sha256')` and Go relies on
`crypto/sha256`; both are the standard FIPS 180-4 SHA-256 over bytes.
Bytes are modelled as `Nat` values (each < 256); the compression
function is implemented directly so hashes are computable inside Lean.
-/

/-- Truncate to a 32-bit word, the working width of SHA-256. -/
def w32 (x : Nat) : Nat := x % 4294967296

/-- 32-bit right rotation. -/
def rotr32 (n x : Nat) : Nat := w32 ((x >>> n) ||| (x <<< (32 - n)))

/-- 32-bit complement. -/
def not32 (x : Nat) : Nat := 4294967295 ^^^ x

def shaCh (x y z : Nat) : Nat := (x &&& y) ^^^ (not32 x &&& z)

def shaMaj (x y z : Nat) : Nat := (x &&& y) ^^^ (x &&& z) ^^^ (y &&& z)

def bigSigma0 (x : Nat) : Nat := rotr32 2 x ^^^ rotr32 13 x ^^^ rotr32 22 x

def bigSigma1 (x : Nat) : Nat := rotr32 6 x ^^^ rotr32 11 x ^^^ rotr32 25 x

def smallSigma0 (x : Nat) : Nat := rotr32 7 x ^^^ rotr32 18 x ^^^ (x >>> 3)

def smallSigma1 (x : Nat) : Nat := rotr32 17 x ^^^ rotr32 19 x ^^^ (x >>> 10)

/-- The 64 SHA-256 round constants (FIPS 180-4 §4.2.2, in decimal). -/
def shaK : List Nat :=
  [1116352408, 1899447441, 3049323471, 3921009573, 961987163,
   1508970993, 2453635748, 2870763221, 3624381080, 310598401,
   607225278, 1426881987, 1925078388, 2162078206, 2614888103,
   3248222580, 3835390401, 4022224774, 264347078, 604807628,
   770255983, 1249150122, 1555081692, 1996064986, 2554220882,
   2821834349, 2952996808, 3210313671, 3336571891, 3584528711,
   113926993, 338241895, 666307205, 773529912, 1294757372,
   1396182291, 1695183700, 1986661051, 2177026350, 2456956037,
   2730485921, 2820302411, 3259730800, 3345764771, 3516065817,
   3600352804, 4094571909, 275423344, 430227734, 506948616,
   659060556, 883997877, 958139571, 1322822218, 1537002063,
   1747873779, 1955562222, 2024104815, 2227730452, 2361852424,
   2428436474, 2756734187, 3204031479, 3329325298]

/-- Initial SHA-256 hash state (FIPS 180-4 §5.3.3, in decimal). -/
def shaInit : List Nat :=
  [1779033703, 3144134277, 1013904242, 2773480762,
   1359893119, 2600822924, 528734635, 1541459225]

/-- Big-endian bytes of a number, fixed width. -/
def natToBE : Nat → Nat → List Nat
  | 0, _ => []
  | k + 1, n => natToBE k (n >>> 8) ++ [n &&& 255]

/-- Group bytes into big-endian 32-bit words. -/
def bytesToWordsBE : List Nat → List Nat
  | b0 :: b1 :: b2 :: b3 :: rest =>
      (((b0 * 256 + b1) * 256 + b2) * 256 + b3) :: bytesToWordsBE rest
  | _ => []

/-- SHA-256 padding: 0x80, zeros to 56 mod 64, then the 64-bit bit length. -/
def shaPad (msg : List Nat) : List Nat :=
  let l := msg.length
  let zeros := (119 - l % 64) % 64
  msg ++ (128 :: List.replicate zeros 0) ++ natToBE 8 (l * 8)

/-- Extend a 16-word block by one scheduled word. -/
def schedStep (w : List Nat) : List Nat :=
  let i := w.length
  w ++ [w32 (smallSigma1 (w.getD (i - 2) 0) + w.getD (i - 7) 0 +
             smallSigma0 (w.getD (i - 15) 0) + w.getD (i - 16) 0)]

/-- Apply `schedStep` a given number of times (48 times for SHA-256). -/
def buildSched (w : List Nat) : Nat → List Nat
  | 0 => w
  | k + 1 => buildSched (schedStep w) k

/-- One SHA-256 round, acting on the 8-word working state. -/
def shaRound (st : List Nat) (kw : Nat) : List Nat :=
  match st with
  | [a, b, c, d, e, f, g, h] =>
    let t1 := w32 (h + bigSigma1 e + shaCh e f g + kw)
    let t2 := w32 (bigSigma0 a + shaMaj a b c)
    [w32 (t1 + t2), a, b, c, w32 (d + t1), e, f, g]
  | other => other

/-- Compress one 64-byte block into the hash state. -/
def compressBlock (h : List Nat) (block : List Nat) : List Nat :=
  let w := buildSched (bytesToWordsBE block) 48
  let kw := List.zipWith (fun k wi => w32 (k + wi)) shaK w
  let st := kw.foldl shaRound h
  List.zipWith (fun x y => w32 (x + y)) h st

/-- Fold the compression function over consecutive 64-byte blocks.
Structural recursion on a fuel counter keeps the definition reducible by
the kernel; callers pass enough fuel for the whole message. -/
def sha256Blocks (fuel : Nat) (h : List Nat) (l : List Nat) : List Nat :=
  match fuel, l with
  | _, [] => h
  | 0, _ => h
  | fuel + 1, _ :: _ => sha256Blocks fuel (compressBlock h (l.take 64)) (l.drop 64)

/-- SHA-256 of a byte list, as 32 bytes. -/
def sha256Bytes (msg : List Nat) : List Nat :=
  let padded := shaPad msg
  ((sha256Blocks padded.length shaInit padded).map (natToBE 4)).flatten

/-- UTF-8 encoding of one character. -/
def utf8Char (c : Char) : List Nat :=
  let n := c.toNat
  if n < 128 then [n]
  else if n < 2048 then [192 ||| (n >>> 6), 128 ||| (n &&& 63)]
  else if n < 65536 then
    [224 ||| (n >>> 12), 128 ||| ((n >>> 6) &&& 63), 128 ||| (n &&& 63)]
  else
    [240 ||| (n >>> 18), 128 ||| ((n >>> 12) &&& 63),
     128 ||| ((n >>> 6) &&& 63), 128 ||| (n &&& 63)]

/-- UTF-8 bytes of a string. -/
def utf8Bytes (s : String) : List Nat := (s.data.map utf8Char).flatten

/-- Lowercase hex digit. -/
def hexDigit (n : Nat) : Char :=
  if n < 10 then Char.ofNat (48 + n) else Char.ofNat (87 + n)

/-- Lowercase hex encoding of a byte list (Postgres `encode(..., 'hex')`,
Go `hex.EncodeToString`). -/
def hexEncode (l : List Nat) : String :=
  ⟨(l.map (fun b => [hexDigit (b / 16), hexDigit (b % 16)])).flatten⟩

/-- `sha256_utf8` from the genesis schema: SHA-256 over the UTF-8 bytes of
a text value. -/
def sha256Utf8 (s : String) : List Nat := sha256Bytes (utf8Bytes s)

/-! ## JSON payloads

Every payload the core writes (`accountCreatedPayload`,
`transferPostedPayload`, `TransferResponse`, the snapshot payloads) is a
flat JSON object whose values are strings, integers, booleans or null,
so payloads are modelled as association lists of such values.
`payload_json` columns are `jsonb`: a parsed value compared
semantically (key order and duplicate keys washed out), while
`payload_canonical` columns are text. -/

/-- A flat JSON value. -/
inductive JVal where
  | s (v : String)
  | i (v : Int)
  | b (v : Bool)
  | nullv
deriving DecidableEq

/-- A flat JSON object: ordered fields. -/
abbrev JObj := List (String × JVal)

/-- Drop all but the last occurrence of each key (jsonb keeps the last
duplicate). -/
def dedupKeys : JObj → JObj
  | [] => []
  | (k, v) :: rest =>
      if rest.any (fun p => p.1 == k) then dedupKeys rest
      else (k, v) :: dedupKeys rest

/-- Lexicographic comparison of character lists by code point. -/
def charListLe : List Char → List Char → Bool
  | [], _ => true
  | _ :: _, [] => false
  | a :: as, b :: bs =>
      if a.toNat < b.toNat then true
      else if b.toNat < a.toNat then false
      else charListLe as bs

/-- Key order used by RFC 8785 (code-unit order) and, in this model, by
jsonb normalization — any total order makes jsonb equality semantic. -/
def keyLe (a b : String) : Bool := charListLe a.data b.data

/-- Insert a field into a key-sorted field list. -/
def insField (p : String × JVal) : JObj → JObj
  | [] => [p]
  | q :: rest => if keyLe p.1 q.1 then p :: q :: rest else q :: insField p rest

/-- Insertion sort of fields by key. -/
def sortFields : JObj → JObj
  | [] => []
  | p :: rest => insField p (sortFields rest)

/-- jsonb normal form: duplicate keys collapsed, keys sorted. -/
def jnorm (o : JObj) : JObj := sortFields (dedupKeys o)

/-- Semantic (jsonb) equality of two objects. -/
def jsonbEq (a b : JObj) : Bool := jnorm a == jnorm b

/-- The opening and closing brace characters. -/
def lbrace : Char := Char.ofNat 123

def rbrace : Char := Char.ofNat 125

def lbraceS : String := String.singleton lbrace

def rbraceS : String := String.singleton rbrace

/-- Hex digits of a code point, fixed width, lowercase. -/
def hexOfNat : Nat → Nat → List Char
  | 0, _ => []
  | k + 1, n => hexOfNat k (n / 16) ++ [hexDigit (n % 16)]

/-- RFC 8785 string escaping: two-character forms for the common control
characters, `\u00XX` for the rest, backslash and quote escaped. -/
def jcsEscapeChar (c : Char) : List Char :=
  if c = '"' then ['\\', '"']
  else if c = '\\' then ['\\', '\\']
  else if c = Char.ofNat 8 then ['\\', 'b']
  else if c = Char.ofNat 9 then ['\\', 't']
  else if c = Char.ofNat 10 then ['\\', 'n']
  else if c = Char.ofNat 12 then ['\\', 'f']
  else if c = Char.ofNat 13 then ['\\', 'r']
  else if c.toNat < 32 then '\\' :: 'u' :: hexOfNat 4 c.toNat
  else [c]

def jcsEscape (s : String) : String := ⟨(s.data.map jcsEscapeChar).flatten⟩

/-- Go `encoding/json` string escaping: like JCS but `\b` and `\f` become
`\u` forms and HTML-relevant characters are escaped too. -/
def goEscapeChar (c : Char) : List Char :=
  if c = '"' then ['\\', '"']
  else if c = '\\' then ['\\', '\\']
  else if c = Char.ofNat 9 then ['\\', 't']
  else if c = Char.ofNat 10 then ['\\', 'n']
  else if c = Char.ofNat 13 then ['\\', 'r']
  else if c.toNat < 32 then '\\' :: 'u' :: hexOfNat 4 c.toNat
  else if c = '<' then '\\' :: 'u' :: hexOfNat 4 60
  else if c = '>' then '\\' :: 'u' :: hexOfNat 4 62
  else if c = '&' then '\\' :: 'u' :: hexOfNat 4 38
  else [c]

def goEscape (s : String) : String := ⟨(s.data.map goEscapeChar).flatten⟩

/-- Render one value with the given string escaper. -/
def renderJVal (esc : String → String) : JVal → String
  | .s v => "\"" ++ esc v ++ "\""
  | .i v => toString v
  | .b true => "true"
  | .b false => "false"
  | .nullv => "null"

/-- Render an object with fields in the stored order. -/
def renderObj (esc : String → String) (o : JObj) : String :=
  lbraceS ++
    String.intercalate ","
      (o.map (fun p => "\"" ++ esc p.1 ++ "\":" ++ renderJVal esc p.2)) ++
  rbraceS

/-- RFC 8785 (JCS) canonical bytes of a flat object: sorted keys, no
whitespace, minimal escapes (the `jcs.Transform` contract). -/
def jcsRender (o : JObj) : String := renderObj jcsEscape (jnorm o)

/-- Go `json.Marshal` of a struct-backed object: fields in declaration
order, no whitespace, HTML-escaping on. -/
def goRender (o : JObj) : String := renderObj goEscape o

/-! ### Parsing (the `::jsonb` cast) -/

/-- Skip JSON whitespace. -/
def skipWs : List Char → List Char
  | c :: rest =>
      if c = ' ' ∨ c = Char.ofNat 9 ∨ c = Char.ofNat 10 ∨ c = Char.ofNat 13
      then skipWs rest else c :: rest
  | [] => []

def hexVal (c : Char) : Option Nat :=
  if '0' ≤ c ∧ c ≤ '9' then some (c.toNat - 48)
  else if 'a' ≤ c ∧ c ≤ 'f' then some (c.toNat - 87)
  else if 'A' ≤ c ∧ c ≤ 'F' then some (c.toNat - 55)
  else none

/-- Parse the body of a string literal (opening quote consumed). -/
def parseStrAux (acc : List Char) : List Char → Option (String × List Char)
  | [] => none
  | c :: rest =>
      if c = '"' then some (⟨acc.reverse⟩, rest)
      else if c = '\\' then
        match rest with
        | [] => none
        | e :: rest2 =>
            if e = '"' then parseStrAux ('"' :: acc) rest2
            else if e = '\\' then parseStrAux ('\\' :: acc) rest2
            else if e = '/' then parseStrAux ('/' :: acc) rest2
            else if e = 'b' then parseStrAux (Char.ofNat 8 :: acc) rest2
            else if e = 't' then parseStrAux (Char.ofNat 9 :: acc) rest2
            else if e = 'n' then parseStrAux (Char.ofNat 10 :: acc) rest2
            else if e = 'f' then parseStrAux (Char.ofNat 12 :: acc) rest2
            else if e = 'r' then parseStrAux (Char.ofNat 13 :: acc) rest2
            else if e = 'u' then
              match rest2 with
              | h1 :: h2 :: h3 :: h4 :: rest3 =>
                  match hexVal h1, hexVal h2, hexVal h3, hexVal h4 with
                  | some a, some b, some c2, some d =>
                      parseStrAux (Char.ofNat (((a * 16 + b) * 16 + c2) * 16 + d) :: acc) rest3
                  | _, _, _, _ => none
              | _ => none
            else none
      else parseStrAux (c :: acc) rest

/-- Parse an unsigned decimal integer. -/
def parseDigits (acc : Nat) (seen : Bool) : List Char → Option (Nat × List Char)
  | [] => if seen then some (acc, []) else none
  | c :: rest =>
      if '0' ≤ c ∧ c ≤ '9' then parseDigits (acc * 10 + (c.toNat - 48)) true rest
      else if seen then some (acc, c :: rest) else none

/-- Parse a JSON value of the flat fragment. -/
def parseJVal : List Char → Option (JVal × List Char)
  | [] => none
  | c :: rest =>
      if c = '"' then (parseStrAux [] rest).map (fun p => (.s p.1, p.2))
      else if c = '-' then (parseDigits 0 false rest).map (fun p => (.i (-(p.1 : Int)), p.2))
      else if '0' ≤ c ∧ c ≤ '9' then
        (parseDigits 0 false (c :: rest)).map (fun p => (.i (p.1 : Int), p.2))
      else
        match c :: rest with
        | 't' :: 'r' :: 'u' :: 'e' :: rem => some (.b true, rem)
        | 'f' :: 'a' :: 'l' :: 's' :: 'e' :: rem => some (.b false, rem)
        | 'n' :: 'u' :: 'l' :: 'l' :: rem => some (.nullv, rem)
        | _ => none

/-- Parse `"key": value` pairs separated by commas, up to the closing
brace.  Fuel bounds the number of fields. -/
def parseFields (fuel : Nat) (acc : JObj) (cs : List Char) :
    Option (JObj × List Char) :=
  match fuel with
  | 0 => none
  | fuel + 1 =>
    match skipWs cs with
    | '"' :: rest =>
      match parseStrAux [] rest with
      | none => none
      | some (key, rest2) =>
        match skipWs rest2 with
        | ':' :: rest3 =>
          match parseJVal (skipWs rest3) with
          | none => none
          | some (v, rest4) =>
            match skipWs rest4 with
            | ',' :: rest5 => parseFields fuel (acc ++ [(key, v)]) rest5
            | c :: rest5 =>
                if c = rbrace then some (acc ++ [(key, v)], rest5) else none
            | [] => none
        | _ => none
    | _ => none

/-- The `::jsonb` cast on the flat fragment: parse, or fail. -/
def parseJObj (s : String) : Option JObj :=
  match skipWs s.data with
  | c :: rest =>
      if c = lbrace then
        match skipWs rest with
        | d :: tail =>
            if d = rbrace then
              if skipWs tail = [] then some [] else none
            else
              match parseFields (s.length + 1) [] (d :: tail) with
              | some (o, rem) => if skipWs rem = [] then some o else none
              | none => none
        | [] => none
      else none
  | [] => none

/-- `payload_canonical::jsonb = payload_json` — the semantic-match check
the schema applies to event and snapshot rows. -/
def semanticMatches (canonical : String) (payload : JObj) : Bool :=
  match parseJObj canonical with
  | some o => jsonbEq o payload
  | none => false

/-! ## Data model

Rows of the genesis schema.  Identifiers (UUID columns) and timestamps
(TIMESTAMPTZ columns) are modelled as strings: UUIDs are compared and
rendered only as their canonical text, and `created_at` / `as_of` enter
the hash material only through their text form. -/

/-- Characters trimmed by `strings.TrimSpace` / `btrim`. -/
def isSpaceChar (c : Char) : Bool :=
  c = ' ' ∨ c = Char.ofNat 9 ∨ c = Char.ofNat 10 ∨ c = Char.ofNat 11 ∨
  c = Char.ofNat 12 ∨ c = Char.ofNat 13

/-- Trim leading and trailing whitespace. -/
def trimChars (s : String) : String :=
  ⟨((s.data.dropWhile isSpaceChar).reverse.dropWhile isSpaceChar).reverse⟩

/-- True when a string is non-empty after trimming (`length(btrim(s)) > 0`). -/
def nonblank (s : String) : Bool := !(trimChars s == "")

def asciiUpper (c : Char) : Char :=
  if 'a' ≤ c ∧ c ≤ 'z' then Char.ofNat (c.toNat - 32) else c

def strToUpper (s : String) : String := ⟨s.data.map asciiUpper⟩

/-- The currency domain `^[A-Z]{3}$`. -/
def isCurrencyCode (s : String) : Bool :=
  s.length == 3 && s.data.all (fun c => 'A' ≤ c ∧ c ≤ 'Z')

/-- `uuid.Nil` rendered canonically. -/
def uuidNil : String := "00000000-0000-0000-0000-000000000000"

inductive Direction where
  | debit
  | credit
deriving DecidableEq

inductive IdemStatus where
  | reserved
  | committed
deriving DecidableEq

structure Account where
  account_id : String
  label : String
  currency : String
deriving DecidableEq

structure IdemRow where
  key : String
  request_hash : String
  tx_id : Option String
  response_json : Option JObj
  status : IdemStatus
  created_at : String
deriving DecidableEq

structure LedgerTx where
  tx_id : String
  external_ref : String
  correlation_id : String
  idempotency_key : String
deriving DecidableEq

structure LedgerEntry where
  entry_id : String
  tx_id : String
  account_id : String
  direction : Direction
  amount_cents : Int
  currency : String
deriving DecidableEq

structure EventRow where
  event_id : String
  event_type : String
  aggregate_type : String
  aggregate_id : String
  correlation_id : String
  payload_json : JObj
  payload_canonical : String
  created_at : String
  seq : Nat
  prev_hash : List Nat
  payload_hash : List Nat
  hash : List Nat
deriving DecidableEq

structure ChainHead where
  last_seq : Nat
  last_hash : List Nat
deriving DecidableEq

structure ValuationSnapshot where
  snapshot_id : String
  ingestion_correlation_id : String
  asset_type : String
  asset_id : String
  as_of : String
  price : Rat
  currency : String
  source : String
  confidence : Int
  payload_json : JObj
  payload_canonical : String
  payload_hash : List Nat
deriving DecidableEq

structure LiquiditySnapshot where
  snapshot_id : String
  ingestion_correlation_id : String
  asset_type : String
  asset_id : String
  as_of : String
  haircut_bps : Int
  time_to_cash_seconds : Int
  source : String
  payload_json : JObj
  payload_canonical : String
  payload_hash : List Nat
deriving DecidableEq

/-- The persisted state: all tables plus the singleton chain head. -/
structure DBState where
  accounts : List Account
  idem : List IdemRow
  txs : List LedgerTx
  entries : List LedgerEntry
  events : List EventRow
  head : ChainHead
  valuations : List ValuationSnapshot
  liquidity : List LiquiditySnapshot
deriving DecidableEq

/-- The empty database right after the genesis migration:
`event_chain_head = (1, 0, '\x')`. -/
def initState : DBState :=
  ⟨[], [], [], [], [], ⟨0, []⟩, [], []⟩

/-- Error kinds: the Go sentinel errors plus the SQL exception classes
raised by the schema (any raised SQL error aborts the enclosing
transaction, whose effects are rolled back). -/
inductive LErr where
  | validation
  | notFound
  | idemConflict
  | immutability (op : String) (tbl : String)
  | integrity (msg : String)
  | uniqueViolation (which : String)
  | storage (msg : String)
deriving DecidableEq

def findAccount (s : DBState) (id : String) : Option Account :=
  s.accounts.find? (fun a => a.account_id == id)

def findIdem (s : DBState) (k : String) : Option IdemRow :=
  s.idem.find? (fun r => r.key == k)

/-! ## Chain engine: `event_log` insert

`lp`, `event_chain_material` and the BEFORE INSERT trigger
`trg_event_log_hash_chain` from the genesis schema, together with the
table CHECK constraints of `event_log`. -/

/-- `lp(t) = length(t) || ':' || t` (length in characters, as SQL
`length()`); an empty value becomes `0:`. -/
def lp (t : String) : String := toString t.length ++ ":" ++ t

/-- The hash material of one event row: the length-prefixed
concatenation hashed by the chain trigger. -/
def event_chain_material (seq : Nat) (prev_hash : List Nat)
    (event_id created_at event_type aggregate_type aggregate_id
     correlation_id : String) (payload_hash : List Nat) : String :=
  lp (toString seq) ++ lp (hexEncode prev_hash) ++ lp event_id ++
  lp created_at ++ lp event_type ++ lp aggregate_type ++ lp aggregate_id ++
  lp correlation_id ++ lp (hexEncode payload_hash)

/-- An `INSERT INTO event_log` row as supplied by a caller; `created_at`
must be left NULL (DB-owned). -/
structure NewEvent where
  event_id : String
  event_type : String
  aggregate_type : String
  aggregate_id : String
  correlation_id : String
  payload_json : JObj
  payload_canonical : String
  created_at : Option String
deriving DecidableEq

/-- Insert one event row: the `trg_event_log_hash_chain` trigger reads
the locked chain head, fills `seq`, `prev_hash`, `created_at`,
`payload_hash` and `hash`, and advances the head; then the table CHECK
constraints and primary key apply.  `now` is `statement_timestamp()`
rendered as ISO UTC text with microseconds and `Z`. -/
def event_log_insert (s : DBState) (ev : NewEvent) (now : String) :
    Except LErr DBState :=
  match ev.created_at with
  | some _ => .error (.integrity "created_at must be NULL (DB-owned)")
  | none =>
    if !(nonblank ev.payload_canonical) then
      .error (.integrity "payload_canonical must be non-empty")
    else if !(semanticMatches ev.payload_canonical ev.payload_json) then
      .error (.integrity "payload_canonical must parse as JSON and match payload_json")
    else
      let seq := s.head.last_seq + 1
      let prev := s.head.last_hash
      let payloadHash := sha256Utf8 ev.payload_canonical
      let rowHash := sha256Utf8 (event_chain_material seq prev ev.event_id now
        ev.event_type ev.aggregate_type ev.aggregate_id ev.correlation_id payloadHash)
      if !(nonblank ev.event_type) || !(nonblank ev.aggregate_type) ||
         !(nonblank ev.correlation_id) then
        .error (.integrity "event_log check constraint")
      else if s.events.any (fun r => r.event_id == ev.event_id) then
        .error (.uniqueViolation "event_log_pkey")
      else
        .ok { s with
          events := s.events ++
            [⟨ev.event_id, ev.event_type, ev.aggregate_type, ev.aggregate_id,
              ev.correlation_id, ev.payload_json, ev.payload_canonical, now,
              seq, prev, payloadHash, rowHash⟩],
          head := ⟨seq, rowHash⟩ }

/-- Go `insertEvent`: the application-side wrapper that validates the
string fields, marshals the payload and emits both `payload_json` and
its RFC 8785 canonical form (`jcsPayload`). -/
def insertEventApp (s : DBState)
    (eventType aggregateType aggregateId correlationId : String)
    (payload : JObj) (eventId now : String) : Except LErr DBState :=
  if !(nonblank eventType) || !(nonblank aggregateType) ||
     !(nonblank aggregateId) || !(nonblank correlationId) then
    .error .validation
  else
    event_log_insert s
      ⟨eventId, eventType, aggregateType, aggregateId, correlationId,
       payload, jcsRender payload, none⟩ now

/-! ## Guard layer: balanced transactions, append-only, idempotency -/

def minInt? (l : List Int) : Option Int :=
  l.foldl (fun acc x => match acc with
    | none => some x
    | some m => some (min m x)) none

def maxInt? (l : List Int) : Option Int :=
  l.foldl (fun acc x => match acc with
    | none => some x
    | some m => some (max m x)) none

def minStr? (l : List String) : Option String :=
  l.foldl (fun acc x => match acc with
    | none => some x
    | some m => some (if keyLe m x then m else x)) none

def maxStr? (l : List String) : Option String :=
  l.foldl (fun acc x => match acc with
    | none => some x
    | some m => some (if keyLe m x then x else m)) none

/-- `enforce_tx_balanced(_tx_id)` from the genesis schema: the aggregate
checks run by the deferred constraint trigger `ck_tx_balanced` at commit
time over all entries of one transaction. -/
def enforce_tx_balanced (entries : List LedgerEntry) (txId : String) :
    Except LErr Unit :=
  let l := entries.filter (fun e => e.tx_id == txId)
  let n := l.length
  let nDebit := (l.filter (fun e => e.direction == Direction.debit)).length
  let nCredit := (l.filter (fun e => e.direction == Direction.credit)).length
  let amtMin := minInt? (l.map (fun e => e.amount_cents))
  let amtMax := maxInt? (l.map (fun e => e.amount_cents))
  let curMin := minStr? (l.map (fun e => e.currency))
  let curMax := maxStr? (l.map (fun e => e.currency))
  if n == 0 then .ok ()
  else if !(n == 2 && nDebit == 1 && nCredit == 1) then
    .error (.integrity "unbalanced: expected 2 entries (1 DEBIT, 1 CREDIT)")
  else
    match amtMin, amtMax with
    | some a, some b =>
      if !(a == b) then .error (.integrity "unbalanced: amounts mismatch")
      else
        match curMin, curMax with
        | some c, some d =>
          if !(c == d) then .error (.integrity "unbalanced: currency mismatch")
          else .ok ()
        | _, _ => .error (.integrity "unbalanced: currency mismatch")
    | _, _ => .error (.integrity "unbalanced: amounts mismatch")

/-- Run the deferred `ck_tx_balanced` trigger at commit for the
transactions touched inside the committing transaction. -/
def runDeferredBalanced (s : DBState) : List String → Except LErr Unit
  | [] => .ok ()
  | t :: rest =>
    match enforce_tx_balanced s.entries t with
    | .error e => .error e
    | .ok _ => runDeferredBalanced s rest

/-- Insert one `ledger_tx` row: CHECK constraints, primary key, the two
unique indexes and the foreign key into `idempotency`. -/
def insertLedgerTxRow (s : DBState) (t : LedgerTx) : Except LErr DBState :=
  if !(nonblank t.external_ref) || !(nonblank t.correlation_id) ||
     !(nonblank t.idempotency_key) then
    .error (.integrity "ledger_tx check constraint")
  else if s.txs.any (fun r => r.tx_id == t.tx_id) then
    .error (.uniqueViolation "ledger_tx_pkey")
  else if s.txs.any (fun r => r.external_ref == t.external_ref) then
    .error (.uniqueViolation "uq_ledger_tx_external_ref")
  else if s.txs.any (fun r => r.idempotency_key == t.idempotency_key) then
    .error (.uniqueViolation "uq_ledger_tx_idem")
  else if !(s.idem.any (fun r => r.key == t.idempotency_key)) then
    .error (.integrity "fk_ledger_tx_idem")
  else .ok { s with txs := s.txs ++ [t] }

/-- Insert one `ledger_entry` row: CHECK constraints, primary key and
foreign keys. -/
def insertLedgerEntryRow (s : DBState) (e : LedgerEntry) : Except LErr DBState :=
  if !(decide (0 < e.amount_cents)) then
    .error (.integrity "ck_ledger_entry_amount_pos")
  else if !(isCurrencyCode e.currency) then
    .error (.integrity "ck_ledger_entry_currency")
  else if s.entries.any (fun r => r.entry_id == e.entry_id) then
    .error (.uniqueViolation "ledger_entry_pkey")
  else if !(s.txs.any (fun r => r.tx_id == e.tx_id)) then
    .error (.integrity "ledger_entry tx_id fkey")
  else if !(s.accounts.any (fun a => a.account_id == e.account_id)) then
    .error (.integrity "ledger_entry account_id fkey")
  else .ok { s with entries := s.entries ++ [e] }

/-- `post_balanced_tx` from the genesis schema: validations, then one
`ledger_tx` insert and exactly two `ledger_entry` inserts (debit first),
all inside the caller's transaction. -/
def post_balanced_tx (s : DBState)
    (txId externalRef correlationId idempotencyKey : String)
    (debitAccountId creditAccountId : String) (amountCents : Int)
    (currency : String) (debitEntryId creditEntryId : String) :
    Except LErr DBState :=
  if !(nonblank externalRef) then
    .error (.integrity "external_ref must be non-empty")
  else if !(nonblank correlationId) then
    .error (.integrity "correlation_id must be non-empty")
  else if !(nonblank idempotencyKey) then
    .error (.integrity "idempotency_key must be non-empty")
  else if debitAccountId == creditAccountId then
    .error (.integrity "debit and credit accounts must differ")
  else if !(decide (0 < amountCents)) then
    .error (.integrity "amount_cents must be > 0")
  else if !(isCurrencyCode currency) then
    .error (.integrity "currency must be [A-Z]{3}")
  else
    match insertLedgerTxRow s ⟨txId, externalRef, correlationId, idempotencyKey⟩ with
    | .error e => .error e
    | .ok s1 =>
      match insertLedgerEntryRow s1
          ⟨debitEntryId, txId, debitAccountId, .debit, amountCents, currency⟩ with
      | .error e => .error e
      | .ok s2 =>
        insertLedgerEntryRow s2
          ⟨creditEntryId, txId, creditAccountId, .credit, amountCents, currency⟩

/-- `forbid_update_delete()`: the trigger function attached BEFORE UPDATE
OR DELETE to the five append-only tables; it always raises. -/
def forbid_update_delete (op tbl : String) : Except LErr Unit :=
  .error (.immutability op tbl)

/-- Attempt `UPDATE ledger_tx`: the `immut_ledger_tx` trigger fires for
each affected row. -/
def updateLedgerTx (s : DBState) (p : LedgerTx → Bool) (f : LedgerTx → LedgerTx) :
    Except LErr DBState :=
  if s.txs.any p then
    match forbid_update_delete "UPDATE" "ledger_tx" with
    | .error e => .error e
    | .ok _ => .ok { s with txs := s.txs.map (fun r => if p r then f r else r) }
  else .ok s

/-- Attempt `DELETE FROM ledger_tx`. -/
def deleteLedgerTx (s : DBState) (p : LedgerTx → Bool) : Except LErr DBState :=
  if s.txs.any p then
    match forbid_update_delete "DELETE" "ledger_tx" with
    | .error e => .error e
    | .ok _ => .ok { s with txs := s.txs.filter (fun r => !(p r)) }
  else .ok s

/-- Attempt `UPDATE ledger_entry` (`immut_ledger_entry`). -/
def updateLedgerEntry (s : DBState) (p : LedgerEntry → Bool)
    (f : LedgerEntry → LedgerEntry) : Except LErr DBState :=
  if s.entries.any p then
    match forbid_update_delete "UPDATE" "ledger_entry" with
    | .error e => .error e
    | .ok _ => .ok { s with entries := s.entries.map (fun r => if p r then f r else r) }
  else .ok s

/-- Attempt `DELETE FROM ledger_entry`. -/
def deleteLedgerEntry (s : DBState) (p : LedgerEntry → Bool) : Except LErr DBState :=
  if s.entries.any p then
    match forbid_update_delete "DELETE" "ledger_entry" with
    | .error e => .error e
    | .ok _ => .ok { s with entries := s.entries.filter (fun r => !(p r)) }
  else .ok s

/-- Attempt `UPDATE event_log` (`immut_event_log`). -/
def updateEventLog (s : DBState) (p : EventRow → Bool) (f : EventRow → EventRow) :
    Except LErr DBState :=
  if s.events.any p then
    match forbid_update_delete "UPDATE" "event_log" with
    | .error e => .error e
    | .ok _ => .ok { s with events := s.events.map (fun r => if p r then f r else r) }
  else .ok s

/-- Attempt `DELETE FROM event_log`. -/
def deleteEventLog (s : DBState) (p : EventRow → Bool) : Except LErr DBState :=
  if s.events.any p then
    match forbid_update_delete "DELETE" "event_log" with
    | .error e => .error e
    | .ok _ => .ok { s with events := s.events.filter (fun r => !(p r)) }
  else .ok s

/-- Attempt `UPDATE valuation_snapshot`
(`valuation_snapshot_immutability`). -/
def updateValuationSnapshot (s : DBState) (p : ValuationSnapshot → Bool)
    (f : ValuationSnapshot → ValuationSnapshot) : Except LErr DBState :=
  if s.valuations.any p then
    match forbid_update_delete "UPDATE" "valuation_snapshot" with
    | .error e => .error e
    | .ok _ => .ok { s with valuations := s.valuations.map (fun r => if p r then f r else r) }
  else .ok s

/-- Attempt `DELETE FROM valuation_snapshot`. -/
def deleteValuationSnapshot (s : DBState) (p : ValuationSnapshot → Bool) :
    Except LErr DBState :=
  if s.valuations.any p then
    match forbid_update_delete "DELETE" "valuation_snapshot" with
    | .error e => .error e
    | .ok _ => .ok { s with valuations := s.valuations.filter (fun r => !(p r)) }
  else .ok s

/-- Attempt `UPDATE liquidity_snapshot`
(`liquidity_snapshot_immutability`). -/
def updateLiquiditySnapshot (s : DBState) (p : LiquiditySnapshot → Bool)
    (f : LiquiditySnapshot → LiquiditySnapshot) : Except LErr DBState :=
  if s.liquidity.any p then
    match forbid_update_delete "UPDATE" "liquidity_snapshot" with
    | .error e => .error e
    | .ok _ => .ok { s with liquidity := s.liquidity.map (fun r => if p r then f r else r) }
  else .ok s

/-- Attempt `DELETE FROM liquidity_snapshot`. -/
def deleteLiquiditySnapshot (s : DBState) (p : LiquiditySnapshot → Bool) :
    Except LErr DBState :=
  if s.liquidity.any p then
    match forbid_update_delete "DELETE" "liquidity_snapshot" with
    | .error e => .error e
    | .ok _ => .ok { s with liquidity := s.liquidity.filter (fun r => !(p r)) }
  else .ok s

/-- `trg_idempotency_guard`: the BEFORE UPDATE trigger on `idempotency`
that freezes immutable columns and restricts status transitions. -/
def trg_idempotency_guard (old new : IdemRow) : Except LErr IdemRow :=
  if !(new.key == old.key) then
    .error (.integrity "idempotency.key is immutable")
  else if !(new.request_hash == old.request_hash) then
    .error (.integrity "idempotency.request_hash is immutable")
  else if !(new.created_at == old.created_at) then
    .error (.integrity "idempotency.created_at is immutable")
  else if old.status == IdemStatus.reserved &&
      (!(new.status == old.status) && !(new.status == IdemStatus.committed)) then
    .error (.integrity "illegal idempotency status transition")
  else if !(old.status == IdemStatus.reserved) && !(new.status == old.status) then
    .error (.integrity "idempotency.status is immutable once COMMITTED")
  else if !(old.tx_id == none) && !(new.tx_id == old.tx_id) then
    .error (.integrity "idempotency.tx_id is immutable once set")
  else if new.status == IdemStatus.committed && new.tx_id == none then
    .error (.integrity "COMMITTED requires tx_id")
  else if old.status == IdemStatus.committed &&
      !(new.response_json == old.response_json) then
    .error (.integrity "idempotency.response_json is immutable once COMMITTED")
  else .ok new

/-- `idem_commit(_key, _tx_id, _response_json)`: the SECURITY DEFINER
commit procedure.  Locks the anchor row; a missing key raises; a
COMMITTED row is returned as stored; a RESERVED row is updated through
the guard trigger to COMMITTED with the bound `tx_id` and response.
Returns the stored (replay-safe) record. -/
def idem_commit (s : DBState) (key txId : String) (resp : JObj) :
    Except LErr (IdemRow × DBState) :=
  match findIdem s key with
  | none => .error (.integrity "idempotency key not found")
  | some r =>
    if r.status == IdemStatus.committed then .ok (r, s)
    else
      let updated : IdemRow :=
        { r with tx_id := some txId, response_json := some resp,
                 status := IdemStatus.committed }
      match trg_idempotency_guard r updated with
      | .error e => .error e
      | .ok newRow =>
        .ok (newRow,
          { s with idem := s.idem.map (fun q => if q.key == key then newRow else q) })

/-! ## Posting engine (Go `internal/store`) -/

/-- `TransferIdemShape`: the canonical, deterministic request shape for
transfer idempotency hashing (struct field order is declaration order). -/
structure TransferIdemShape where
  fromAccountId : String
  toAccountId : String
  amountCents : Int
  currency : String
  externalRef : String
  idempotencyKey : String
  correlationId : String
deriving DecidableEq

/-- The JSON object `json.Marshal` produces for `TransferIdemShape`:
keys in struct declaration order. -/
def shapeFields (sh : TransferIdemShape) : JObj :=
  [("from_account_id", .s sh.fromAccountId),
   ("to_account_id", .s sh.toAccountId),
   ("amount_cents", .i sh.amountCents),
   ("currency", .s sh.currency),
   ("external_ref", .s sh.externalRef),
   ("idempotency_key", .s sh.idempotencyKey),
   ("correlation_id", .s sh.correlationId)]

/-- Go `hashTransferIdem`: hex SHA-256 of `json.Marshal(shape)` — the
struct-ordered JSON bytes, not a canonicalized form. -/
def hashTransferIdem (sh : TransferIdemShape) : String :=
  hexEncode (sha256Bytes (utf8Bytes (goRender (shapeFields sh))))

/-- Go `normalizeCurrency`: trim, upper-case, require length 3. -/
def normalizeCurrency (cur : String) : Except LErr String :=
  let cur := strToUpper (trimChars cur)
  if !(cur.length == 3) then .error .validation else .ok cur

/-- Go `buildTransferIdemShape`: validations and normalization before
hashing. -/
def buildTransferIdemShape (fromAcc toAcc : String) (amountCents : Int)
    (currency externalRef idemKey correlationId : String) :
    Except LErr TransferIdemShape :=
  if fromAcc == uuidNil || toAcc == uuidNil || fromAcc == toAcc then
    .error .validation
  else if decide (amountCents ≤ 0) then .error .validation
  else
    let externalRef := trimChars externalRef
    let idemKey := trimChars idemKey
    let correlationId := trimChars correlationId
    if externalRef == "" || idemKey == "" || correlationId == "" then
      .error .validation
    else
      match normalizeCurrency currency with
      | .error e => .error e
      | .ok cur =>
        .ok ⟨fromAcc, toAcc, amountCents, cur, externalRef, idemKey, correlationId⟩

/-- Arguments of `PostTransfer`. -/
structure TransferArgs where
  fromAcc : String
  toAcc : String
  amountCents : Int
  currency : String
  externalRef : String
  idemKey : String
  correlationId : String
deriving DecidableEq

/-- The values the storage engine supplies during one `PostTransfer`
call: fresh `uuid.New()` identifiers and the statement timestamp. -/
structure FreshIds where
  txId : String
  debitEntryId : String
  creditEntryId : String
  eventId : String
  now : String
deriving DecidableEq

/-- Go `CreateAccount`: validate, insert the account row and append one
`ACCOUNT_CREATED` event, in one transaction.  On any error the
transaction rolls back and the state is unchanged. -/
def CreateAccount (s : DBState) (label currency correlationId : String)
    (accId eventId now : String) : Except LErr String × DBState :=
  let label := trimChars label
  if label == "" || !(nonblank correlationId) then (.error .validation, s)
  else
    match normalizeCurrency currency with
    | .error e => (.error e, s)
    | .ok cur =>
      if s.accounts.any (fun a => a.account_id == accId) then
        (.error (.uniqueViolation "accounts_pkey"), s)
      else if !(isCurrencyCode cur) then
        (.error (.integrity "ck_accounts_currency"), s)
      else
        let s1 := { s with accounts := s.accounts ++ [⟨accId, label, cur⟩] }
        let payload : JObj :=
          [("account_id", .s accId), ("label", .s label), ("currency", .s cur)]
        match insertEventApp s1 "ACCOUNT_CREATED" "ACCOUNT" accId correlationId
            payload eventId now with
        | .error e => (.error e, s)
        | .ok s2 => (.ok accId, s2)

/-- Go `PostTransfer`: strict idempotency around the balanced posting
procedure.  Mirrors the source step for step: shape validation and
hashing, advisory-lock-serialized `INSERT ... ON CONFLICT DO NOTHING`
into `idempotency`, the replay path, account/currency checks,
`post_balanced_tx`, `idem_commit`, the `TRANSFER_POSTED` event, and the
deferred balanced check at commit.  On any error the transaction rolls
back and the original state is returned. -/
def PostTransfer (s : DBState) (a : TransferArgs) (ids : FreshIds) :
    Except LErr String × DBState :=
  match buildTransferIdemShape a.fromAcc a.toAcc a.amountCents a.currency
      a.externalRef a.idemKey a.correlationId with
  | .error e => (.error e, s)
  | .ok shape =>
    let requestHash := hashTransferIdem shape
    match findIdem s shape.idempotencyKey with
    | some r =>
      if !(r.request_hash == requestHash) then (.error .idemConflict, s)
      else
        match r.tx_id with
        | none => (.error .validation, s)
        | some t => (.ok t, s)
    | none =>
      if !(nonblank shape.idempotencyKey) then
        (.error (.integrity "ck_idem_key_nonempty"), s)
      else if !(requestHash.length == 64) then
        (.error (.integrity "ck_idem_hash_len64"), s)
      else
        let s0 := { s with idem := s.idem ++
          [⟨shape.idempotencyKey, requestHash, none, none, .reserved, ids.now⟩] }
        match findAccount s0 a.fromAcc with
        | none => (.error .notFound, s)
        | some fa =>
          match findAccount s0 a.toAcc with
          | none => (.error .notFound, s)
          | some ta =>
            if !(fa.currency == shape.currency) || !(ta.currency == shape.currency) then
              (.error .validation, s)
            else
              match post_balanced_tx s0 ids.txId shape.externalRef
                  shape.correlationId shape.idempotencyKey a.fromAcc a.toAcc
                  shape.amountCents shape.currency ids.debitEntryId
                  ids.creditEntryId with
              | .error e => (.error e, s)
              | .ok s1 =>
                let resp : JObj := [("tx_id", .s ids.txId)]
                match idem_commit s1 shape.idempotencyKey ids.txId resp with
                | .error e => (.error e, s)
                | .ok (row, s2) =>
                  match row.tx_id with
                  | none => (.error (.storage "idem_commit returned NULL tx_id"), s)
                  | some committedTx =>
                    let payload : JObj :=
                      [("tx_id", .s committedTx), ("from", .s a.fromAcc),
                       ("to", .s a.toAcc), ("amount_cents", .i shape.amountCents),
                       ("currency", .s shape.currency),
                       ("external_ref", .s shape.externalRef),
                       ("idempotency", .s shape.idempotencyKey)]
                    match insertEventApp s2 "TRANSFER_POSTED" "LEDGER_TX"
                        committedTx shape.correlationId payload ids.eventId ids.now with
                    | .error e => (.error e, s)
                    | .ok s3 =>
                      match runDeferredBalanced s3 [ids.txId] with
                      | .error e => (.error e, s)
                      | .ok _ => (.ok committedTx, s3)

/-- The balance of an account: `sum(CREDIT) − sum(DEBIT)` over its
entries. -/
def balanceCents (s : DBState) (accId : String) : Int :=
  ((s.entries.filter (fun e => e.account_id == accId &&
      e.direction == Direction.credit)).map (fun e => e.amount_cents)).sum -
  ((s.entries.filter (fun e => e.account_id == accId &&
      e.direction == Direction.debit)).map (fun e => e.amount_cents)).sum

/-- Go `Balance`: validation, account lookup, then the credit/debit
aggregation. -/
def Balance (s : DBState) (accountId : String) : Except LErr (String × Int) :=
  if accountId == uuidNil then .error .validation
  else
    match findAccount s accountId with
    | none => .error .notFound
    | some acc => .ok (acc.currency, balanceCents s accountId)

/-! ## Verifier -/

/-- The record returned by `verify_event_chain_detail`. -/
structure VerifyResult where
  ok : Bool
  break_seq : Option Nat
  reason : Option String
  head_seq : Nat
  head_hash_hex : String
  event_count : Nat
deriving DecidableEq

def insertBySeq (e : EventRow) : List EventRow → List EventRow
  | [] => [e]
  | x :: rest => if e.seq ≤ x.seq then e :: x :: rest else x :: insertBySeq e rest

/-- `ORDER BY seq ASC` over the persisted event rows. -/
def sortBySeq : List EventRow → List EventRow
  | [] => []
  | e :: rest => insertBySeq e (sortBySeq rest)

/-- The row loop of `verify_event_chain_detail`.  A `payload_canonical`
that does not parse as JSON makes the `::jsonb` cast raise, which
aborts the whole procedure (modelled as `.error`), rather than being
reported as a reason. -/
def verifyLoop (hSeq : Nat) (hHash : List Nat) (prev lastEventHash : List Nat)
    (lastSeq cnt : Nat) : List EventRow → Except LErr VerifyResult
  | [] =>
    if !(lastSeq == hSeq) then
      .ok ⟨false, some lastSeq, some "head last_seq mismatch", hSeq, hexEncode hHash, cnt⟩
    else if 0 < lastSeq && !(hHash == lastEventHash) then
      .ok ⟨false, some lastSeq, some "head last_hash mismatch", hSeq, hexEncode hHash, cnt⟩
    else
      .ok ⟨true, none, none, hSeq, hexEncode hHash, cnt⟩
  | r :: rest =>
    let cnt := cnt + 1
    if !(r.seq == lastSeq + 1) then
      .ok ⟨false, some r.seq,
        some ("bad seq: got " ++ toString r.seq ++ " expected " ++ toString (lastSeq + 1)),
        hSeq, hexEncode hHash, cnt⟩
    else if !(r.prev_hash == prev) then
      .ok ⟨false, some r.seq, some "prev_hash mismatch", hSeq, hexEncode hHash, cnt⟩
    else if !(nonblank r.payload_canonical) then
      .ok ⟨false, some r.seq, some "payload_canonical empty", hSeq, hexEncode hHash, cnt⟩
    else
      match parseJObj r.payload_canonical with
      | none => .error (.storage "invalid input syntax for type json")
      | some o =>
        if !(jsonbEq o r.payload_json) then
          .ok ⟨false, some r.seq, some "payload_canonical != payload_json",
            hSeq, hexEncode hHash, cnt⟩
        else if !(r.payload_hash == sha256Utf8 r.payload_canonical) then
          .ok ⟨false, some r.seq, some "payload_hash mismatch", hSeq, hexEncode hHash, cnt⟩
        else if !(r.hash == sha256Utf8 (event_chain_material r.seq r.prev_hash
            r.event_id r.created_at r.event_type r.aggregate_type r.aggregate_id
            r.correlation_id r.payload_hash)) then
          .ok ⟨false, some r.seq, some "hash mismatch", hSeq, hexEncode hHash, cnt⟩
        else
          verifyLoop hSeq hHash r.hash r.hash r.seq cnt rest

/-- `verify_event_chain_detail()`: read the chain head, then scan the
event rows in ascending `seq`. -/
def verify_event_chain_detail (s : DBState) : Except LErr VerifyResult :=
  verifyLoop s.head.last_seq s.head.last_hash [] [] 0 0 (sortBySeq s.events)

/-- `verify_event_chain()`: just the `ok` flag. -/
def verify_event_chain (s : DBState) : Except LErr Bool :=
  match verify_event_chain_detail s with
  | .error e => .error e
  | .ok r => .ok r.ok

/-! ## Risk snapshot layer -/

/-- Insert one `valuation_snapshot` row: CHECK constraints, primary key
and the idempotence unique index; the AFTER INSERT trigger
`trg_valuation_snapshot_event_log` then appends exactly one
`VALUATION_SNAPSHOT` event carrying the snapshot's payload. -/
def insertValuationSnapshot (s : DBState) (v : ValuationSnapshot)
    (eventId now : String) : Except LErr DBState :=
  if !(isCurrencyCode v.currency) then .error (.integrity "valuation_currency_chk")
  else if decide (v.price < 0) then .error (.integrity "valuation_price_chk")
  else if !(decide (0 ≤ v.confidence) && decide (v.confidence ≤ 100)) then
    .error (.integrity "valuation_confidence_chk")
  else if v.payload_canonical.length == 0 then
    .error (.integrity "valuation_payload_canonical_nonempty_chk")
  else if !(semanticMatches v.payload_canonical v.payload_json) then
    .error (.integrity "valuation_payload_semantic_match_chk")
  else if !(v.payload_hash.length == 32) then
    .error (.integrity "valuation_payload_hash_len_chk")
  else if s.valuations.any (fun r => r.snapshot_id == v.snapshot_id) then
    .error (.uniqueViolation "valuation_snapshot_pkey")
  else if s.valuations.any (fun r =>
      r.asset_type == v.asset_type && r.asset_id == v.asset_id &&
      r.as_of == v.as_of && r.source == v.source &&
      r.payload_hash == v.payload_hash) then
    .error (.uniqueViolation "valuation_snapshot_idempotence_uq")
  else
    event_log_insert { s with valuations := s.valuations ++ [v] }
      ⟨eventId, "VALUATION_SNAPSHOT", "RISK_SNAPSHOT", v.snapshot_id,
       v.ingestion_correlation_id, v.payload_json, v.payload_canonical, none⟩ now

/-- Insert one `liquidity_snapshot` row, analogously emitting one
`LIQUIDITY_SNAPSHOT` event. -/
def insertLiquiditySnapshot (s : DBState) (v : LiquiditySnapshot)
    (eventId now : String) : Except LErr DBState :=
  if !(decide (0 ≤ v.haircut_bps) && decide (v.haircut_bps ≤ 10000)) then
    .error (.integrity "liquidity_haircut_chk")
  else if !(decide (0 ≤ v.time_to_cash_seconds)) then
    .error (.integrity "liquidity_ttc_chk")
  else if v.payload_canonical.length == 0 then
    .error (.integrity "liquidity_payload_canonical_nonempty_chk")
  else if !(semanticMatches v.payload_canonical v.payload_json) then
    .error (.integrity "liquidity_payload_semantic_match_chk")
  else if !(v.payload_hash.length == 32) then
    .error (.integrity "liquidity_payload_hash_len_chk")
  else if s.liquidity.any (fun r => r.snapshot_id == v.snapshot_id) then
    .error (.uniqueViolation "liquidity_snapshot_pkey")
  else if s.liquidity.any (fun r =>
      r.asset_type == v.asset_type && r.asset_id == v.asset_id &&
      r.as_of == v.as_of && r.source == v.source &&
      r.payload_hash == v.payload_hash) then
    .error (.uniqueViolation "liquidity_snapshot_idempotence_uq")
  else
    event_log_insert { s with liquidity := s.liquidity ++ [v] }
      ⟨eventId, "LIQUIDITY_SNAPSHOT", "RISK_SNAPSHOT", v.snapshot_id,
       v.ingestion_correlation_id, v.payload_json, v.payload_canonical, none⟩ now

/-! ## The operation surface

The operations the runtime principal can execute (§6 of the design:
`create_account`, `post_transfer`, the snapshot ingests, plus reads and
the always-rejected direct mutations of the append-only tables).  A
failing operation leaves the state unchanged (transaction rollback). -/

inductive Op where
  | createAccount (label currency correlationId accId eventId now : String)
  | postTransfer (a : TransferArgs) (ids : FreshIds)
  | insertValuation (v : ValuationSnapshot) (eventId now : String)
  | insertLiquidity (v : LiquiditySnapshot) (eventId now : String)
  | tamperLedgerTx (p : LedgerTx → Bool) (f : LedgerTx → LedgerTx)
  | tamperLedgerEntry (p : LedgerEntry → Bool) (f : LedgerEntry → LedgerEntry)
  | tamperEventLog (p : EventRow → Bool) (f : EventRow → EventRow)
  | tamperValuation (p : ValuationSnapshot → Bool) (f : ValuationSnapshot → ValuationSnapshot)
  | tamperLiquidity (p : LiquiditySnapshot → Bool) (f : LiquiditySnapshot → LiquiditySnapshot)
  | purgeLedgerTx (p : LedgerTx → Bool)
  | purgeLedgerEntry (p : LedgerEntry → Bool)
  | purgeEventLog (p : EventRow → Bool)
  | purgeValuation (p : ValuationSnapshot → Bool)
  | purgeLiquidity (p : LiquiditySnapshot → Bool)

/-- Apply one operation; an error keeps the previous state (rollback). -/
def runOp (s : DBState) : Op → DBState
  | .createAccount label currency correlationId accId eventId now =>
      (CreateAccount s label currency correlationId accId eventId now).2
  | .postTransfer a ids => (PostTransfer s a ids).2
  | .insertValuation v eventId now =>
      match insertValuationSnapshot s v eventId now with
      | .error _ => s
      | .ok s' => s'
  | .insertLiquidity v eventId now =>
      match insertLiquiditySnapshot s v eventId now with
      | .error _ => s
      | .ok s' => s'
  | .tamperLedgerTx p f =>
      match updateLedgerTx s p f with
      | .error _ => s
      | .ok s' => s'
  | .tamperLedgerEntry p f =>
      match updateLedgerEntry s p f with
      | .error _ => s
      | .ok s' => s'
  | .tamperEventLog p f =>
      match updateEventLog s p f with
      | .error _ => s
      | .ok s' => s'
  | .tamperValuation p f =>
      match updateValuationSnapshot s p f with
      | .error _ => s
      | .ok s' => s'
  | .tamperLiquidity p f =>
      match updateLiquiditySnapshot s p f with
      | .error _ => s
      | .ok s' => s'
  | .purgeLedgerTx p =>
      match deleteLedgerTx s p with
      | .error _ => s
      | .ok s' => s'
  | .purgeLedgerEntry p =>
      match deleteLedgerEntry s p with
      | .error _ => s
      | .ok s' => s'
  | .purgeEventLog p =>
      match deleteEventLog s p with
      | .error _ => s
      | .ok s' => s'
  | .purgeValuation p =>
      match deleteValuationSnapshot s p with
      | .error _ => s
      | .ok s' => s'
  | .purgeLiquidity p =>
      match deleteLiquiditySnapshot s p with
      | .error _ => s
      | .ok s' => s'

/-- Run a sequence of operations from a state. -/
def runOps (s : DBState) (ops : List Op) : DBState :=
  ops.foldl runOp s

/-! ## Auxiliary notions used by the statements -/

/-- Insert a batch of `ledger_entry` rows, one statement each. -/
def insertEntriesSeq (s : DBState) : List LedgerEntry → Except LErr DBState
  | [] => .ok s
  | e :: rest =>
    match insertLedgerEntryRow s e with
    | .error err => .error err
    | .ok s1 => insertEntriesSeq s1 rest

/-- A direct storage write (no `post_balanced_tx`): insert one
`ledger_tx` row and some `ledger_entry` rows, then commit, which fires
the deferred `ck_tx_balanced` trigger for each inserted entry row. -/
def directInsertCommit (s : DBState) (t : LedgerTx) (es : List LedgerEntry) :
    Except LErr DBState :=
  match insertLedgerTxRow s t with
  | .error err => .error err
  | .ok s1 =>
    match insertEntriesSeq s1 es with
    | .error err => .error err
    | .ok s2 =>
      match runDeferredBalanced s2 (es.map (fun e => e.tx_id)) with
      | .error err => .error err
      | .ok _ => .ok s2

/-- The request hash the specification describes: SHA-256 over the
RFC 8785 (JCS) canonicalization of the request shape.  (Stated from the
spec's words, for comparison with `hashTransferIdem` from the code.) -/
def specCanonicalRequestHash (sh : TransferIdemShape) : String :=
  hexEncode (sha256Bytes (utf8Bytes (jcsRender (shapeFields sh))))

/-- Exactly one debit and one credit with equal positive amounts and
equal currencies — the entry pair of a balanced transaction, in either
storage order. -/
def isEntryPair (l : List LedgerEntry) : Bool :=
  match l with
  | [d, c] =>
    ((d.direction == Direction.debit && c.direction == Direction.credit) ||
     (d.direction == Direction.credit && c.direction == Direction.debit)) &&
    d.amount_cents == c.amount_cents && d.currency == c.currency &&
    decide (0 < d.amount_cents) && decide (0 < c.amount_cents)
  | _ => false

/-- Structural well-formedness of a state: the uniqueness, foreign-key
and balanced-pair facts the schema maintains. -/
def wfB (s : DBState) : Bool :=
  decide ((s.accounts.map (fun a => a.account_id)).Nodup) &&
  decide ((s.idem.map (fun r => r.key)).Nodup) &&
  decide ((s.txs.map (fun t => t.tx_id)).Nodup) &&
  decide ((s.txs.map (fun t => t.idempotency_key)).Nodup) &&
  s.entries.all (fun e => s.accounts.any (fun a => a.account_id == e.account_id)) &&
  s.entries.all (fun e => s.txs.any (fun t => t.tx_id == e.tx_id)) &&
  s.txs.all (fun t => isEntryPair (s.entries.filter (fun e => e.tx_id == t.tx_id))) &&
  s.txs.all (fun t => s.idem.any (fun r => r.key == t.idempotency_key)) &&
  s.idem.all (fun r =>
    match r.tx_id with
    | none => true
    | some tid => s.txs.any (fun t => t.tx_id == tid && t.idempotency_key == r.key))

def wf (s : DBState) : Prop := wfB s = true

/-- `sum(CREDIT amounts) − sum(DEBIT amounts)` over the entries of one
transaction. -/
def txNet (s : DBState) (txId : String) : Int :=
  ((s.entries.filter (fun e => e.tx_id == txId &&
      e.direction == Direction.credit)).map (fun e => e.amount_cents)).sum -
  ((s.entries.filter (fun e => e.tx_id == txId &&
      e.direction == Direction.debit)).map (fun e => e.amount_cents)).sum

/-- The events matching a valuation snapshot row. -/
def valEventsFor (s : DBState) (snapId : String) : List EventRow :=
  s.events.filter (fun e =>
    e.event_type == "VALUATION_SNAPSHOT" && e.aggregate_id == snapId)

/-- The events matching a liquidity snapshot row. -/
def liqEventsFor (s : DBState) (snapId : String) : List EventRow :=
  s.events.filter (fun e =>
    e.event_type == "LIQUIDITY_SNAPSHOT" && e.aggregate_id == snapId)

/-- The 1:1 snapshot/event invariant: every snapshot row has exactly one
matching event, carrying the `RISK_SNAPSHOT` aggregate and the
ingestion correlation id, and every snapshot-typed event belongs to a
snapshot row. -/
def snapInvB (s : DBState) : Bool :=
  decide ((s.valuations.map (fun v => v.snapshot_id)).Nodup) &&
  decide ((s.liquidity.map (fun v => v.snapshot_id)).Nodup) &&
  s.valuations.all (fun v =>
    match valEventsFor s v.snapshot_id with
    | [e] => e.aggregate_type == "RISK_SNAPSHOT" &&
             e.correlation_id == v.ingestion_correlation_id
    | _ => false) &&
  s.liquidity.all (fun v =>
    match liqEventsFor s v.snapshot_id with
    | [e] => e.aggregate_type == "RISK_SNAPSHOT" &&
             e.correlation_id == v.ingestion_correlation_id
    | _ => false) &&
  s.events.all (fun e =>
    !(e.event_type == "VALUATION_SNAPSHOT") ||
      s.valuations.any (fun v => v.snapshot_id == e.aggregate_id)) &&
  s.events.all (fun e =>
    !(e.event_type == "LIQUIDITY_SNAPSHOT") ||
      s.liquidity.any (fun v => v.snapshot_id == e.aggregate_id))

def snapInv (s : DBState) : Prop := snapInvB s = true

/-- Extract the payload of an `Except.ok`, with a default. -/
def exceptGetD {ε α : Type} (x : Except ε α) (d : α) : α :=
  match x with
  | .ok a => a
  | .error _ => d

/-- The `TRANSFER_POSTED` event payload built by `PostTransfer`. -/
def transferPostedPayload (a : TransferArgs) (ids : FreshIds)
    (shape : TransferIdemShape) : JObj :=
  [("tx_id", .s ids.txId), ("from", .s a.fromAcc), ("to", .s a.toAcc),
   ("amount_cents", .i shape.amountCents), ("currency", .s shape.currency),
   ("external_ref", .s shape.externalRef),
   ("idempotency", .s shape.idempotencyKey)]

/-- The state after a successful first-write `PostTransfer`: the
committed anchor, the transaction row, the debit/credit entry pair, the
`TRANSFER_POSTED` event and the advanced chain head. -/
def postedState (s : DBState) (a : TransferArgs) (ids : FreshIds)
    (shape : TransferIdemShape) : DBState :=
  let payload := transferPostedPayload a ids shape
  { s with
    idem := s.idem ++ [⟨shape.idempotencyKey, hashTransferIdem shape,
      some ids.txId, some [("tx_id", .s ids.txId)], .committed, ids.now⟩],
    txs := s.txs ++ [⟨ids.txId, shape.externalRef, shape.correlationId,
      shape.idempotencyKey⟩],
    entries := s.entries ++
      [⟨ids.debitEntryId, ids.txId, a.fromAcc, .debit, shape.amountCents,
        shape.currency⟩,
       ⟨ids.creditEntryId, ids.txId, a.toAcc, .credit, shape.amountCents,
        shape.currency⟩],
    events := s.events ++ [⟨ids.eventId, "TRANSFER_POSTED", "LEDGER_TX",
      ids.txId, shape.correlationId, payload, jcsRender payload, ids.now,
      s.head.last_seq + 1, s.head.last_hash, sha256Utf8 (jcsRender payload),
      sha256Utf8 (event_chain_material (s.head.last_seq + 1) s.head.last_hash
        ids.eventId ids.now "TRANSFER_POSTED" "LEDGER_TX" ids.txId
        shape.correlationId (sha256Utf8 (jcsRender payload)))⟩],
    head := ⟨s.head.last_seq + 1,
      sha256Utf8 (event_chain_material (s.head.last_seq + 1) s.head.last_hash
        ids.eventId ids.now "TRANSFER_POSTED" "LEDGER_TX" ids.txId
        shape.correlationId (sha256Utf8 (jcsRender payload)))⟩ }

/-! ## Specification-side verifier

A transcription of the specification's description of `verify_chain`
(§4.7 of the design), kept separate from `verifyLoop` (which is
translated from the SQL), to be compared with it: one `prev`
accumulator initially empty, one `last_seq` counter initially 0, the
row checks in the stated order, the two head checks after the loop, and
`ok = true` exactly when every check passes. -/

def verifySpecLoop (hSeq : Nat) (hHash : List Nat) (prev : List Nat)
    (lastSeq cnt : Nat) : List EventRow → Except LErr VerifyResult
  | [] =>
    if !(lastSeq == hSeq) then
      .ok ⟨false, some lastSeq, some "head last_seq mismatch", hSeq,
           hexEncode hHash, cnt⟩
    else if 0 < cnt && !(hHash == prev) then
      .ok ⟨false, some lastSeq, some "head last_hash mismatch", hSeq,
           hexEncode hHash, cnt⟩
    else .ok ⟨true, none, none, hSeq, hexEncode hHash, cnt⟩
  | r :: rest =>
    let cnt := cnt + 1
    if !(r.seq == lastSeq + 1) then
      .ok ⟨false, some r.seq,
        some ("bad seq: got " ++ toString r.seq ++ " expected " ++
          toString (lastSeq + 1)), hSeq, hexEncode hHash, cnt⟩
    else if !(r.prev_hash == prev) then
      .ok ⟨false, some r.seq, some "prev_hash mismatch", hSeq, hexEncode hHash, cnt⟩
    else if !(nonblank r.payload_canonical) then
      .ok ⟨false, some r.seq, some "payload_canonical empty", hSeq,
           hexEncode hHash, cnt⟩
    else
      match parseJObj r.payload_canonical with
      | none => .error (.storage "invalid input syntax for type json")
      | some o =>
        if !(jsonbEq o r.payload_json) then
          .ok ⟨false, some r.seq, some "payload_canonical != payload_json",
               hSeq, hexEncode hHash, cnt⟩
        else if !(r.payload_hash == sha256Utf8 r.payload_canonical) then
          .ok ⟨false, some r.seq, some "payload_hash mismatch", hSeq,
               hexEncode hHash, cnt⟩
        else if !(r.hash == sha256Utf8 (event_chain_material r.seq r.prev_hash
            r.event_id r.created_at r.event_type r.aggregate_type
            r.aggregate_id r.correlation_id r.payload_hash)) then
          .ok ⟨false, some r.seq, some "hash mismatch", hSeq, hexEncode hHash, cnt⟩
        else verifySpecLoop hSeq hHash r.hash r.seq cnt rest

/-- The specification's verifier over a state. -/
def verifySpec (s : DBState) : Except LErr VerifyResult :=
  verifySpecLoop s.head.last_seq s.head.last_hash [] 0 0 (sortBySeq s.events)

/-- "Every check passes": the declarative reading of the row checks and
the two head checks, with no early exit and no reporting. -/
def chainOkB (hSeq : Nat) (hHash : List Nat) (prev : List Nat)
    (lastSeq : Nat) : List EventRow → Bool
  | [] => lastSeq == hSeq && (lastSeq == 0 || hHash == prev)
  | r :: rest =>
    r.seq == lastSeq + 1 && r.prev_hash == prev &&
    nonblank r.payload_canonical &&
    semanticMatches r.payload_canonical r.payload_json &&
    r.payload_hash == sha256Utf8 r.payload_canonical &&
    r.hash == sha256Utf8 (event_chain_material r.seq r.prev_hash r.event_id
      r.created_at r.event_type r.aggregate_type r.aggregate_id
      r.correlation_id r.payload_hash) &&
    chainOkB hSeq hHash r.hash r.seq rest

/-! ## Concrete fixtures used by witnesses -/

/-- A state whose single event row has `seq = 2`: the first row offends
the sequence check. -/
def c3BadSeqState : DBState :=
  ⟨[], [], [], [],
   [⟨"e1", "T", "A", "g1", "c1", [("a", .i 1)], "\x7b\"a\":1\x7d", "now",
     2, [], [], []⟩],
   ⟨2, [170]⟩, [], []⟩

/-- A state whose single event row carries a non-blank
`payload_canonical` that is not parseable JSON. -/
def c3RaiseState : DBState :=
  ⟨[], [], [], [],
   [⟨"e1", "T", "A", "g1", "c1", [("a", .i 1)], "notjson", "now",
     1, [], [], []⟩],
   ⟨1, [170]⟩, [], []⟩

/-- A populated state (one row in each append-only table) used to
witness the append-only claim. -/
def c6State : DBState :=
  ⟨[⟨"a1", "Alice", "EUR"⟩],
   [⟨"k1", "h", some "t1", none, .committed, "now"⟩],
   [⟨"t1", "x1", "c1", "k1"⟩],
   [⟨"e1", "t1", "a1", .debit, 5, "EUR"⟩],
   [⟨"ev1", "T", "A", "g1", "c1", [("a", .i 1)], "canon", "now", 1, [], [], []⟩],
   ⟨1, []⟩,
   [⟨"s1", "c1", "bond", "b1", "2024-01-01", 0, "EUR", "src", 50,
     [("a", .i 1)], "canon", List.replicate 32 0⟩],
   [⟨"s2", "c1", "bond", "b1", "2024-01-01", 0, 0, "src",
     [("a", .i 1)], "canon", List.replicate 32 0⟩]⟩

/-- The event row used to witness the chain-trigger claim. -/
def c2Event : NewEvent :=
  ⟨"eeeeeeee-0000-0000-0000-000000000001", "ACCOUNT_CREATED", "ACCOUNT",
   "aaaaaaaa-0000-0000-0000-000000000001", "c1", [("a", .i 1)],
   "\x7b\"a\":1\x7d", none⟩

/-- A transfer shape with canonically rendered 36-character identifiers,
used to separate the code's hash from the spec's canonicalized hash. -/
def c7Shape : TransferIdemShape :=
  ⟨"aaaaaaaa-0000-0000-0000-000000000001",
   "aaaaaaaa-0000-0000-0000-000000000002",
   2500, "EUR", "pmt-1", "k-pmt-1", "c1"⟩

/-- The transfer request used by the idempotency witnesses; it builds
exactly the shape `c7Shape`. -/
def c5Args : TransferArgs :=
  ⟨"aaaaaaaa-0000-0000-0000-000000000001",
   "aaaaaaaa-0000-0000-0000-000000000002",
   2500, "EUR", "pmt-1", "k-pmt-1", "c1"⟩

/-- Fresh identifiers for the idempotency witnesses. -/
def c5Ids : FreshIds :=
  ⟨"bbbbbbbb-0000-0000-0000-000000000001",
   "cccccccc-0000-0000-0000-000000000001",
   "cccccccc-0000-0000-0000-000000000002",
   "eeeeeeee-0000-0000-0000-000000000001",
   "2024-01-01T00:00:00.000001Z"⟩

/-- A state whose anchor for key `k-pmt-1` stores a request hash that
cannot match any request: the conflict witness. -/
def c5State : DBState :=
  ⟨[], [⟨"k-pmt-1",
     "0000000000000000000000000000000000000000000000000000000000000000",
     none, none, .reserved, "t0"⟩], [], [], [], ⟨0, []⟩, [], []⟩

/-- A well-formed state in which the key `k-pmt-1` is already committed
with the true request hash of `c7Shape` and the transaction `tx-1`: the
replay witness. -/
def c1State : DBState :=
  ⟨[⟨"aaaaaaaa-0000-0000-0000-000000000001", "alice", "EUR"⟩,
    ⟨"aaaaaaaa-0000-0000-0000-000000000002", "bob", "EUR"⟩],
   [⟨"k-pmt-1",
     "70a2d02e46cd53c2c950492fdf7c515dff3bf1f846c69955ad16b6924a909d66",
     some "tx-1", some [("tx_id", .s "tx-1")], .committed, "t0"⟩],
   [⟨"tx-1", "pmt-1", "c1", "k-pmt-1"⟩],
   [⟨"e-1", "tx-1", "aaaaaaaa-0000-0000-0000-000000000001", .debit, 2500, "EUR"⟩,
    ⟨"e-2", "tx-1", "aaaaaaaa-0000-0000-0000-000000000002", .credit, 2500, "EUR"⟩],
   [], ⟨0, []⟩, [], []⟩

/-- The `ledger_tx` row of the direct-insert fixtures. -/
def c4Tx : LedgerTx := ⟨"tx-x", "ref-x", "c-x", "k-x"⟩

/-- A balanced entry pair whose two entries hit the SAME account. -/
def c4Entries : List LedgerEntry :=
  [⟨"en-1", "tx-x", "acc-1", .debit, 100, "EUR"⟩,
   ⟨"en-2", "tx-x", "acc-1", .credit, 100, "EUR"⟩]

/-- One account and one reserved anchor: the state the direct insert
starts from. -/
def c4State : DBState :=
  ⟨[⟨"acc-1", "acct", "EUR"⟩],
   [⟨"k-x", "h0", none, none, .reserved, "t0"⟩], [], [], [], ⟨0, []⟩, [], []⟩

/-- `c4State` after the direct insert of `c4Tx` and `c4Entries`. -/
def c4Posted : DBState :=
  ⟨[⟨"acc-1", "acct", "EUR"⟩],
   [⟨"k-x", "h0", none, none, .reserved, "t0"⟩], [c4Tx], c4Entries, [],
   ⟨0, []⟩, [], []⟩

/-- A valuation snapshot that passes every row CHECK. -/
def c8Val : ValuationSnapshot :=
  ⟨"vs-1", "corr-1", "BOND", "isin-1", "2024-01-01", 100, "EUR", "feed", 90,
   [("p", .i 100)], "\x7b\"p\":100\x7d", List.replicate 32 0⟩

/-- The state after ingesting `c8Val` on the empty ledger. -/
def c8Posted : DBState :=
  exceptGetD (insertValuationSnapshot initState c8Val "ev-1" "t1") initState

/-- The signed contribution of one entry to its account's balance:
`+amount` for a CREDIT, `-amount` for a DEBIT. -/
def signedAmount (e : LedgerEntry) : Int :=
  if e.direction == Direction.credit then e.amount_cents else -e.amount_cents

/-! # Theorems -/

/-- C6: after any sequence of operations, no update and no delete ever
succeeds against `ledger_tx`, `ledger_entry`, `event_log`,
`valuation_snapshot` or `liquidity_snapshot`: every attempt that touches
at least one row raises the immutability error of
`forbid_update_delete`, and in every case the stored rows are unchanged
(the operation-level mutations are always the identity on the state),
so these stores only ever grow by insertion. -/
theorem claim_C6 (s : DBState)
    (p1 : LedgerTx → Bool) (f1 : LedgerTx → LedgerTx)
    (p2 : LedgerEntry → Bool) (f2 : LedgerEntry → LedgerEntry)
    (p3 : EventRow → Bool) (f3 : EventRow → EventRow)
    (p4 : ValuationSnapshot → Bool) (f4 : ValuationSnapshot → ValuationSnapshot)
    (p5 : LiquiditySnapshot → Bool) (f5 : LiquiditySnapshot → LiquiditySnapshot)
    (h1 : s.txs.any p1 = true) (h2 : s.entries.any p2 = true)
    (h3 : s.events.any p3 = true) (h4 : s.valuations.any p4 = true)
    (h5 : s.liquidity.any p5 = true) :
    (updateLedgerTx s p1 f1 = .error (.immutability "UPDATE" "ledger_tx") ∧
     deleteLedgerTx s p1 = .error (.immutability "DELETE" "ledger_tx") ∧
     updateLedgerEntry s p2 f2 = .error (.immutability "UPDATE" "ledger_entry") ∧
     deleteLedgerEntry s p2 = .error (.immutability "DELETE" "ledger_entry") ∧
     updateEventLog s p3 f3 = .error (.immutability "UPDATE" "event_log") ∧
     deleteEventLog s p3 = .error (.immutability "DELETE" "event_log") ∧
     updateValuationSnapshot s p4 f4 = .error (.immutability "UPDATE" "valuation_snapshot") ∧
     deleteValuationSnapshot s p4 = .error (.immutability "DELETE" "valuation_snapshot") ∧
     updateLiquiditySnapshot s p5 f5 = .error (.immutability "UPDATE" "liquidity_snapshot") ∧
     deleteLiquiditySnapshot s p5 = .error (.immutability "DELETE" "liquidity_snapshot")) ∧
    (∀ (q : LedgerTx → Bool) (g : LedgerTx → LedgerTx),
      runOp s (Op.tamperLedgerTx q g) = s ∧ runOp s (Op.purgeLedgerTx q) = s) ∧
    (∀ (q : LedgerEntry → Bool) (g : LedgerEntry → LedgerEntry),
      runOp s (Op.tamperLedgerEntry q g) = s ∧ runOp s (Op.purgeLedgerEntry q) = s) ∧
    (∀ (q : EventRow → Bool) (g : EventRow → EventRow),
      runOp s (Op.tamperEventLog q g) = s ∧ runOp s (Op.purgeEventLog q) = s) ∧
    (∀ (q : ValuationSnapshot → Bool) (g : ValuationSnapshot → ValuationSnapshot),
      runOp s (Op.tamperValuation q g) = s ∧ runOp s (Op.purgeValuation q) = s) ∧
    (∀ (q : LiquiditySnapshot → Bool) (g : LiquiditySnapshot → LiquiditySnapshot),
      runOp s (Op.tamperLiquidity q g) = s ∧ runOp s (Op.purgeLiquidity q) = s) := by
  refine ⟨⟨?_, ?_, ?_, ?_, ?_, ?_, ?_, ?_, ?_, ?_⟩, ?_, ?_, ?_, ?_, ?_⟩
  · simp [updateLedgerTx, h1, forbid_update_delete]
  · simp [deleteLedgerTx, h1, forbid_update_delete]
  · simp [updateLedgerEntry, h2, forbid_update_delete]
  · simp [deleteLedgerEntry, h2, forbid_update_delete]
  · simp [updateEventLog, h3, forbid_update_delete]
  · simp [deleteEventLog, h3, forbid_update_delete]
  · simp [updateValuationSnapshot, h4, forbid_update_delete]
  · simp [deleteValuationSnapshot, h4, forbid_update_delete]
  · simp [updateLiquiditySnapshot, h5, forbid_update_delete]
  · simp [deleteLiquiditySnapshot, h5, forbid_update_delete]
  · intro q g
    constructor
    · cases hc : s.txs.any q <;>
        simp [runOp, updateLedgerTx, forbid_update_delete, hc]
    · cases hc : s.txs.any q <;>
        simp [runOp, deleteLedgerTx, forbid_update_delete, hc]
  · intro q g
    constructor
    · cases hc : s.entries.any q <;>
        simp [runOp, updateLedgerEntry, forbid_update_delete, hc]
    · cases hc : s.entries.any q <;>
        simp [runOp, deleteLedgerEntry, forbid_update_delete, hc]
  · intro q g
    constructor
    · cases hc : s.events.any q <;>
        simp [runOp, updateEventLog, forbid_update_delete, hc]
    · cases hc : s.events.any q <;>
        simp [runOp, deleteEventLog, forbid_update_delete, hc]
  · intro q g
    constructor
    · cases hc : s.valuations.any q <;>
        simp [runOp, updateValuationSnapshot, forbid_update_delete, hc]
    · cases hc : s.valuations.any q <;>
        simp [runOp, deleteValuationSnapshot, forbid_update_delete, hc]
  · intro q g
    constructor
    · cases hc : s.liquidity.any q <;>
        simp [runOp, updateLiquiditySnapshot, forbid_update_delete, hc]
    · cases hc : s.liquidity.any q <;>
        simp [runOp, deleteLiquiditySnapshot, forbid_update_delete, hc]

/-! ### Digest length facts -/

theorem natToBE_length (k n : Nat) : (natToBE k n).length = k := by
  induction k generalizing n with
  | zero => rfl
  | succ k ih => simp [natToBE, ih]

theorem shaRound_length (st : List Nat) (kw : Nat) :
    (shaRound st kw).length = st.length := by
  unfold shaRound
  split <;> simp

theorem foldl_shaRound_length (ks st : List Nat) :
    (ks.foldl shaRound st).length = st.length := by
  induction ks generalizing st with
  | nil => rfl
  | cons k ks ih => rw [List.foldl_cons, ih, shaRound_length]

theorem compressBlock_length (h b : List Nat) :
    (compressBlock h b).length = h.length := by
  unfold compressBlock
  simp [List.length_zipWith, foldl_shaRound_length]

theorem sha256Blocks_length (fuel : Nat) (h l : List Nat) :
    (sha256Blocks fuel h l).length = h.length := by
  induction fuel generalizing h l with
  | zero => cases l <;> rfl
  | succ fuel ih =>
    cases l with
    | nil => rfl
    | cons b rest => rw [sha256Blocks, ih, compressBlock_length]

theorem flatten_map_natToBE4_length (l : List Nat) :
    ((l.map (natToBE 4)).flatten).length = 4 * l.length := by
  induction l with
  | nil => rfl
  | cons x xs ih => simp [ih, natToBE_length]; omega

/-- Every digest this model produces is 32 bytes. -/
theorem sha256Bytes_length (m : List Nat) : (sha256Bytes m).length = 32 := by
  unfold sha256Bytes
  rw [flatten_map_natToBE4_length, sha256Blocks_length]
  rfl

theorem hexEncode_length (l : List Nat) : (hexEncode l).length = 2 * l.length := by
  unfold hexEncode
  induction l with
  | nil => rfl
  | cons b rest ih =>
    simp [String.length] at ih ⊢
    omega

/-! ### The transfer request shape -/

/-- Inversion of `buildTransferIdemShape`: a successfully built shape
carries the raw identifiers, the trimmed strings and the normalized
currency, and the validations hold. -/
theorem buildTransferIdemShape_ok (f t : String) (amt : Int)
    (cur er k c : String) (sh : TransferIdemShape)
    (hb : buildTransferIdemShape f t amt cur er k c = .ok sh) :
    sh = ⟨f, t, amt, strToUpper (trimChars cur), trimChars er, trimChars k,
          trimChars c⟩ ∧
    (strToUpper (trimChars cur)).length = 3 ∧ 0 < amt ∧
    trimChars er ≠ "" ∧ trimChars k ≠ "" ∧ trimChars c ≠ "" ∧
    f ≠ t ∧ f ≠ uuidNil ∧ t ≠ uuidNil := by
  unfold buildTransferIdemShape normalizeCurrency at hb
  dsimp only at hb
  split at hb
  case isTrue => cases hb
  case isFalse =>
    split at hb
    case isTrue => cases hb
    case isFalse =>
      split at hb
      case isTrue => cases hb
      case isFalse =>
        split at hb
        case h_1 => cases hb
        case h_2 =>
          injection hb with h
          subst h
          rename_i cur2 heq
          split at heq <;> simp_all

/-- Witness for C6: on a state with one row per append-only table, the
hypotheses hold and every mutation attempt raises the immutability
error. -/
theorem claim_C6_witness :
    (c6State.txs.any (fun _ => true) = true ∧
     c6State.entries.any (fun _ => true) = true ∧
     c6State.events.any (fun _ => true) = true ∧
     c6State.valuations.any (fun _ => true) = true ∧
     c6State.liquidity.any (fun _ => true) = true) ∧
    (updateLedgerTx c6State (fun _ => true) id =
        .error (.immutability "UPDATE" "ledger_tx") ∧
     deleteLedgerTx c6State (fun _ => true) =
        .error (.immutability "DELETE" "ledger_tx") ∧
     updateLedgerEntry c6State (fun _ => true) id =
        .error (.immutability "UPDATE" "ledger_entry") ∧
     deleteLedgerEntry c6State (fun _ => true) =
        .error (.immutability "DELETE" "ledger_entry") ∧
     updateEventLog c6State (fun _ => true) id =
        .error (.immutability "UPDATE" "event_log") ∧
     deleteEventLog c6State (fun _ => true) =
        .error (.immutability "DELETE" "event_log") ∧
     updateValuationSnapshot c6State (fun _ => true) id =
        .error (.immutability "UPDATE" "valuation_snapshot") ∧
     deleteValuationSnapshot c6State (fun _ => true) =
        .error (.immutability "DELETE" "valuation_snapshot") ∧
     updateLiquiditySnapshot c6State (fun _ => true) id =
        .error (.immutability "UPDATE" "liquidity_snapshot") ∧
     deleteLiquiditySnapshot c6State (fun _ => true) =
        .error (.immutability "DELETE" "liquidity_snapshot")) :=
  ⟨⟨rfl, rfl, rfl, rfl, rfl⟩,
   (claim_C6 c6State (fun _ => true) id (fun _ => true) id (fun _ => true) id
     (fun _ => true) id (fun _ => true) id rfl rfl rfl rfl rfl).1⟩

/-- C2: inserting an event row (with the preconditions of the chain
trigger satisfied: caller-NULL `created_at`, non-blank canonical payload
that semantically matches `payload_json`, non-blank type fields, fresh
event id) sets `seq = head_seq + 1` and `prev_hash = head_hash` from the
chain head, `created_at` to the storage timestamp, `payload_hash` to the
SHA-256 of the UTF-8 bytes of `payload_canonical`, `hash` to the SHA-256
of the length-prefixed material, and advances the chain head to
`(seq, hash)`, all in the same step; the material is exactly the
`lp`-concatenation of seq, hex prev_hash, event id, created_at, event
type, aggregate type, aggregate id, correlation id and hex payload_hash,
where `lp s` prefixes the decimal character-length and a colon, an empty
value becoming `0:`. -/
theorem claim_C2 (s : DBState) (ev : NewEvent) (now : String)
    (h0 : ev.created_at = none)
    (h1 : nonblank ev.payload_canonical = true)
    (h2 : semanticMatches ev.payload_canonical ev.payload_json = true)
    (h3 : nonblank ev.event_type = true)
    (h4 : nonblank ev.aggregate_type = true)
    (h5 : nonblank ev.correlation_id = true)
    (h6 : s.events.any (fun r => r.event_id == ev.event_id) = false) :
    (event_log_insert s ev now = .ok { s with
      events := s.events ++ [⟨ev.event_id, ev.event_type, ev.aggregate_type,
        ev.aggregate_id, ev.correlation_id, ev.payload_json,
        ev.payload_canonical, now, s.head.last_seq + 1, s.head.last_hash,
        sha256Utf8 ev.payload_canonical,
        sha256Utf8 (event_chain_material (s.head.last_seq + 1) s.head.last_hash
          ev.event_id now ev.event_type ev.aggregate_type ev.aggregate_id
          ev.correlation_id (sha256Utf8 ev.payload_canonical))⟩],
      head := ⟨s.head.last_seq + 1,
        sha256Utf8 (event_chain_material (s.head.last_seq + 1) s.head.last_hash
          ev.event_id now ev.event_type ev.aggregate_type ev.aggregate_id
          ev.correlation_id (sha256Utf8 ev.payload_canonical))⟩}) ∧
    (∀ (seq : Nat) (prev ph : List Nat) (eid cat et at2 aid cid : String),
      event_chain_material seq prev eid cat et at2 aid cid ph =
        lp (toString seq) ++ lp (hexEncode prev) ++ lp eid ++ lp cat ++
        lp et ++ lp at2 ++ lp aid ++ lp cid ++ lp (hexEncode ph)) ∧
    (∀ str : String, lp str = toString str.length ++ ":" ++ str) ∧
    lp "" = "0:" ∧
    (∀ str : String, sha256Utf8 str = sha256Bytes (utf8Bytes str)) := by
  refine ⟨?_, fun _ _ _ _ _ _ _ _ _ => rfl, fun _ => rfl, rfl, fun _ => rfl⟩
  unfold event_log_insert
  rw [h0]
  simp only [h1, h2, h3, h4, h5, h6, Bool.not_true, Bool.not_false,
    Bool.or_self, Bool.or_false, Bool.false_or, Bool.false_eq_true,
    ite_false, ite_true, if_false, if_true]

/-- Witness for C2: the trigger preconditions hold at a concrete event
over the initial state, and the theorem applies. -/
theorem claim_C2_witness :
    (c2Event.created_at = none ∧
     nonblank c2Event.payload_canonical = true ∧
     semanticMatches c2Event.payload_canonical c2Event.payload_json = true ∧
     nonblank c2Event.event_type = true ∧
     nonblank c2Event.aggregate_type = true ∧
     nonblank c2Event.correlation_id = true ∧
     initState.events.any (fun r => r.event_id == c2Event.event_id) = false) ∧
    (event_log_insert initState c2Event "2024-01-01T00:00:00.000001Z" =
      .ok { initState with
        events := initState.events ++ [⟨c2Event.event_id, c2Event.event_type,
          c2Event.aggregate_type, c2Event.aggregate_id, c2Event.correlation_id,
          c2Event.payload_json, c2Event.payload_canonical,
          "2024-01-01T00:00:00.000001Z", initState.head.last_seq + 1,
          initState.head.last_hash, sha256Utf8 c2Event.payload_canonical,
          sha256Utf8 (event_chain_material (initState.head.last_seq + 1)
            initState.head.last_hash c2Event.event_id
            "2024-01-01T00:00:00.000001Z" c2Event.event_type
            c2Event.aggregate_type c2Event.aggregate_id c2Event.correlation_id
            (sha256Utf8 c2Event.payload_canonical))⟩],
        head := ⟨initState.head.last_seq + 1,
          sha256Utf8 (event_chain_material (initState.head.last_seq + 1)
            initState.head.last_hash c2Event.event_id
            "2024-01-01T00:00:00.000001Z" c2Event.event_type
            c2Event.aggregate_type c2Event.aggregate_id c2Event.correlation_id
            (sha256Utf8 c2Event.payload_canonical))⟩}) :=
  ⟨⟨rfl, rfl, rfl, rfl, rfl, rfl, rfl⟩,
   (claim_C2 initState c2Event "2024-01-01T00:00:00.000001Z" rfl rfl rfl rfl
     rfl rfl rfl).1⟩

/-! ### Inversion lemmas for the storage operations -/

theorem insertLedgerEntryRow_ok (s : DBState) (e : LedgerEntry) (s' : DBState)
    (h : insertLedgerEntryRow s e = .ok s') :
    s' = { s with entries := s.entries ++ [e] } ∧
    0 < e.amount_cents ∧ isCurrencyCode e.currency = true ∧
    s.entries.any (fun r => r.entry_id == e.entry_id) = false ∧
    s.txs.any (fun r => r.tx_id == e.tx_id) = true ∧
    s.accounts.any (fun a => a.account_id == e.account_id) = true := by
  unfold insertLedgerEntryRow at h
  repeat' split at h
  all_goals (try (cases h))
  simp_all

theorem insertLedgerTxRow_ok (s : DBState) (t : LedgerTx) (s' : DBState)
    (h : insertLedgerTxRow s t = .ok s') :
    s' = { s with txs := s.txs ++ [t] } ∧
    nonblank t.external_ref = true ∧ nonblank t.correlation_id = true ∧
    nonblank t.idempotency_key = true ∧
    s.txs.any (fun r => r.tx_id == t.tx_id) = false ∧
    s.txs.any (fun r => r.external_ref == t.external_ref) = false ∧
    s.txs.any (fun r => r.idempotency_key == t.idempotency_key) = false ∧
    s.idem.any (fun r => r.key == t.idempotency_key) = true := by
  unfold insertLedgerTxRow at h
  repeat' split at h
  all_goals (try (cases h))
  simp_all

theorem event_log_insert_ok (s : DBState) (ev : NewEvent) (now : String)
    (s' : DBState) (h : event_log_insert s ev now = .ok s') :
    s' = { s with
      events := s.events ++ [⟨ev.event_id, ev.event_type, ev.aggregate_type,
        ev.aggregate_id, ev.correlation_id, ev.payload_json,
        ev.payload_canonical, now, s.head.last_seq + 1, s.head.last_hash,
        sha256Utf8 ev.payload_canonical,
        sha256Utf8 (event_chain_material (s.head.last_seq + 1) s.head.last_hash
          ev.event_id now ev.event_type ev.aggregate_type ev.aggregate_id
          ev.correlation_id (sha256Utf8 ev.payload_canonical))⟩],
      head := ⟨s.head.last_seq + 1,
        sha256Utf8 (event_chain_material (s.head.last_seq + 1) s.head.last_hash
          ev.event_id now ev.event_type ev.aggregate_type ev.aggregate_id
          ev.correlation_id (sha256Utf8 ev.payload_canonical))⟩ } ∧
    ev.created_at = none ∧
    nonblank ev.payload_canonical = true ∧
    semanticMatches ev.payload_canonical ev.payload_json = true ∧
    nonblank ev.event_type = true ∧ nonblank ev.aggregate_type = true ∧
    nonblank ev.correlation_id = true ∧
    s.events.any (fun r => r.event_id == ev.event_id) = false := by
  unfold event_log_insert at h
  repeat' split at h
  all_goals (try (cases h))
  simp_all

theorem insertEventApp_ok (s : DBState)
    (eventType aggregateType aggregateId correlationId : String)
    (payload : JObj) (eventId now : String) (s' : DBState)
    (h : insertEventApp s eventType aggregateType aggregateId correlationId
           payload eventId now = .ok s') :
    s' = { s with
      events := s.events ++ [⟨eventId, eventType, aggregateType, aggregateId,
        correlationId, payload, jcsRender payload, now, s.head.last_seq + 1,
        s.head.last_hash, sha256Utf8 (jcsRender payload),
        sha256Utf8 (event_chain_material (s.head.last_seq + 1) s.head.last_hash
          eventId now eventType aggregateType aggregateId correlationId
          (sha256Utf8 (jcsRender payload)))⟩],
      head := ⟨s.head.last_seq + 1,
        sha256Utf8 (event_chain_material (s.head.last_seq + 1) s.head.last_hash
          eventId now eventType aggregateType aggregateId correlationId
          (sha256Utf8 (jcsRender payload)))⟩ } ∧
    semanticMatches (jcsRender payload) payload = true ∧
    nonblank eventType = true ∧ nonblank aggregateType = true ∧
    nonblank aggregateId = true ∧ nonblank correlationId = true ∧
    s.events.any (fun r => r.event_id == eventId) = false := by
  unfold insertEventApp at h
  repeat' split at h
  all_goals (try (cases h))
  obtain ⟨hs, _, hc, hm, ht, ha, hcorr, hfresh⟩ :=
    event_log_insert_ok _ _ _ _ h
  subst hs
  simp_all

theorem trg_idempotency_guard_ok (old new x : IdemRow)
    (h : trg_idempotency_guard old new = .ok x) : x = new := by
  unfold trg_idempotency_guard at h
  repeat' split at h
  all_goals (try (cases h))
  rfl

theorem idem_commit_ok (s : DBState) (key txId : String) (resp : JObj)
    (row : IdemRow) (s' : DBState)
    (h : idem_commit s key txId resp = .ok (row, s')) :
    ∃ r, findIdem s key = some r ∧
      ((r.status = .committed ∧ row = r ∧ s' = s) ∨
       (r.status = .reserved ∧
        row = { r with tx_id := some txId, response_json := some resp,
                       status := .committed } ∧
        s' = { s with
          idem := s.idem.map (fun q => if q.key == key then row else q) })) := by
  unfold idem_commit at h
  repeat' split at h
  all_goals (try (cases h))
  · next x heq hst =>
    exact ⟨row, heq, Or.inl ⟨by simpa using hst, rfl, rfl⟩⟩
  · next x r heq hst =>
    dsimp only at h
    split at h
    · cases h
    · next newRow hguard =>
      have hx := trg_idempotency_guard_ok _ _ _ hguard
      subst hx
      injection h with h12
      injection h12 with ha hb
      subst ha
      subst hb
      refine ⟨r, heq, Or.inr ⟨?_, rfl, rfl⟩⟩
      cases hr : r.status
      · rfl
      · rw [hr] at hst
        simp at hst

theorem post_balanced_tx_ok (s : DBState)
    (txId externalRef correlationId idempotencyKey : String)
    (debitAccountId creditAccountId : String) (amountCents : Int)
    (currency : String) (debitEntryId creditEntryId : String) (s' : DBState)
    (h : post_balanced_tx s txId externalRef correlationId idempotencyKey
          debitAccountId creditAccountId amountCents currency debitEntryId
          creditEntryId = .ok s') :
    s' = { s with
      txs := s.txs ++ [⟨txId, externalRef, correlationId, idempotencyKey⟩],
      entries := s.entries ++
        [⟨debitEntryId, txId, debitAccountId, .debit, amountCents, currency⟩,
         ⟨creditEntryId, txId, creditAccountId, .credit, amountCents, currency⟩] } ∧
    0 < amountCents ∧ isCurrencyCode currency = true ∧
    debitAccountId ≠ creditAccountId ∧
    s.txs.any (fun r => r.tx_id == txId) = false ∧
    s.txs.any (fun r => r.external_ref == externalRef) = false ∧
    s.txs.any (fun r => r.idempotency_key == idempotencyKey) = false ∧
    s.idem.any (fun r => r.key == idempotencyKey) = true ∧
    s.accounts.any (fun a => a.account_id == debitAccountId) = true ∧
    s.accounts.any (fun a => a.account_id == creditAccountId) = true := by
  unfold post_balanced_tx at h
  repeat' split at h
  all_goals (try (cases h))
  next hamt hcur x1 sA htx x2 sB hdeb =>
    obtain ⟨hs1, _, _, _, htxfresh, hext, hkey, hfk⟩ :=
      insertLedgerTxRow_ok _ _ _ htx
    subst hs1
    obtain ⟨hs2, hpos, hcurT, hdfresh, _, hdacct⟩ :=
      insertLedgerEntryRow_ok _ _ _ hdeb
    subst hs2
    obtain ⟨hs3, _, _, hcfresh, _, hcacct⟩ :=
      insertLedgerEntryRow_ok _ _ _ h
    subst hs3
    simp_all

theorem normalizeCurrency_ok (cur c2 : String) (h : normalizeCurrency cur = .ok c2) :
    c2 = strToUpper (trimChars cur) ∧ c2.length = 3 := by
  unfold normalizeCurrency at h
  dsimp only at h
  split at h
  · cases h
  next hl =>
    injection h with h1
    subst h1
    simpa using hl

theorem CreateAccount_ok (s : DBState)
    (label currency correlationId accId eventId now t : String)
    (h : (CreateAccount s label currency correlationId accId eventId now).1 = .ok t) :
    t = accId ∧
    (CreateAccount s label currency correlationId accId eventId now).2 =
      { s with
        accounts := s.accounts ++
          [⟨accId, trimChars label, strToUpper (trimChars currency)⟩],
        events := s.events ++ [⟨eventId, "ACCOUNT_CREATED", "ACCOUNT", accId,
          correlationId,
          [("account_id", .s accId), ("label", .s (trimChars label)),
           ("currency", .s (strToUpper (trimChars currency)))],
          jcsRender [("account_id", .s accId), ("label", .s (trimChars label)),
           ("currency", .s (strToUpper (trimChars currency)))], now,
          s.head.last_seq + 1, s.head.last_hash,
          sha256Utf8 (jcsRender [("account_id", .s accId),
            ("label", .s (trimChars label)),
            ("currency", .s (strToUpper (trimChars currency)))]),
          sha256Utf8 (event_chain_material (s.head.last_seq + 1)
            s.head.last_hash eventId now "ACCOUNT_CREATED" "ACCOUNT" accId
            correlationId
            (sha256Utf8 (jcsRender [("account_id", .s accId),
              ("label", .s (trimChars label)),
              ("currency", .s (strToUpper (trimChars currency)))])))⟩],
        head := ⟨s.head.last_seq + 1,
          sha256Utf8 (event_chain_material (s.head.last_seq + 1)
            s.head.last_hash eventId now "ACCOUNT_CREATED" "ACCOUNT" accId
            correlationId
            (sha256Utf8 (jcsRender [("account_id", .s accId),
              ("label", .s (trimChars label)),
              ("currency", .s (strToUpper (trimChars currency)))])))⟩ } ∧
    trimChars label ≠ "" ∧ nonblank correlationId = true ∧
    (strToUpper (trimChars currency)).length = 3 ∧
    isCurrencyCode (strToUpper (trimChars currency)) = true ∧
    s.accounts.any (fun a => a.account_id == accId) = false ∧
    s.events.any (fun r => r.event_id == eventId) = false := by
  rcases hE : CreateAccount s label currency correlationId accId eventId now
    with ⟨r1, s2⟩
  rw [hE] at h
  dsimp only at h ⊢
  unfold CreateAccount at hE
  dsimp only at hE
  repeat' split at hE
  all_goals (try (cases hE; cases h))
  next hval x cur2 hnc hdup hcc x2 hins =>
    obtain ⟨hc2, hlen⟩ := normalizeCurrency_ok _ _ hnc
    subst hc2
    obtain ⟨hsE, hsem, _, _, _, _, hfresh⟩ :=
      insertEventApp_ok _ _ _ _ _ _ _ _ _ hins
    subst hsE
    simp_all

theorem find?_append_single_none {α : Type} (p : α → Bool) (l : List α) (x : α)
    (h : l.find? p = none) (hx : p x = true) : (l ++ [x]).find? p = some x := by
  induction l with
  | nil => simp [List.find?, hx]
  | cons a as ih =>
    simp only [List.cons_append, List.find?]
    cases hpa : p a
    · simp only [List.find?, hpa] at h
      exact ih h
    · simp only [List.find?, hpa] at h
      cases h

theorem map_replace_skip (l : List IdemRow) (k : String) (y : IdemRow)
    (h : ∀ r ∈ l, (r.key == k) = false) :
    l.map (fun q => if q.key == k then y else q) = l := by
  induction l with
  | nil => rfl
  | cons a as ih =>
    simp only [List.map_cons]
    rw [if_neg, ih]
    · intro r hr
      exact h r (List.mem_cons_of_mem _ hr)
    · simp [h a (List.mem_cons_self _ _)]

theorem map_replace_skip2 (l : List IdemRow) (k : String) (y : IdemRow)
    (h : ∀ r ∈ l, (r.key == k) = false) :
    l.map (fun q => if q.key = k then y else q) = l := by
  induction l with
  | nil => rfl
  | cons a as ih =>
    simp only [List.map_cons]
    rw [if_neg, ih]
    · intro r hr
      exact h r (List.mem_cons_of_mem _ hr)
    · have := h a (List.mem_cons_self _ _)
      simpa using this

theorem PostTransfer_ok (s : DBState) (a : TransferArgs) (ids : FreshIds)
    (t : String) (s2 : DBState)
    (h : PostTransfer s a ids = (.ok t, s2)) :
    ∃ shape, buildTransferIdemShape a.fromAcc a.toAcc a.amountCents a.currency
      a.externalRef a.idemKey a.correlationId = .ok shape ∧
    ((∃ r, findIdem s shape.idempotencyKey = some r ∧
        r.request_hash = hashTransferIdem shape ∧ r.tx_id = some t ∧ s2 = s)
     ∨
     (findIdem s shape.idempotencyKey = none ∧ t = ids.txId ∧
      s.txs.any (fun r => r.tx_id == ids.txId) = false ∧
      s.txs.any (fun r => r.idempotency_key == shape.idempotencyKey) = false ∧
      s.txs.any (fun r => r.external_ref == shape.externalRef) = false ∧
      s.accounts.any (fun x => x.account_id == a.fromAcc) = true ∧
      s.accounts.any (fun x => x.account_id == a.toAcc) = true ∧
      s.events.any (fun r => r.event_id == ids.eventId) = false ∧
      0 < shape.amountCents ∧ isCurrencyCode shape.currency = true ∧
      a.fromAcc ≠ a.toAcc ∧
      s2 = postedState s a ids shape)) := by
  unfold PostTransfer at h
  dsimp only at h
  repeat' split at h
  all_goals (try (simp at h))
  -- replay path
  next x1 shape hshape x2 r hfind hne acc m hm =>
    refine ⟨shape, hshape, Or.inl ⟨r, hfind, ?_, ?_, h.2.symm⟩⟩
    · simpa using hne
    · rw [hm, h.1]
  -- first-write path
  next x7 shape hshape x6 hnone hkb hl64 x5 fa hfa x4 ta hta hcm x3 sP hpost
      x2 row sI hcommit acc m hrowtx x1 sE hins x0 u hdef =>
    obtain ⟨hsP, hpos, hcur, hne2, htxfresh, hextfresh, hkeyfresh, hfk,
      hdacct, hcacct⟩ := post_balanced_tx_ok _ _ _ _ _ _ _ _ _ _ _ _ hpost
    obtain ⟨r0, hfind0, hdisj⟩ := idem_commit_ok _ _ _ _ _ _ hcommit
    have hforall : ∀ q ∈ s.idem, (q.key == shape.idempotencyKey) = false := by
      intro q hq
      have := List.find?_eq_none.mp hnone q hq
      simpa using this
    have hr0 : r0 = ⟨shape.idempotencyKey, hashTransferIdem shape, none, none,
        .reserved, ids.now⟩ := by
      rw [hsP] at hfind0
      unfold findIdem at hfind0
      dsimp only at hfind0
      rw [find?_append_single_none _ _ _ hnone (by simp)] at hfind0
      exact (Option.some.injEq _ _ ▸ hfind0).symm
    rcases hdisj with ⟨hst, _, _⟩ | ⟨hst, hrow, hsI⟩
    · rw [hr0] at hst
      cases hst
    · subst hr0
      subst hrow
      rw [hsP] at hsI
      subst hsI
      have hm : m = ids.txId := by simpa using hrowtx.symm
      subst hm
      obtain ⟨hsE, hsem, _, _, _, _, hfreshE⟩ :=
        insertEventApp_ok _ _ _ _ _ _ _ _ _ hins
      subst hsE
      obtain ⟨hmt, hs2⟩ := h
      subst hmt
      refine ⟨shape, hshape, Or.inr
        ⟨hnone, rfl, ?_, ?_, ?_, ?_, ?_, ?_, hpos, hcur, hne2, ?_⟩⟩
      · simpa using htxfresh
      · simpa using hkeyfresh
      · simpa using hextfresh
      · simpa using hdacct
      · simpa using hcacct
      · simpa using hfreshE
      · rw [← hs2]
        simp only [postedState, transferPostedPayload]
        simp [List.map_append, map_replace_skip _ _ _ hforall,
          map_replace_skip2 _ _ _ hforall]

/-! ### C3: the verifier -/

/-- The SQL loop (two hash accumulators, `v_last_seq` tracking) computes
the same results as the specification's loop (one `prev` accumulator,
row count for "rows exist"), given that the two accumulators start
equal and the positivity of `last_seq` tracks the positivity of the
row count. -/
theorem verifyLoop_eq_specLoop (rows : List EventRow) (hSeq : Nat)
    (hHash prev : List Nat) (lastSeq cnt : Nat)
    (hiff : decide (0 < lastSeq) = decide (0 < cnt)) :
    verifyLoop hSeq hHash prev prev lastSeq cnt rows =
      verifySpecLoop hSeq hHash prev lastSeq cnt rows := by
  induction rows generalizing prev lastSeq cnt with
  | nil =>
    simp only [verifyLoop, verifySpecLoop, hiff]
  | cons r rest ih =>
    simp only [verifyLoop, verifySpecLoop]
    split
    · rfl
    next hseq =>
      split
      · rfl
      next =>
        split
        · rfl
        next =>
          split
          · rfl
          next =>
            split
            · rfl
            next =>
              split
              · rfl
              next =>
                split
                · rfl
                next =>
                  apply ih
                  have hs : r.seq = lastSeq + 1 := by simpa using hseq
                  simp [hs]

/-- The verifier loop reports `ok = true` exactly when every row check
and both head checks pass. -/
theorem verifyLoop_ok_iff (rows : List EventRow) (hSeq : Nat)
    (hHash prev : List Nat) (lastSeq cnt : Nat) :
    (∃ r, verifyLoop hSeq hHash prev prev lastSeq cnt rows = .ok r ∧ r.ok = true)
      ↔ chainOkB hSeq hHash prev lastSeq rows = true := by
  induction rows generalizing prev lastSeq cnt with
  | nil =>
    simp only [verifyLoop, chainOkB]
    split
    next h => simp_all
    next h =>
      split
      next h2 =>
        simp_all
        omega
      next h2 =>
        simp_all
        rcases Nat.eq_zero_or_pos hSeq with h0 | h0
        · exact Or.inl h0
        · exact Or.inr (h2 h0)
  | cons r rest ih =>
    simp only [verifyLoop, chainOkB]
    split
    next h => simp_all
    next h =>
      split
      next h2 => simp_all
      next h2 =>
        split
        next h3 => simp_all
        next h3 =>
          split
          next o hparse =>
            simp_all [semanticMatches]
          next o hparse =>
            split
            next h4 => simp_all [semanticMatches]
            next h4 =>
              split
              next h5 => simp_all [semanticMatches]
              next h5 =>
                split
                next h6 => simp_all [semanticMatches]
                next h6 => simp_all [semanticMatches, ih]

/-- C3 counterexample: on a chain whose first persisted row has
`seq = 2`, `verify_event_chain_detail` reports the formatted reason
`bad seq: got 2 expected 1`, not the literal `bad seq` the claim
states; and on a row whose non-blank `payload_canonical` is not
parseable JSON, the `::jsonb` cast raises (the procedure errors) rather
than reporting any reason. -/
theorem claim_C3_cex :
    (verify_event_chain_detail c3BadSeqState =
       .ok ⟨false, some 2, some "bad seq: got 2 expected 1", 2, "aa", 1⟩ ∧
     (some "bad seq: got 2 expected 1" : Option String) ≠ some "bad seq") ∧
    verify_event_chain_detail c3RaiseState =
      .error (.storage "invalid input syntax for type json") :=
  ⟨⟨by rfl, by decide⟩, by rfl⟩

/-- C3 (amended): `verify_chain` iterates the persisted rows in
ascending `seq` with `prev` initially empty and `last_seq` initially 0,
and returns `ok = false` with the seq of the first offending row and,
in this order, the reason `bad seq: got <seq> expected <last_seq+1>`
when `seq ≠ last_seq + 1`, `prev_hash mismatch`, `payload_canonical
empty`, `payload_canonical != payload_json` (raising an error instead
when the non-blank canonical text does not parse as JSON),
`payload_hash mismatch`, and `hash mismatch`; after the loop it reports
`head last_seq mismatch`, then `head last_hash mismatch` when rows
exist and the head hash differs from the last row's hash; it returns
`ok = true` exactly when every check passes. -/
theorem claim_C3 (s : DBState) :
    verify_event_chain_detail s = verifySpec s ∧
    ((∃ r, verify_event_chain_detail s = .ok r ∧ r.ok = true) ↔
      chainOkB s.head.last_seq s.head.last_hash [] 0 (sortBySeq s.events) = true) := by
  unfold verify_event_chain_detail verifySpec
  exact ⟨verifyLoop_eq_specLoop _ _ _ _ 0 0 rfl, verifyLoop_ok_iff _ _ _ _ 0 0⟩

/-- C5: a `post_transfer` call whose idempotency key already carries an
anchor with a different stored `request_hash` than the hash of the
current (well-formed) request returns `IdempotencyConflict` and has no
observable effect: the transaction rolls back, so the anchor rows, the
ledger transactions and entries, the event log and every account
balance are unchanged. -/
theorem claim_C5 (s : DBState) (a : TransferArgs) (ids : FreshIds)
    (shape : TransferIdemShape) (r : IdemRow)
    (hb : buildTransferIdemShape a.fromAcc a.toAcc a.amountCents a.currency
      a.externalRef a.idemKey a.correlationId = .ok shape)
    (hf : findIdem s shape.idempotencyKey = some r)
    (hne : r.request_hash ≠ hashTransferIdem shape) :
    PostTransfer s a ids = (.error .idemConflict, s) ∧
    (PostTransfer s a ids).2.idem = s.idem ∧
    (PostTransfer s a ids).2.txs = s.txs ∧
    (PostTransfer s a ids).2.entries = s.entries ∧
    (PostTransfer s a ids).2.events = s.events ∧
    (∀ acct, Balance (PostTransfer s a ids).2 acct = Balance s acct) := by
  have hne2 : (r.request_hash == hashTransferIdem shape) = false := by
    simpa using hne
  have hmain : PostTransfer s a ids = (.error .idemConflict, s) := by
    unfold PostTransfer
    simp [hb, hf, hne2]
  rw [hmain]
  exact ⟨rfl, rfl, rfl, rfl, rfl, fun _ => rfl⟩

set_option maxRecDepth 1000000 in
/-- Witness for C5 at a concrete conflicting anchor. -/
theorem claim_C5_witness :
    (buildTransferIdemShape c5Args.fromAcc c5Args.toAcc c5Args.amountCents
      c5Args.currency c5Args.externalRef c5Args.idemKey c5Args.correlationId =
        .ok c7Shape ∧
     findIdem c5State c7Shape.idempotencyKey =
       some ⟨"k-pmt-1",
         "0000000000000000000000000000000000000000000000000000000000000000",
         none, none, .reserved, "t0"⟩ ∧
     ("0000000000000000000000000000000000000000000000000000000000000000" ≠
       hashTransferIdem c7Shape)) ∧
    PostTransfer c5State c5Args c5Ids = (.error .idemConflict, c5State) :=
  ⟨⟨rfl, rfl, by decide⟩,
   (claim_C5 c5State c5Args c5Ids c7Shape
     ⟨"k-pmt-1",
      "0000000000000000000000000000000000000000000000000000000000000000",
      none, none, .reserved, "t0"⟩ rfl rfl (by decide)).1⟩

set_option maxRecDepth 100000 in
/-- C7 counterexample: the request hash computed by the code
(`hashTransferIdem`, SHA-256 over the struct-ordered `json.Marshal`
bytes) differs from the SHA-256 over the RFC 8785 (JCS)
canonicalization of the same shape, because JCS sorts the object keys
while `json.Marshal` keeps declaration order. -/
theorem claim_C7_cex :
    hashTransferIdem c7Shape ≠ specCanonicalRequestHash c7Shape := by
  decide

/-- C7 (amended): `post_transfer` computes `request_hash` as the
64-hex-character SHA-256 of the `json.Marshal` serialization of the
fixed-key shape with keys in declaration order `from_account_id,
to_account_id, amount_cents, currency, external_ref, idempotency_key,
correlation_id` — not of its RFC 8785 canonicalization, which would
sort the keys; identifiers are carried as rendered, `currency` is
upper-cased and trimmed to a 3-character code, and the string fields
are trimmed. -/
theorem claim_C7 (f t : String) (amt : Int) (cur er k c : String)
    (sh : TransferIdemShape)
    (hb : buildTransferIdemShape f t amt cur er k c = .ok sh) :
    hashTransferIdem sh =
      hexEncode (sha256Bytes (utf8Bytes (goRender (shapeFields sh)))) ∧
    (hashTransferIdem sh).length = 64 ∧
    (shapeFields sh).map Prod.fst =
      ["from_account_id", "to_account_id", "amount_cents", "currency",
       "external_ref", "idempotency_key", "correlation_id"] ∧
    (jnorm (shapeFields sh)).map Prod.fst =
      ["amount_cents", "correlation_id", "currency", "external_ref",
       "from_account_id", "idempotency_key", "to_account_id"] ∧
    sh.fromAccountId = f ∧ sh.toAccountId = t ∧ sh.amountCents = amt ∧
    sh.currency = strToUpper (trimChars cur) ∧ sh.currency.length = 3 ∧
    sh.externalRef = trimChars er ∧ sh.idempotencyKey = trimChars k ∧
    sh.correlationId = trimChars c := by
  obtain ⟨hsh, hlen, _⟩ := buildTransferIdemShape_ok f t amt cur er k c sh hb
  refine ⟨rfl, ?_, rfl, ?_, ?_⟩
  · unfold hashTransferIdem
    rw [hexEncode_length, sha256Bytes_length]
  · subst hsh; rfl
  · subst hsh; simp_all

/-- Witness for the amended C7 at a concrete request. -/
theorem claim_C7_witness :
    buildTransferIdemShape "aaaaaaaa-0000-0000-0000-000000000001"
      "aaaaaaaa-0000-0000-0000-000000000002" 2500 " eur " "pmt-1" "k-pmt-1"
      "c1" = .ok c7Shape ∧
    (hashTransferIdem c7Shape =
      hexEncode (sha256Bytes (utf8Bytes (goRender (shapeFields c7Shape)))) ∧
     (hashTransferIdem c7Shape).length = 64 ∧
     (shapeFields c7Shape).map Prod.fst =
       ["from_account_id", "to_account_id", "amount_cents", "currency",
        "external_ref", "idempotency_key", "correlation_id"] ∧
     (jnorm (shapeFields c7Shape)).map Prod.fst =
       ["amount_cents", "correlation_id", "currency", "external_ref",
        "from_account_id", "idempotency_key", "to_account_id"] ∧
     c7Shape.fromAccountId = "aaaaaaaa-0000-0000-0000-000000000001" ∧
     c7Shape.toAccountId = "aaaaaaaa-0000-0000-0000-000000000002" ∧
     c7Shape.amountCents = 2500 ∧
     c7Shape.currency = strToUpper (trimChars " eur ") ∧
     c7Shape.currency.length = 3 ∧
     c7Shape.externalRef = trimChars "pmt-1" ∧
     c7Shape.idempotencyKey = trimChars "k-pmt-1" ∧
     c7Shape.correlationId = trimChars "c1") :=
  ⟨rfl, claim_C7 "aaaaaaaa-0000-0000-0000-000000000001"
    "aaaaaaaa-0000-0000-0000-000000000002" 2500 " eur " "pmt-1" "k-pmt-1"
    "c1" c7Shape rfl⟩

theorem match_txid_eq_true (r : IdemRow) (f : String → Bool) :
    ((match r.tx_id with | none => true | some tid => f tid) = true) ↔
    (∀ tid, r.tx_id = some tid → f tid = true) := by
  cases h : r.tx_id <;> simp

theorem wf_spec (s : DBState) (h : wf s) :
    (s.accounts.map (fun a => a.account_id)).Nodup ∧
    (s.idem.map (fun r => r.key)).Nodup ∧
    (s.txs.map (fun t => t.tx_id)).Nodup ∧
    (s.txs.map (fun t => t.idempotency_key)).Nodup ∧
    (∀ e ∈ s.entries, s.accounts.any (fun a => a.account_id == e.account_id) = true) ∧
    (∀ e ∈ s.entries, s.txs.any (fun t => t.tx_id == e.tx_id) = true) ∧
    (∀ t ∈ s.txs, isEntryPair (s.entries.filter (fun e => e.tx_id == t.tx_id)) = true) ∧
    (∀ t ∈ s.txs, s.idem.any (fun r => r.key == t.idempotency_key) = true) ∧
    (∀ r ∈ s.idem, ∀ tid, r.tx_id = some tid →
      s.txs.any (fun t => t.tx_id == tid && t.idempotency_key == r.key) = true) := by
  unfold wf wfB at h
  simp only [Bool.and_eq_true, List.all_eq_true, decide_eq_true_eq,
    match_txid_eq_true] at h
  tauto

theorem length_filter_key_eq_one {α : Type} (l : List α) (f : α → String)
    (k : String) (hnd : (l.map f).Nodup) (x : α) (hx : x ∈ l) (hfx : f x = k) :
    (l.filter (fun y => f y == k)).length = 1 := by
  induction l with
  | nil => cases hx
  | cons a as ih =>
    rw [List.map_cons, List.nodup_cons] at hnd
    rcases List.mem_cons.mp hx with rfl | hmem
    · simp only [List.filter_cons]
      rw [if_pos (by simp [hfx])]
      have hnil : as.filter (fun y => f y == k) = [] := by
        rw [List.filter_eq_nil_iff]
        intro y hy
        have hne : ¬ f y = k := by
          intro he
          exact hnd.1 (hfx ▸ he ▸ List.mem_map_of_mem f hy)
        simp [hne]
      simp [hnil]
    · have hfa : ¬ f a = k := by
        intro he
        exact hnd.1 (he.symm ▸ hfx ▸ List.mem_map_of_mem f hmem)
      simp only [List.filter_cons]
      rw [if_neg (by simp [hfa])]
      exact ih hnd.2 hmem

theorem PostTransfer_replay (s1 : DBState) (a : TransferArgs) (ids2 : FreshIds)
    (shape : TransferIdemShape) (row : IdemRow) (t : String)
    (hshape : buildTransferIdemShape a.fromAcc a.toAcc a.amountCents a.currency
      a.externalRef a.idemKey a.correlationId = .ok shape)
    (hf : findIdem s1 shape.idempotencyKey = some row)
    (hh : row.request_hash = hashTransferIdem shape)
    (ht : row.tx_id = some t) :
    PostTransfer s1 a ids2 = (.ok t, s1) := by
  unfold PostTransfer
  simp [hshape, hf, hh, ht]

/-- C1: for two sequential `post_transfer` calls with identical
arguments on a well-formed state, if the first call succeeds with
`tx_id = t` then the second call also succeeds with the same `t` and
leaves the state of the first call unchanged, the state after the first
call holds exactly one ledger transaction for the idempotency key, that
transaction carries a balanced entry pair, and every account balance
after the pair of calls equals the balance after the first call alone. -/
theorem claim_C1 (s : DBState) (a : TransferArgs) (ids ids2 : FreshIds)
    (t : String) (hwf : wf s)
    (h : (PostTransfer s a ids).1 = Except.ok t) :
    PostTransfer (PostTransfer s a ids).2 a ids2 =
      (Except.ok t, (PostTransfer s a ids).2) ∧
    ((PostTransfer s a ids).2.txs.filter
      (fun tx => tx.idempotency_key == trimChars a.idemKey)).length = 1 ∧
    (∀ tx ∈ (PostTransfer s a ids).2.txs,
      tx.idempotency_key = trimChars a.idemKey →
        isEntryPair ((PostTransfer s a ids).2.entries.filter
          (fun e => e.tx_id == tx.tx_id)) = true) ∧
    (∀ acct, Balance (PostTransfer (PostTransfer s a ids).2 a ids2).2 acct =
      Balance (PostTransfer s a ids).2 acct) := by
  rcases hE : PostTransfer s a ids with ⟨r1, s1⟩
  rw [hE] at h
  dsimp only at h ⊢
  subst h
  obtain ⟨shape, hshape, hcase⟩ := PostTransfer_ok s a ids t s1 hE
  obtain ⟨hsh, hlen3, hpos0, her, hk, hc, hft, hfn, htn⟩ :=
    buildTransferIdemShape_ok _ _ _ _ _ _ _ _ hshape
  have hkey : shape.idempotencyKey = trimChars a.idemKey := by rw [hsh]
  obtain ⟨hnd1, hnd2, hnd3, hnd4, hfk1, hfk2, hpair, hanch, hlink⟩ := wf_spec s hwf
  rcases hcase with ⟨r, hf, hh, ht, hs1⟩ | ⟨hnone, hts, htxf, hkeyf, hextf, hfa, hta, hevf, hpos, hcur, hneac, hs1⟩
  · -- replay case: s1 = s
    subst hs1
    have hreplay := PostTransfer_replay s1 a ids2 shape r t hshape hf hh ht
    refine ⟨hreplay, ?_, ?_, ?_⟩
    · -- exactly one tx for the key
      have hrkey : r.key = shape.idempotencyKey := by
        have := List.find?_some hf
        simpa using this
      have hex := hlink r (List.mem_of_find?_eq_some hf) t ht
      rw [List.any_eq_true] at hex
      obtain ⟨tx, htxmem, htxp⟩ := hex
      rw [Bool.and_eq_true] at htxp
      rw [← hkey]
      exact length_filter_key_eq_one s1.txs (fun tx => tx.idempotency_key)
        shape.idempotencyKey hnd4 tx htxmem (by
          have := htxp.2
          rw [hrkey] at this
          simpa using this)
    · intro tx htx _
      exact hpair tx htx
    · intro acct
      rw [hreplay]
  · -- first-write case
    subst hs1 hts
    have hf2 : findIdem (postedState s a ids shape) shape.idempotencyKey =
        some ⟨shape.idempotencyKey, hashTransferIdem shape, some ids.txId,
          some [("tx_id", .s ids.txId)], .committed, ids.now⟩ := by
      unfold findIdem postedState
      dsimp only
      rw [find?_append_single_none _ _ _ hnone (by simp)]
    have hreplay := PostTransfer_replay (postedState s a ids shape) a ids2 shape
      _ ids.txId hshape hf2 rfl rfl
    refine ⟨hreplay, ?_, ?_, ?_⟩
    · -- txs of postedState = s.txs ++ [newTx]
      show ((s.txs ++ [(⟨ids.txId, shape.externalRef, shape.correlationId,
        shape.idempotencyKey⟩ : LedgerTx)]).filter
          (fun tx => tx.idempotency_key == trimChars a.idemKey)).length = 1
      rw [List.filter_append]
      have hold : s.txs.filter (fun tx => tx.idempotency_key == trimChars a.idemKey) = [] := by
        rw [List.filter_eq_nil_iff]
        intro tx htx
        rw [List.any_eq_false] at hkeyf
        have := hkeyf tx htx
        rw [← hkey]
        simpa using this
      rw [hold]
      simp [hkey]
    · intro tx htxmem htxkey
      rcases List.mem_append.mp htxmem with hmem | hnew
      · -- old tx: its entries unchanged
        show isEntryPair ((s.entries ++ _).filter (fun e => e.tx_id == tx.tx_id)) = true
        rw [List.filter_append]
        have hnewnil : ([(⟨ids.debitEntryId, ids.txId, a.fromAcc, .debit,
            shape.amountCents, shape.currency⟩ : LedgerEntry),
            ⟨ids.creditEntryId, ids.txId, a.toAcc, .credit, shape.amountCents,
            shape.currency⟩].filter (fun e => e.tx_id == tx.tx_id)) = [] := by
          have : ¬ ids.txId = tx.tx_id := by
            intro he
            rw [List.any_eq_false] at htxf
            have := htxf tx hmem
            simp [he] at this
          simp [this]
        rw [hnewnil, List.append_nil]
        exact hpair tx hmem
      · -- the new tx
        simp only [List.mem_singleton] at hnew
        subst hnew
        show isEntryPair ((s.entries ++ _).filter (fun e => e.tx_id == ids.txId)) = true
        rw [List.filter_append]
        have holdnil : s.entries.filter (fun e => e.tx_id == ids.txId) = [] := by
          rw [List.filter_eq_nil_iff]
          intro e he
          have hetx := hfk2 e he
          rw [List.any_eq_true] at hetx
          obtain ⟨tx0, htx0, hp0⟩ := hetx
          intro habs
          rw [List.any_eq_false] at htxf
          have := htxf tx0 htx0
          have hetx2 : tx0.tx_id = e.tx_id := by simpa using hp0
          rw [← hetx2] at habs
          simp at habs
          rw [habs] at this
          simp at this
        rw [holdnil]
        simp [isEntryPair, hpos]
    · intro acct
      rw [hreplay]

set_option maxRecDepth 1000000 in
/-- Witness: replaying `c5Args` against `c1State`, whose anchor is
committed with the true hash of `c7Shape`, returns `tx-1` twice without
change of state. -/
theorem claim_C1_witness :
    wf c1State ∧ (PostTransfer c1State c5Args c5Ids).1 = Except.ok "tx-1" ∧
    (PostTransfer (PostTransfer c1State c5Args c5Ids).2 c5Args c5Ids =
       (Except.ok "tx-1", (PostTransfer c1State c5Args c5Ids).2) ∧
     ((PostTransfer c1State c5Args c5Ids).2.txs.filter
       (fun tx => tx.idempotency_key == trimChars c5Args.idemKey)).length = 1 ∧
     (∀ tx ∈ (PostTransfer c1State c5Args c5Ids).2.txs,
       tx.idempotency_key = trimChars c5Args.idemKey →
         isEntryPair ((PostTransfer c1State c5Args c5Ids).2.entries.filter
           (fun e => e.tx_id == tx.tx_id)) = true) ∧
     (∀ acct, Balance (PostTransfer (PostTransfer c1State c5Args c5Ids).2 c5Args c5Ids).2 acct =
       Balance (PostTransfer c1State c5Args c5Ids).2 acct)) :=
  ⟨by unfold wf; decide, rfl,
   claim_C1 c1State c5Args c5Ids c5Ids "tx-1" (by unfold wf; decide) rfl⟩

/-- `min a b = max a b` exactly when the two are equal. -/
theorem min_eq_max_iff (a b : Int) : min a b = max a b ↔ a = b := by
  constructor
  · intro h
    rcases le_total a b with hle | hle
    · rw [min_eq_left hle, max_eq_right hle] at h; exact h
    · rw [min_eq_right hle, max_eq_left hle] at h; exact h.symm
  · intro h; subst h; simp

/-- `==` on strings is symmetric. -/
theorem str_beq_comm (a b : String) : (a == b) = (b == a) := by
  by_cases h : a = b
  · subst h; rfl
  · have h2 : ¬ b = a := fun e => h e.symm
    simp [h, h2]

/-- Inversion of a successful entry batch insert: the entries are
appended in order and each one passed the row CHECKs. -/
theorem insertEntriesSeq_ok (es : List LedgerEntry) (s s2 : DBState)
    (h : insertEntriesSeq s es = .ok s2) :
    s2 = { s with entries := s.entries ++ es } ∧
    ∀ e ∈ es, 0 < e.amount_cents := by
  induction es generalizing s with
  | nil =>
    unfold insertEntriesSeq at h
    cases h
    simp
  | cons e rest ih =>
    unfold insertEntriesSeq at h
    rcases hr : insertLedgerEntryRow s e with err | s1
    · rw [hr] at h; cases h
    · rw [hr] at h
      obtain ⟨hs1, hpos, _⟩ := insertLedgerEntryRow_ok s e s1 hr
      obtain ⟨hs2, hall⟩ := ih s1 h
      subst hs1
      subst hs2
      refine ⟨by simp, ?_⟩
      intro x hx
      rcases List.mem_cons.mp hx with rfl | hm
      · exact hpos
      · exact hall x hm

/-- A successful commit ran `enforce_tx_balanced` successfully for
every touched transaction. -/
theorem runDeferredBalanced_ok (ts : List String) (s : DBState)
    (h : runDeferredBalanced s ts = .ok ()) :
    ∀ t ∈ ts, enforce_tx_balanced s.entries t = .ok () := by
  induction ts with
  | nil => intro t ht; cases ht
  | cons t0 rest ih =>
    unfold runDeferredBalanced at h
    rcases he : enforce_tx_balanced s.entries t0 with err | u
    · rw [he] at h; cases h
    · rw [he] at h
      intro t ht
      rcases List.mem_cons.mp ht with rfl | hm
      · cases u; exact he
      · exact ih h t hm

/-- `enforce_tx_balanced` depends only on the entries of the checked
transaction. -/
theorem enforce_filter_eq (l1 l2 : List LedgerEntry) (txId : String)
    (h : l1.filter (fun e => e.tx_id == txId) =
         l2.filter (fun e => e.tx_id == txId)) :
    enforce_tx_balanced l1 txId = enforce_tx_balanced l2 txId := by
  unfold enforce_tx_balanced
  rw [h]

/-- What a passing deferred check says about a transaction that has at
least one entry: exactly two entries, one `DEBIT` and one `CREDIT`,
pairwise equal amounts and currencies. -/
theorem enforce_ok_spec (entries : List LedgerEntry) (txId : String)
    (h : enforce_tx_balanced entries txId = .ok ())
    (hne : entries.filter (fun e => e.tx_id == txId) ≠ []) :
    (entries.filter (fun e => e.tx_id == txId)).length = 2 ∧
    ((entries.filter (fun e => e.tx_id == txId)).filter
      (fun e => e.direction == Direction.debit)).length = 1 ∧
    ((entries.filter (fun e => e.tx_id == txId)).filter
      (fun e => e.direction == Direction.credit)).length = 1 ∧
    (∀ e1 ∈ entries.filter (fun e => e.tx_id == txId),
     ∀ e2 ∈ entries.filter (fun e => e.tx_id == txId),
       e1.amount_cents = e2.amount_cents ∧ e1.currency = e2.currency) := by
  unfold enforce_tx_balanced at h
  dsimp only at h
  rcases hn0 : (entries.filter (fun e => e.tx_id == txId)).length == 0 with _ | _
  case true =>
    exact absurd (List.length_eq_zero.mp (by simpa using hn0)) hne
  case false =>
  rw [hn0] at h
  simp only [Bool.false_eq_true, if_false] at h
  rcases hck : !((entries.filter (fun e => e.tx_id == txId)).length == 2 &&
      ((entries.filter (fun e => e.tx_id == txId)).filter
        (fun e => e.direction == Direction.debit)).length == 1 &&
      ((entries.filter (fun e => e.tx_id == txId)).filter
        (fun e => e.direction == Direction.credit)).length == 1) with _ | _
  case true => rw [hck] at h; simp at h
  case false =>
  rw [hck] at h
  simp only [Bool.false_eq_true, if_false] at h
  simp only [Bool.not_eq_false', Bool.and_eq_true, beq_iff_eq] at hck
  obtain ⟨⟨hlen, hdeb⟩, hcred⟩ := hck
  refine ⟨hlen, hdeb, hcred, ?_⟩
  obtain ⟨x, y, hxy⟩ := List.length_eq_two.mp hlen
  rw [hxy] at h ⊢
  simp only [List.map_cons, List.map_nil] at h
  simp only [minInt?, maxInt?, minStr?, maxStr?, List.foldl] at h
  rcases ha : min x.amount_cents y.amount_cents == max x.amount_cents y.amount_cents with _ | _
  case false => rw [ha] at h; simp at h
  case true =>
  rw [ha] at h
  simp only [Bool.not_true, Bool.false_eq_true, if_false] at h
  have hamt : x.amount_cents = y.amount_cents :=
    (min_eq_max_iff _ _).mp (by simpa using ha)
  rcases hc : (if keyLe x.currency y.currency then x.currency else y.currency) ==
      (if keyLe x.currency y.currency then y.currency else x.currency) with _ | _
  case false => rw [hc] at h; simp at h
  case true =>
  have hcur : x.currency = y.currency := by
    rcases hk : keyLe x.currency y.currency with _ | _
    · rw [hk] at hc
      simp only [Bool.false_eq_true, if_false] at hc
      exact (by simpa using hc : y.currency = x.currency).symm
    · rw [hk] at hc
      simp only [if_true] at hc
      simpa using hc
  intro e1 he1 e2 he2
  rcases List.mem_pair.mp he1 with rfl | rfl <;>
    rcases List.mem_pair.mp he2 with rfl | rfl <;>
      simp [hamt, hcur]

/-- The deferred check gives the same verdict on an entry pair in
either insertion order. -/
theorem enforce_pair_swap (d c : LedgerEntry) (txId : String)
    (hd : d.tx_id = txId) (hc : c.tx_id = txId) :
    enforce_tx_balanced [d, c] txId = enforce_tx_balanced [c, d] txId := by
  unfold enforce_tx_balanced
  dsimp only
  simp only [List.filter, hd, hc, beq_self_eq_true, List.map_cons, List.map_nil,
    minInt?, maxInt?, minStr?, maxStr?, List.foldl, List.length_cons,
    List.length_nil]
  rw [min_comm d.amount_cents c.amount_cents,
      max_comm d.amount_cents c.amount_cents]
  cases hdd : d.direction <;> cases hcc : c.direction <;>
    simp only [show (Direction.debit == Direction.debit) = true from rfl,
      show (Direction.credit == Direction.credit) = true from rfl,
      show (Direction.debit == Direction.credit) = false from rfl,
      show (Direction.credit == Direction.debit) = false from rfl,
      List.filter, List.length_cons, List.length_nil]
  all_goals (
    rcases h1 : keyLe d.currency c.currency with _ | _ <;>
      rcases h2 : keyLe c.currency d.currency with _ | _ <;>
        simp [h1, h2, str_beq_comm d.currency c.currency])
/-- A direct insert of a single entry for a new `tx_id` never commits:
the deferred check rejects it and the transaction rolls back. -/
theorem directInsertCommit_single_fails (s : DBState) (t : LedgerTx)
    (e : LedgerEntry) (he : e.tx_id = t.tx_id)
    (hnew : ∀ e0 ∈ s.entries, ¬ e0.tx_id = t.tx_id) :
    ∀ s2, directInsertCommit s t [e] ≠ Except.ok s2 := by
  intro s2 h
  unfold directInsertCommit at h
  rcases ht : insertLedgerTxRow s t with err | s1
  · rw [ht] at h; cases h
  · rw [ht] at h
    dsimp only at h
    obtain ⟨hs1, _⟩ := insertLedgerTxRow_ok s t s1 ht
    rcases hes : insertEntriesSeq s1 [e] with err | s3
    · rw [hes] at h; cases h
    · rw [hes] at h
      dsimp only at h
      obtain ⟨hs3, _⟩ := insertEntriesSeq_ok [e] s1 s3 hes
      have hfil : s3.entries.filter (fun x => x.tx_id == e.tx_id) = [e] := by
        rw [hs3, hs1]
        show (s.entries ++ [e]).filter (fun x => x.tx_id == e.tx_id) = [e]
        rw [List.filter_append]
        have hnil : s.entries.filter (fun x => x.tx_id == e.tx_id) = [] := by
          rw [List.filter_eq_nil_iff]
          intro x hx
          have hx2 := hnew x hx
          rw [he]
          simpa using hx2
        rw [hnil]
        simp
      have henf : enforce_tx_balanced s3.entries e.tx_id =
          .error (.integrity "unbalanced: expected 2 entries (1 DEBIT, 1 CREDIT)") := by
        unfold enforce_tx_balanced
        dsimp only
        rw [hfil]
        rfl
      have hrun : runDeferredBalanced s3 (List.map (fun x => x.tx_id) [e]) =
          .error (.integrity "unbalanced: expected 2 entries (1 DEBIT, 1 CREDIT)") := by
        simp only [List.map]
        unfold runDeferredBalanced
        rw [henf]
      rw [hrun] at h
      cases h

/-- C4: a committed direct insert guarantees, for every transaction it
touched, exactly two entries, exactly one `DEBIT` and one `CREDIT`,
equal positive amounts and equal currencies (`enforce_tx_balanced` does
NOT require distinct accounts); the verdict is the same in either
insertion order of the pair, and a single-entry insert for a new
`tx_id` always fails, its rows rolled back. -/
theorem claim_C4 (s : DBState) (t : LedgerTx) (es : List LedgerEntry)
    (s2 : DBState) (h : directInsertCommit s t es = Except.ok s2)
    (txId : String) (htx : txId ∈ es.map (fun e => e.tx_id)) :
    ((s2.entries.filter (fun e => e.tx_id == txId)).length = 2 ∧
     ((s2.entries.filter (fun e => e.tx_id == txId)).filter
       (fun e => e.direction == Direction.debit)).length = 1 ∧
     ((s2.entries.filter (fun e => e.tx_id == txId)).filter
       (fun e => e.direction == Direction.credit)).length = 1 ∧
     (∀ e ∈ s2.entries.filter (fun e => e.tx_id == txId), 0 < e.amount_cents) ∧
     (∀ e1 ∈ s2.entries.filter (fun e => e.tx_id == txId),
      ∀ e2 ∈ s2.entries.filter (fun e => e.tx_id == txId),
        e1.amount_cents = e2.amount_cents ∧ e1.currency = e2.currency)) ∧
    (∀ (base : List LedgerEntry) (d c : LedgerEntry),
      (∀ e0 ∈ base, ¬ e0.tx_id = txId) → d.tx_id = txId → c.tx_id = txId →
      enforce_tx_balanced (base ++ [d, c]) txId =
        enforce_tx_balanced (base ++ [c, d]) txId) ∧
    (∀ (s0 : DBState) (t0 : LedgerTx) (e0 : LedgerEntry),
      e0.tx_id = t0.tx_id → (∀ e1 ∈ s0.entries, ¬ e1.tx_id = t0.tx_id) →
      ∀ s3, directInsertCommit s0 t0 [e0] ≠ Except.ok s3) := by
  refine ⟨?_, ?_, directInsertCommit_single_fails⟩
  · unfold directInsertCommit at h
    rcases ht : insertLedgerTxRow s t with err | s1
    · rw [ht] at h; cases h
    · rw [ht] at h
      dsimp only at h
      obtain ⟨hs1, _⟩ := insertLedgerTxRow_ok s t s1 ht
      rcases hes : insertEntriesSeq s1 es with err | s2x
      · rw [hes] at h; cases h
      · rw [hes] at h
        dsimp only at h
        obtain ⟨hs2x, hpos⟩ := insertEntriesSeq_ok es s1 s2x hes
        rcases hrun : runDeferredBalanced s2x (es.map (fun e => e.tx_id)) with err | u
        · rw [hrun] at h; cases h
        · rw [hrun] at h
          dsimp only at h
          cases h
          have henf := runDeferredBalanced_ok _ _ hrun txId htx
          obtain ⟨ee, hee, heetx⟩ := List.mem_map.mp htx
          have heein : ee ∈ s2.entries := by
            rw [hs2x, hs1]
            show ee ∈ s.entries ++ es
            exact List.mem_append_right _ hee
          have heefil : ee ∈ s2.entries.filter (fun e => e.tx_id == txId) :=
            List.mem_filter.mpr ⟨heein, by simp [heetx]⟩
          have hne : s2.entries.filter (fun e => e.tx_id == txId) ≠ [] := by
            intro hnil
            rw [hnil] at heefil
            cases heefil
          obtain ⟨hl2, hd1, hc1, heq⟩ := enforce_ok_spec s2.entries txId henf hne
          refine ⟨hl2, hd1, hc1, ?_, heq⟩
          intro e hef
          have hameq := (heq e hef ee heefil).1
          rw [hameq]
          exact hpos ee hee
  · intro base d c hb hd hc
    have hbnil : base.filter (fun e => e.tx_id == txId) = [] := by
      rw [List.filter_eq_nil_iff]
      intro e0 he0
      simpa using hb e0 he0
    have h1 : enforce_tx_balanced (base ++ [d, c]) txId =
        enforce_tx_balanced [d, c] txId := by
      refine enforce_filter_eq _ _ _ ?_
      rw [List.filter_append, hbnil, List.nil_append]
    have h2 : enforce_tx_balanced (base ++ [c, d]) txId =
        enforce_tx_balanced [c, d] txId := by
      refine enforce_filter_eq _ _ _ ?_
      rw [List.filter_append, hbnil, List.nil_append]
    rw [h1, h2]
    exact enforce_pair_swap d c txId hd hc

/-- C4 counterexample to the distinct-accounts part: a balanced pair
whose debit and credit both hit account `acc-1` commits successfully
through the deferred check. -/
theorem claim_C4_cex :
    (∀ e ∈ c4Entries, e.account_id = "acc-1") ∧
    directInsertCommit c4State c4Tx c4Entries = Except.ok c4Posted :=
  ⟨by decide, rfl⟩

/-- Witness: the direct insert of the fixture pair commits and C4's
guarantees hold for it. -/
theorem claim_C4_witness :
    directInsertCommit c4State c4Tx c4Entries = Except.ok c4Posted ∧
    "tx-x" ∈ c4Entries.map (fun e => e.tx_id) ∧
    (((c4Posted.entries.filter (fun e => e.tx_id == "tx-x")).length = 2 ∧
      ((c4Posted.entries.filter (fun e => e.tx_id == "tx-x")).filter
        (fun e => e.direction == Direction.debit)).length = 1 ∧
      ((c4Posted.entries.filter (fun e => e.tx_id == "tx-x")).filter
        (fun e => e.direction == Direction.credit)).length = 1 ∧
      (∀ e ∈ c4Posted.entries.filter (fun e => e.tx_id == "tx-x"),
        0 < e.amount_cents) ∧
      (∀ e1 ∈ c4Posted.entries.filter (fun e => e.tx_id == "tx-x"),
       ∀ e2 ∈ c4Posted.entries.filter (fun e => e.tx_id == "tx-x"),
         e1.amount_cents = e2.amount_cents ∧ e1.currency = e2.currency)) ∧
     (∀ (base : List LedgerEntry) (d c : LedgerEntry),
       (∀ e0 ∈ base, ¬ e0.tx_id = "tx-x") → d.tx_id = "tx-x" →
       c.tx_id = "tx-x" →
       enforce_tx_balanced (base ++ [d, c]) "tx-x" =
         enforce_tx_balanced (base ++ [c, d]) "tx-x") ∧
     (∀ (s0 : DBState) (t0 : LedgerTx) (e0 : LedgerEntry),
       e0.tx_id = t0.tx_id → (∀ e1 ∈ s0.entries, ¬ e1.tx_id = t0.tx_id) →
       ∀ s3, directInsertCommit s0 t0 [e0] ≠ Except.ok s3)) :=
  ⟨rfl, by decide, claim_C4 c4State c4Tx c4Entries c4Posted rfl "tx-x" (by decide)⟩

/-- C10: every successful `CreateAccount` call returns the new account
id, appends the account row, and appends exactly one event with
event_type `ACCOUNT_CREATED`, aggregate_type `ACCOUNT`, aggregate_id
the new account id, the supplied correlation id, and a payload holding
account_id, trimmed label and normalized currency; the chain head's seq
advances by one to the event's seq and the head hash becomes the
event's hash. -/
theorem claim_C10 (s : DBState)
    (label currency correlationId accId eventId now t : String)
    (h : (CreateAccount s label currency correlationId accId eventId now).1 =
      .ok t) :
    t = accId ∧
    (CreateAccount s label currency correlationId accId eventId now).2.accounts =
      s.accounts ++ [⟨accId, trimChars label, strToUpper (trimChars currency)⟩] ∧
    (∃ ev : EventRow,
      (CreateAccount s label currency correlationId accId eventId now).2.events =
        s.events ++ [ev] ∧
      ev.event_type = "ACCOUNT_CREATED" ∧ ev.aggregate_type = "ACCOUNT" ∧
      ev.aggregate_id = accId ∧ ev.correlation_id = correlationId ∧
      ev.payload_json =
        [("account_id", .s accId), ("label", .s (trimChars label)),
         ("currency", .s (strToUpper (trimChars currency)))] ∧
      ev.seq = s.head.last_seq + 1 ∧
      (CreateAccount s label currency correlationId accId
        eventId now).2.head.last_seq = s.head.last_seq + 1 ∧
      (CreateAccount s label currency correlationId accId
        eventId now).2.head.last_hash = ev.hash) := by
  obtain ⟨ht, hs2, _⟩ :=
    CreateAccount_ok s label currency correlationId accId eventId now t h
  rw [hs2]
  exact ⟨ht, rfl, _, rfl, rfl, rfl, rfl, rfl, rfl, rfl, rfl, rfl⟩

set_option maxRecDepth 1000000 in
/-- Witness: creating account `acc-1` on the empty ledger appends the
`ACCOUNT_CREATED` event at seq 1. -/
theorem claim_C10_witness :
    (CreateAccount initState "alice" "eur" "corr-1" "acc-1" "ev-1" "t1").1 =
      Except.ok "acc-1" ∧
    ("acc-1" = "acc-1" ∧
     (CreateAccount initState "alice" "eur" "corr-1" "acc-1" "ev-1"
       "t1").2.accounts =
       initState.accounts ++
         [⟨"acc-1", trimChars "alice", strToUpper (trimChars "eur")⟩] ∧
     (∃ ev : EventRow,
       (CreateAccount initState "alice" "eur" "corr-1" "acc-1" "ev-1"
         "t1").2.events = initState.events ++ [ev] ∧
       ev.event_type = "ACCOUNT_CREATED" ∧ ev.aggregate_type = "ACCOUNT" ∧
       ev.aggregate_id = "acc-1" ∧ ev.correlation_id = "corr-1" ∧
       ev.payload_json =
         [("account_id", .s "acc-1"), ("label", .s (trimChars "alice")),
          ("currency", .s (strToUpper (trimChars "eur")))] ∧
       ev.seq = initState.head.last_seq + 1 ∧
       (CreateAccount initState "alice" "eur" "corr-1" "acc-1" "ev-1"
         "t1").2.head.last_seq = initState.head.last_seq + 1 ∧
       (CreateAccount initState "alice" "eur" "corr-1" "acc-1" "ev-1"
         "t1").2.head.last_hash = ev.hash)) :=
  ⟨rfl,
   claim_C10 initState "alice" "eur" "corr-1" "acc-1" "ev-1" "t1" "acc-1" rfl⟩

/-- Inversion of a successful valuation snapshot ingest: the row and
one snapshot event are appended and the CHECK/uniqueness facts held. -/
theorem insertValuationSnapshot_ok (s : DBState) (v : ValuationSnapshot)
    (eventId now : String) (s2 : DBState)
    (h : insertValuationSnapshot s v eventId now = .ok s2) :
    s2 = { s with
      valuations := s.valuations ++ [v],
      events := s.events ++ [⟨eventId, "VALUATION_SNAPSHOT", "RISK_SNAPSHOT",
        v.snapshot_id, v.ingestion_correlation_id, v.payload_json,
        v.payload_canonical, now, s.head.last_seq + 1, s.head.last_hash,
        sha256Utf8 v.payload_canonical,
        sha256Utf8 (event_chain_material (s.head.last_seq + 1) s.head.last_hash
          eventId now "VALUATION_SNAPSHOT" "RISK_SNAPSHOT" v.snapshot_id
          v.ingestion_correlation_id (sha256Utf8 v.payload_canonical))⟩],
      head := ⟨s.head.last_seq + 1,
        sha256Utf8 (event_chain_material (s.head.last_seq + 1) s.head.last_hash
          eventId now "VALUATION_SNAPSHOT" "RISK_SNAPSHOT" v.snapshot_id
          v.ingestion_correlation_id (sha256Utf8 v.payload_canonical))⟩ } ∧
    s.valuations.any (fun r => r.snapshot_id == v.snapshot_id) = false ∧
    s.valuations.any (fun r =>
      r.asset_type == v.asset_type && r.asset_id == v.asset_id &&
      r.as_of == v.as_of && r.source == v.source &&
      r.payload_hash == v.payload_hash) = false ∧
    s.events.any (fun r => r.event_id == eventId) = false := by
  unfold insertValuationSnapshot at h
  repeat' split at h
  all_goals (try (cases h))
  obtain ⟨hsE, _, _, _, _, _, _, hfresh⟩ :=
    event_log_insert_ok _ _ _ _ h
  subst hsE
  simp_all

/-- Inversion of a successful liquidity snapshot ingest. -/
theorem insertLiquiditySnapshot_ok (s : DBState) (v : LiquiditySnapshot)
    (eventId now : String) (s2 : DBState)
    (h : insertLiquiditySnapshot s v eventId now = .ok s2) :
    s2 = { s with
      liquidity := s.liquidity ++ [v],
      events := s.events ++ [⟨eventId, "LIQUIDITY_SNAPSHOT", "RISK_SNAPSHOT",
        v.snapshot_id, v.ingestion_correlation_id, v.payload_json,
        v.payload_canonical, now, s.head.last_seq + 1, s.head.last_hash,
        sha256Utf8 v.payload_canonical,
        sha256Utf8 (event_chain_material (s.head.last_seq + 1) s.head.last_hash
          eventId now "LIQUIDITY_SNAPSHOT" "RISK_SNAPSHOT" v.snapshot_id
          v.ingestion_correlation_id (sha256Utf8 v.payload_canonical))⟩],
      head := ⟨s.head.last_seq + 1,
        sha256Utf8 (event_chain_material (s.head.last_seq + 1) s.head.last_hash
          eventId now "LIQUIDITY_SNAPSHOT" "RISK_SNAPSHOT" v.snapshot_id
          v.ingestion_correlation_id (sha256Utf8 v.payload_canonical))⟩ } ∧
    s.liquidity.any (fun r => r.snapshot_id == v.snapshot_id) = false ∧
    s.liquidity.any (fun r =>
      r.asset_type == v.asset_type && r.asset_id == v.asset_id &&
      r.as_of == v.as_of && r.source == v.source &&
      r.payload_hash == v.payload_hash) = false ∧
    s.events.any (fun r => r.event_id == eventId) = false := by
  unfold insertLiquiditySnapshot at h
  repeat' split at h
  all_goals (try (cases h))
  obtain ⟨hsE, _, _, _, _, _, _, hfresh⟩ :=
    event_log_insert_ok _ _ _ _ h
  subst hsE
  simp_all

/-- A failing `CreateAccount` rolls back: the returned state is the
input state. -/
theorem CreateAccount_err (s : DBState)
    (label currency correlationId accId eventId now : String) (e : LErr)
    (h : (CreateAccount s label currency correlationId accId eventId now).1 =
      .error e) :
    (CreateAccount s label currency correlationId accId eventId now).2 = s := by
  rcases hE : CreateAccount s label currency correlationId accId eventId now
    with ⟨r1, s2⟩
  rw [hE] at h
  dsimp only at h ⊢
  unfold CreateAccount at hE
  dsimp only at hE
  repeat' split at hE
  all_goals (cases hE)
  all_goals (first | rfl | cases h)

/-- A failing `PostTransfer` rolls back: the returned state is the
input state. -/
theorem PostTransfer_err (s : DBState) (a : TransferArgs) (ids : FreshIds)
    (e : LErr) (h : (PostTransfer s a ids).1 = .error e) :
    (PostTransfer s a ids).2 = s := by
  rcases hE : PostTransfer s a ids with ⟨r1, s2⟩
  rw [hE] at h
  dsimp only at h ⊢
  unfold PostTransfer at hE
  dsimp only at hE
  repeat' split at hE
  all_goals (cases hE)
  all_goals (first | rfl | cases h)

/-- A boolean guard `!c || x` as an implication. -/
theorem bool_guard_iff (c x : Bool) : ((!c || x) = true) ↔ (c = true → x = true) := by
  cases c <;> simp

/-- The 1:1 snapshot/event invariant, spelled out in `Prop`. -/
theorem snapInv_spec (s : DBState) :
    snapInv s ↔
    ((s.valuations.map (fun v => v.snapshot_id)).Nodup ∧
     (s.liquidity.map (fun v => v.snapshot_id)).Nodup ∧
     (∀ v ∈ s.valuations, ∃ e, valEventsFor s v.snapshot_id = [e] ∧
        e.aggregate_type = "RISK_SNAPSHOT" ∧
        e.correlation_id = v.ingestion_correlation_id) ∧
     (∀ v ∈ s.liquidity, ∃ e, liqEventsFor s v.snapshot_id = [e] ∧
        e.aggregate_type = "RISK_SNAPSHOT" ∧
        e.correlation_id = v.ingestion_correlation_id) ∧
     (∀ e ∈ s.events, e.event_type = "VALUATION_SNAPSHOT" →
        s.valuations.any (fun v => v.snapshot_id == e.aggregate_id) = true) ∧
     (∀ e ∈ s.events, e.event_type = "LIQUIDITY_SNAPSHOT" →
        s.liquidity.any (fun v => v.snapshot_id == e.aggregate_id) = true)) := by
  unfold snapInv snapInvB
  simp only [Bool.and_eq_true, List.all_eq_true, decide_eq_true_eq]
  constructor
  · rintro ⟨⟨⟨⟨⟨h1, h2⟩, h3⟩, h4⟩, h5⟩, h6⟩
    refine ⟨h1, h2, ?_, ?_, ?_, ?_⟩
    · intro v hv
      have hm := h3 v hv
      rcases hl : valEventsFor s v.snapshot_id with _ | ⟨e, rest⟩
      · rw [hl] at hm; cases hm
      · rcases rest with _ | ⟨e2, rest2⟩
        · rw [hl] at hm
          simp only [Bool.and_eq_true, beq_iff_eq] at hm
          exact ⟨e, rfl, hm.1, hm.2⟩
        · rw [hl] at hm; cases hm
    · intro v hv
      have hm := h4 v hv
      rcases hl : liqEventsFor s v.snapshot_id with _ | ⟨e, rest⟩
      · rw [hl] at hm; cases hm
      · rcases rest with _ | ⟨e2, rest2⟩
        · rw [hl] at hm
          simp only [Bool.and_eq_true, beq_iff_eq] at hm
          exact ⟨e, rfl, hm.1, hm.2⟩
        · rw [hl] at hm; cases hm
    · intro e he ht
      have hm := h5 e he
      rw [bool_guard_iff] at hm
      exact hm (by simp [ht])
    · intro e he ht
      have hm := h6 e he
      rw [bool_guard_iff] at hm
      exact hm (by simp [ht])
  · rintro ⟨h1, h2, h3, h4, h5, h6⟩
    refine ⟨⟨⟨⟨⟨h1, h2⟩, ?_⟩, ?_⟩, ?_⟩, ?_⟩
    · intro v hv
      obtain ⟨e, hl, ha, hc⟩ := h3 v hv
      rw [hl]
      simp [ha, hc]
    · intro v hv
      obtain ⟨e, hl, ha, hc⟩ := h4 v hv
      rw [hl]
      simp [ha, hc]
    · intro e he
      rw [bool_guard_iff]
      intro ht
      exact h5 e he (by simpa using ht)
    · intro e he
      rw [bool_guard_iff]
      intro ht
      exact h6 e he (by simpa using ht)

/-- Every tamper or purge operation leaves the state unchanged: either
no row matches, or `forbid_update_delete` raises and rolls back. -/
theorem runOp_tamper_id (s : DBState) (op : Op)
    (h : match op with
      | .tamperLedgerTx _ _ | .tamperLedgerEntry _ _ | .tamperEventLog _ _
      | .tamperValuation _ _ | .tamperLiquidity _ _
      | .purgeLedgerTx _ | .purgeLedgerEntry _ | .purgeEventLog _
      | .purgeValuation _ | .purgeLiquidity _ => True
      | _ => False) :
    runOp s op = s := by
  cases op <;> try (cases h)
  all_goals (
    simp only [runOp, updateLedgerTx, updateLedgerEntry, updateEventLog,
      updateValuationSnapshot, updateLiquiditySnapshot, deleteLedgerTx,
      deleteLedgerEntry, deleteEventLog, deleteValuationSnapshot,
      deleteLiquiditySnapshot, forbid_update_delete]
    first
    | rfl
    | (split
       · rfl
       · next x s2 heq =>
           split at heq
           · cases heq
           · cases heq
             rfl))

/-- Appending one non-snapshot event preserves the snapshot invariant. -/
theorem snapInv_addEvent (s s2 : DBState) (ev : EventRow)
    (hval : s2.valuations = s.valuations) (hliq : s2.liquidity = s.liquidity)
    (hev : s2.events = s.events ++ [ev])
    (ht1 : ev.event_type ≠ "VALUATION_SNAPSHOT")
    (ht2 : ev.event_type ≠ "LIQUIDITY_SNAPSHOT")
    (h : snapInv s) : snapInv s2 := by
  rw [snapInv_spec] at h ⊢
  obtain ⟨h1, h2, h3, h4, h5, h6⟩ := h
  have hb1 : (ev.event_type == "VALUATION_SNAPSHOT") = false :=
    beq_eq_false_iff_ne.mpr ht1
  have hb2 : (ev.event_type == "LIQUIDITY_SNAPSHOT") = false :=
    beq_eq_false_iff_ne.mpr ht2
  have hvf : ∀ x, valEventsFor s2 x = valEventsFor s x := by
    intro x
    unfold valEventsFor
    rw [hev, List.filter_append]
    simp [List.filter, hb1]
  have hlf : ∀ x, liqEventsFor s2 x = liqEventsFor s x := by
    intro x
    unfold liqEventsFor
    rw [hev, List.filter_append]
    simp [List.filter, hb2]
  refine ⟨by rw [hval]; exact h1, by rw [hliq]; exact h2, ?_, ?_, ?_, ?_⟩
  · intro v hv
    rw [hval] at hv
    rw [hvf]
    exact h3 v hv
  · intro v hv
    rw [hliq] at hv
    rw [hlf]
    exact h4 v hv
  · intro e he htE
    rw [hev] at he
    rcases List.mem_append.mp he with hm | hm
    · rw [hval]
      exact h5 e hm htE
    · rw [List.mem_singleton] at hm
      subst hm
      exact absurd htE ht1
  · intro e he htE
    rw [hev] at he
    rcases List.mem_append.mp he with hm | hm
    · rw [hliq]
      exact h6 e hm htE
    · rw [List.mem_singleton] at hm
      subst hm
      exact absurd htE ht2

/-- Appending a fresh valuation row together with its one
`VALUATION_SNAPSHOT` event preserves the snapshot invariant. -/
theorem snapInv_addValuation (s s2 : DBState) (v : ValuationSnapshot)
    (ev : EventRow)
    (hval : s2.valuations = s.valuations ++ [v])
    (hliq : s2.liquidity = s.liquidity)
    (hev : s2.events = s.events ++ [ev])
    (htype : ev.event_type = "VALUATION_SNAPSHOT")
    (haggt : ev.aggregate_type = "RISK_SNAPSHOT")
    (hagg : ev.aggregate_id = v.snapshot_id)
    (hcorr : ev.correlation_id = v.ingestion_correlation_id)
    (hfresh : s.valuations.any (fun r => r.snapshot_id == v.snapshot_id) = false)
    (h : snapInv s) : snapInv s2 := by
  rw [snapInv_spec] at h ⊢
  obtain ⟨h1, h2, h3, h4, h5, h6⟩ := h
  rw [List.any_eq_false] at hfresh
  have hne : ∀ r ∈ s.valuations, ¬ r.snapshot_id = v.snapshot_id := by
    intro r hr
    have := hfresh r hr
    simpa using this
  have hb2 : (ev.event_type == "LIQUIDITY_SNAPSHOT") = false := by
    rw [htype]; rfl
  have hlf : ∀ x, liqEventsFor s2 x = liqEventsFor s x := by
    intro x
    unfold liqEventsFor
    rw [hev, List.filter_append]
    simp [List.filter, hb2]
  refine ⟨?_, by rw [hliq]; exact h2, ?_, ?_, ?_, ?_⟩
  · rw [hval, List.map_append]
    refine List.Nodup.append h1 (by simp) ?_
    intro x hx hx2
    rw [List.mem_map] at hx
    obtain ⟨r, hr, hid⟩ := hx
    simp only [List.map_cons, List.map_nil, List.mem_singleton] at hx2
    exact hne r hr (hid.symm ▸ hx2)
  · intro w hw
    rw [hval] at hw
    rcases List.mem_append.mp hw with hm | hm
    · -- an old valuation row: its events are unchanged
      have hwe : valEventsFor s2 w.snapshot_id = valEventsFor s w.snapshot_id := by
        unfold valEventsFor
        rw [hev, List.filter_append]
        have hc : (ev.event_type == "VALUATION_SNAPSHOT" &&
            ev.aggregate_id == w.snapshot_id) = false := by
          have : ¬ ev.aggregate_id = w.snapshot_id := by
            rw [hagg]
            intro habs
            exact hne w hm habs.symm
          simp [this]
        simp [List.filter, hc]
      rw [hwe]
      exact h3 w hm
    · rw [List.mem_singleton] at hm
      rw [hm]
      have hnil : valEventsFor s v.snapshot_id = [] := by
        unfold valEventsFor
        rw [List.filter_eq_nil_iff]
        intro e he habs
        rw [Bool.and_eq_true, beq_iff_eq, beq_iff_eq] at habs
        have hany := h5 e he habs.1
        rw [List.any_eq_true] at hany
        obtain ⟨r, hr, hrid⟩ := hany
        rw [beq_iff_eq] at hrid
        exact hne r hr (by rw [hrid, habs.2])
      have hwe : valEventsFor s2 v.snapshot_id = [ev] := by
        unfold valEventsFor
        rw [hev, List.filter_append]
        have hc : (ev.event_type == "VALUATION_SNAPSHOT" &&
            ev.aggregate_id == v.snapshot_id) = true := by
          simp [htype, hagg]
        unfold valEventsFor at hnil
        rw [hnil]
        simp [List.filter, hc]
      exact ⟨ev, hwe, haggt, hcorr⟩
  · intro w hw
    rw [hliq] at hw
    rw [hlf]
    exact h4 w hw
  · intro e he htE
    rw [hev] at he
    rcases List.mem_append.mp he with hm | hm
    · have := h5 e hm htE
      rw [hval, List.any_append, this, Bool.true_or]
    · rw [List.mem_singleton] at hm
      rw [hm]
      rw [hval, List.any_append]
      have hx : [v].any (fun r => r.snapshot_id == ev.aggregate_id) = true := by
        simp [hagg]
      rw [hx, Bool.or_true]
  · intro e he htE
    rw [hev] at he
    rcases List.mem_append.mp he with hm | hm
    · rw [hliq]
      exact h6 e hm htE
    · rw [List.mem_singleton] at hm
      rw [hm] at htE
      rw [htype] at htE
      exact absurd htE (by decide)

/-- Appending a fresh liquidity row together with its one
`LIQUIDITY_SNAPSHOT` event preserves the snapshot invariant. -/
theorem snapInv_addLiquidity (s s2 : DBState) (v : LiquiditySnapshot)
    (ev : EventRow)
    (hval : s2.valuations = s.valuations)
    (hliq : s2.liquidity = s.liquidity ++ [v])
    (hev : s2.events = s.events ++ [ev])
    (htype : ev.event_type = "LIQUIDITY_SNAPSHOT")
    (haggt : ev.aggregate_type = "RISK_SNAPSHOT")
    (hagg : ev.aggregate_id = v.snapshot_id)
    (hcorr : ev.correlation_id = v.ingestion_correlation_id)
    (hfresh : s.liquidity.any (fun r => r.snapshot_id == v.snapshot_id) = false)
    (h : snapInv s) : snapInv s2 := by
  rw [snapInv_spec] at h ⊢
  obtain ⟨h1, h2, h3, h4, h5, h6⟩ := h
  rw [List.any_eq_false] at hfresh
  have hne : ∀ r ∈ s.liquidity, ¬ r.snapshot_id = v.snapshot_id := by
    intro r hr
    have := hfresh r hr
    simpa using this
  have hb1 : (ev.event_type == "VALUATION_SNAPSHOT") = false := by
    rw [htype]; rfl
  have hvf : ∀ x, valEventsFor s2 x = valEventsFor s x := by
    intro x
    unfold valEventsFor
    rw [hev, List.filter_append]
    simp [List.filter, hb1]
  refine ⟨by rw [hval]; exact h1, ?_, ?_, ?_, ?_, ?_⟩
  · rw [hliq, List.map_append]
    refine List.Nodup.append h2 (by simp) ?_
    intro x hx hx2
    rw [List.mem_map] at hx
    obtain ⟨r, hr, hid⟩ := hx
    simp only [List.map_cons, List.map_nil, List.mem_singleton] at hx2
    exact hne r hr (hid.symm ▸ hx2)
  · intro w hw
    rw [hval] at hw
    rw [hvf]
    exact h3 w hw
  · intro w hw
    rw [hliq] at hw
    rcases List.mem_append.mp hw with hm | hm
    · -- an old liquidity row: its events are unchanged
      have hwe : liqEventsFor s2 w.snapshot_id = liqEventsFor s w.snapshot_id := by
        unfold liqEventsFor
        rw [hev, List.filter_append]
        have hc : (ev.event_type == "LIQUIDITY_SNAPSHOT" &&
            ev.aggregate_id == w.snapshot_id) = false := by
          have : ¬ ev.aggregate_id = w.snapshot_id := by
            rw [hagg]
            intro habs
            exact hne w hm habs.symm
          simp [this]
        simp [List.filter, hc]
      rw [hwe]
      exact h4 w hm
    · rw [List.mem_singleton] at hm
      rw [hm]
      have hnil : liqEventsFor s v.snapshot_id = [] := by
        unfold liqEventsFor
        rw [List.filter_eq_nil_iff]
        intro e he habs
        rw [Bool.and_eq_true, beq_iff_eq, beq_iff_eq] at habs
        have hany := h6 e he habs.1
        rw [List.any_eq_true] at hany
        obtain ⟨r, hr, hrid⟩ := hany
        rw [beq_iff_eq] at hrid
        exact hne r hr (by rw [hrid, habs.2])
      have hwe : liqEventsFor s2 v.snapshot_id = [ev] := by
        unfold liqEventsFor
        rw [hev, List.filter_append]
        have hc : (ev.event_type == "LIQUIDITY_SNAPSHOT" &&
            ev.aggregate_id == v.snapshot_id) = true := by
          simp [htype, hagg]
        unfold liqEventsFor at hnil
        rw [hnil]
        simp [List.filter, hc]
      exact ⟨ev, hwe, haggt, hcorr⟩
  · intro e he htE
    rw [hev] at he
    rcases List.mem_append.mp he with hm | hm
    · rw [hval]
      exact h5 e hm htE
    · rw [List.mem_singleton] at hm
      rw [hm] at htE
      rw [htype] at htE
      exact absurd htE (by decide)
  · intro e he htE
    rw [hev] at he
    rcases List.mem_append.mp he with hm | hm
    · have := h6 e hm htE
      rw [hliq, List.any_append, this, Bool.true_or]
    · rw [List.mem_singleton] at hm
      rw [hm]
      rw [hliq, List.any_append]
      have hx : [v].any (fun r => r.snapshot_id == ev.aggregate_id) = true := by
        simp [hagg]
      rw [hx, Bool.or_true]

/-- Every operation preserves the snapshot invariant. -/
theorem snapInv_runOp (s : DBState) (op : Op) (h : snapInv s) :
    snapInv (runOp s op) := by
  cases op with
  | createAccount label currency correlationId accId eventId now =>
    rcases hr : (CreateAccount s label currency correlationId accId
        eventId now).1 with e | t
    · have hkeep := CreateAccount_err s label currency correlationId accId
        eventId now e hr
      simp only [runOp]
      rw [hkeep]
      exact h
    · obtain ⟨ht, hs2, _⟩ := CreateAccount_ok s label currency correlationId
        accId eventId now t hr
      simp only [runOp]
      rw [hs2]
      exact snapInv_addEvent s _ _ rfl rfl rfl
        (show ("ACCOUNT_CREATED" : String) ≠ "VALUATION_SNAPSHOT" by decide)
        (show ("ACCOUNT_CREATED" : String) ≠ "LIQUIDITY_SNAPSHOT" by decide) h
  | postTransfer a ids =>
    rcases hr : (PostTransfer s a ids).1 with e | t
    · have hkeep := PostTransfer_err s a ids e hr
      simp only [runOp]
      rw [hkeep]
      exact h
    · rcases hE : PostTransfer s a ids with ⟨r1, s2⟩
      rw [hE] at hr
      dsimp only at hr
      subst hr
      obtain ⟨shape, hshape, hcase⟩ := PostTransfer_ok s a ids t s2 hE
      simp only [runOp]
      rw [hE]
      show snapInv s2
      rcases hcase with ⟨r, _, _, _, hs2⟩ |
        ⟨_, _, _, _, _, _, _, _, _, _, _, hs2⟩
      · rw [hs2]
        exact h
      · rw [hs2]
        exact snapInv_addEvent s _ _ rfl rfl rfl
          (show ("TRANSFER_POSTED" : String) ≠ "VALUATION_SNAPSHOT" by decide)
          (show ("TRANSFER_POSTED" : String) ≠ "LIQUIDITY_SNAPSHOT" by decide) h
  | insertValuation v eventId now =>
    simp only [runOp]
    rcases hI : insertValuationSnapshot s v eventId now with e | s2
    · exact h
    · obtain ⟨hs2, hfresh, _, _⟩ :=
        insertValuationSnapshot_ok s v eventId now s2 hI
      subst hs2
      exact snapInv_addValuation s _ v _ rfl rfl rfl rfl rfl rfl rfl hfresh h
  | insertLiquidity v eventId now =>
    simp only [runOp]
    rcases hI : insertLiquiditySnapshot s v eventId now with e | s2
    · exact h
    · obtain ⟨hs2, hfresh, _, _⟩ :=
        insertLiquiditySnapshot_ok s v eventId now s2 hI
      subst hs2
      exact snapInv_addLiquidity s _ v _ rfl rfl rfl rfl rfl rfl rfl hfresh h
  | tamperLedgerTx p f => rw [runOp_tamper_id s _ trivial]; exact h
  | tamperLedgerEntry p f => rw [runOp_tamper_id s _ trivial]; exact h
  | tamperEventLog p f => rw [runOp_tamper_id s _ trivial]; exact h
  | tamperValuation p f => rw [runOp_tamper_id s _ trivial]; exact h
  | tamperLiquidity p f => rw [runOp_tamper_id s _ trivial]; exact h
  | purgeLedgerTx p => rw [runOp_tamper_id s _ trivial]; exact h
  | purgeLedgerEntry p => rw [runOp_tamper_id s _ trivial]; exact h
  | purgeEventLog p => rw [runOp_tamper_id s _ trivial]; exact h
  | purgeValuation p => rw [runOp_tamper_id s _ trivial]; exact h
  | purgeLiquidity p => rw [runOp_tamper_id s _ trivial]; exact h

/-- Every operation sequence preserves the snapshot invariant. -/
theorem snapInv_runOps (ops : List Op) (s : DBState) (h : snapInv s) :
    snapInv (runOps s ops) := by
  induction ops generalizing s with
  | nil => exact h
  | cons op rest ih => exact ih (runOp s op) (snapInv_runOp s op h)

/-- The genesis state satisfies the snapshot invariant. -/
theorem snapInv_init : snapInv initState := by unfold snapInv; decide

/-- C8: a successful valuation (resp. liquidity) snapshot insert
appends exactly one event with event_type `VALUATION_SNAPSHOT` (resp.
`LIQUIDITY_SNAPSHOT`), aggregate_type `RISK_SNAPSHOT`, aggregate_id the
snapshot_id and correlation_id the snapshot's ingestion correlation id;
a second snapshot with the same (asset_type, asset_id, as_of, source,
payload_hash) raises the idempotence unique violation and appends
nothing; and after any operation sequence every snapshot row has
exactly one matching event row. -/
theorem claim_C8 (s : DBState) (v : ValuationSnapshot) (eventId now : String)
    (s2 : DBState)
    (h : insertValuationSnapshot s v eventId now = Except.ok s2) :
    (∃ ev : EventRow,
      s2.events = s.events ++ [ev] ∧ s2.valuations = s.valuations ++ [v] ∧
      s2.liquidity = s.liquidity ∧
      ev.event_type = "VALUATION_SNAPSHOT" ∧
      ev.aggregate_type = "RISK_SNAPSHOT" ∧
      ev.aggregate_id = v.snapshot_id ∧
      ev.correlation_id = v.ingestion_correlation_id) ∧
    (∀ (s0 : DBState) (w : LiquiditySnapshot) (eid n : String) (s3 : DBState),
      insertLiquiditySnapshot s0 w eid n = Except.ok s3 →
      ∃ ev : EventRow,
        s3.events = s0.events ++ [ev] ∧ s3.liquidity = s0.liquidity ++ [w] ∧
        s3.valuations = s0.valuations ∧
        ev.event_type = "LIQUIDITY_SNAPSHOT" ∧
        ev.aggregate_type = "RISK_SNAPSHOT" ∧
        ev.aggregate_id = w.snapshot_id ∧
        ev.correlation_id = w.ingestion_correlation_id) ∧
    (∀ (s0 : DBState) (w r : ValuationSnapshot) (eid n : String),
      r ∈ s0.valuations →
      r.asset_type = w.asset_type → r.asset_id = w.asset_id →
      r.as_of = w.as_of → r.source = w.source →
      r.payload_hash = w.payload_hash →
      isCurrencyCode w.currency = true →
      decide (w.price < 0) = false →
      (decide (0 ≤ w.confidence) && decide (w.confidence ≤ 100)) = true →
      (w.payload_canonical.length == 0) = false →
      semanticMatches w.payload_canonical w.payload_json = true →
      (w.payload_hash.length == 32) = true →
      s0.valuations.any (fun q => q.snapshot_id == w.snapshot_id) = false →
      insertValuationSnapshot s0 w eid n =
        .error (.uniqueViolation "valuation_snapshot_idempotence_uq") ∧
      runOp s0 (.insertValuation w eid n) = s0) ∧
    (∀ (s0 : DBState) (w r : LiquiditySnapshot) (eid n : String),
      r ∈ s0.liquidity →
      r.asset_type = w.asset_type → r.asset_id = w.asset_id →
      r.as_of = w.as_of → r.source = w.source →
      r.payload_hash = w.payload_hash →
      (decide (0 ≤ w.haircut_bps) && decide (w.haircut_bps ≤ 10000)) = true →
      decide (0 ≤ w.time_to_cash_seconds) = true →
      (w.payload_canonical.length == 0) = false →
      semanticMatches w.payload_canonical w.payload_json = true →
      (w.payload_hash.length == 32) = true →
      s0.liquidity.any (fun q => q.snapshot_id == w.snapshot_id) = false →
      insertLiquiditySnapshot s0 w eid n =
        .error (.uniqueViolation "liquidity_snapshot_idempotence_uq") ∧
      runOp s0 (.insertLiquidity w eid n) = s0) ∧
    (∀ ops : List Op, snapInv (runOps initState ops)) := by
  refine ⟨?_, ?_, ?_, ?_, fun ops => snapInv_runOps ops initState snapInv_init⟩
  · obtain ⟨hs2, _, _, _⟩ := insertValuationSnapshot_ok s v eventId now s2 h
    subst hs2
    exact ⟨_, rfl, rfl, rfl, rfl, rfl, rfl, rfl⟩
  · intro s0 w eid n s3 h3
    obtain ⟨hs3, _, _, _⟩ := insertLiquiditySnapshot_ok s0 w eid n s3 h3
    subst hs3
    exact ⟨_, rfl, rfl, rfl, rfl, rfl, rfl, rfl⟩
  · intro s0 w r eid n hmem h1 h2 h3 h4 h5 hc1 hc2 hc3 hc4 hc5 hc6 hc7
    have huq : s0.valuations.any (fun q =>
        q.asset_type == w.asset_type && q.asset_id == w.asset_id &&
        q.as_of == w.as_of && q.source == w.source &&
        q.payload_hash == w.payload_hash) = true := by
      rw [List.any_eq_true]
      exact ⟨r, hmem, by simp [h1, h2, h3, h4, h5]⟩
    have herr : insertValuationSnapshot s0 w eid n =
        .error (.uniqueViolation "valuation_snapshot_idempotence_uq") := by
      unfold insertValuationSnapshot
      rw [hc1, hc2, hc3, hc4, hc5, hc6, hc7, huq]
      rfl
    refine ⟨herr, ?_⟩
    simp only [runOp]
    rw [herr]
  · intro s0 w r eid n hmem h1 h2 h3 h4 h5 hc1 hc2 hc3 hc4 hc5 hc6
    have huq : s0.liquidity.any (fun q =>
        q.asset_type == w.asset_type && q.asset_id == w.asset_id &&
        q.as_of == w.as_of && q.source == w.source &&
        q.payload_hash == w.payload_hash) = true := by
      rw [List.any_eq_true]
      exact ⟨r, hmem, by simp [h1, h2, h3, h4, h5]⟩
    have herr : insertLiquiditySnapshot s0 w eid n =
        .error (.uniqueViolation "liquidity_snapshot_idempotence_uq") := by
      unfold insertLiquiditySnapshot
      rw [hc1, hc2, hc3, hc4, hc5, hc6, huq]
      rfl
    refine ⟨herr, ?_⟩
    simp only [runOp]
    rw [herr]

set_option maxRecDepth 1000000 in
/-- Witness: ingesting `c8Val` on the empty ledger emits its one
snapshot event, and the invariant conclusions hold. -/
theorem claim_C8_witness :
    insertValuationSnapshot initState c8Val "ev-1" "t1" =
      Except.ok c8Posted ∧
    ((∃ ev : EventRow,
       c8Posted.events = initState.events ++ [ev] ∧
       c8Posted.valuations = initState.valuations ++ [c8Val] ∧
       c8Posted.liquidity = initState.liquidity ∧
       ev.event_type = "VALUATION_SNAPSHOT" ∧
       ev.aggregate_type = "RISK_SNAPSHOT" ∧
       ev.aggregate_id = c8Val.snapshot_id ∧
       ev.correlation_id = c8Val.ingestion_correlation_id) ∧
     (∀ (s0 : DBState) (w : LiquiditySnapshot) (eid n : String) (s3 : DBState),
       insertLiquiditySnapshot s0 w eid n = Except.ok s3 →
       ∃ ev : EventRow,
         s3.events = s0.events ++ [ev] ∧ s3.liquidity = s0.liquidity ++ [w] ∧
         s3.valuations = s0.valuations ∧
         ev.event_type = "LIQUIDITY_SNAPSHOT" ∧
         ev.aggregate_type = "RISK_SNAPSHOT" ∧
         ev.aggregate_id = w.snapshot_id ∧
         ev.correlation_id = w.ingestion_correlation_id) ∧
     (∀ (s0 : DBState) (w r : ValuationSnapshot) (eid n : String),
       r ∈ s0.valuations →
       r.asset_type = w.asset_type → r.asset_id = w.asset_id →
       r.as_of = w.as_of → r.source = w.source →
       r.payload_hash = w.payload_hash →
       isCurrencyCode w.currency = true →
       decide (w.price < 0) = false →
       (decide (0 ≤ w.confidence) && decide (w.confidence ≤ 100)) = true →
       (w.payload_canonical.length == 0) = false →
       semanticMatches w.payload_canonical w.payload_json = true →
       (w.payload_hash.length == 32) = true →
       s0.valuations.any (fun q => q.snapshot_id == w.snapshot_id) = false →
       insertValuationSnapshot s0 w eid n =
         .error (.uniqueViolation "valuation_snapshot_idempotence_uq") ∧
       runOp s0 (.insertValuation w eid n) = s0) ∧
     (∀ (s0 : DBState) (w r : LiquiditySnapshot) (eid n : String),
       r ∈ s0.liquidity →
       r.asset_type = w.asset_type → r.asset_id = w.asset_id →
       r.as_of = w.as_of → r.source = w.source →
       r.payload_hash = w.payload_hash →
       (decide (0 ≤ w.haircut_bps) && decide (w.haircut_bps ≤ 10000)) = true →
       decide (0 ≤ w.time_to_cash_seconds) = true →
       (w.payload_canonical.length == 0) = false →
       semanticMatches w.payload_canonical w.payload_json = true →
       (w.payload_hash.length == 32) = true →
       s0.liquidity.any (fun q => q.snapshot_id == w.snapshot_id) = false →
       insertLiquiditySnapshot s0 w eid n =
         .error (.uniqueViolation "liquidity_snapshot_idempotence_uq") ∧
       runOp s0 (.insertLiquidity w eid n) = s0) ∧
     (∀ ops : List Op, snapInv (runOps initState ops))) :=
  ⟨rfl, claim_C8 initState c8Val "ev-1" "t1" c8Posted rfl⟩

/-- The structural well-formedness predicate, spelled out in `Prop`,
in both directions. -/
theorem wf_iff (s : DBState) :
    wf s ↔
    ((s.accounts.map (fun a => a.account_id)).Nodup ∧
     (s.idem.map (fun r => r.key)).Nodup ∧
     (s.txs.map (fun t => t.tx_id)).Nodup ∧
     (s.txs.map (fun t => t.idempotency_key)).Nodup ∧
     (∀ e ∈ s.entries, s.accounts.any (fun a => a.account_id == e.account_id) = true) ∧
     (∀ e ∈ s.entries, s.txs.any (fun t => t.tx_id == e.tx_id) = true) ∧
     (∀ t ∈ s.txs, isEntryPair (s.entries.filter (fun e => e.tx_id == t.tx_id)) = true) ∧
     (∀ t ∈ s.txs, s.idem.any (fun r => r.key == t.idempotency_key) = true) ∧
     (∀ r ∈ s.idem, ∀ tid, r.tx_id = some tid →
       s.txs.any (fun t => t.tx_id == tid && t.idempotency_key == r.key) = true)) := by
  unfold wf wfB
  simp only [Bool.and_eq_true, List.all_eq_true, decide_eq_true_eq,
    match_txid_eq_true]
  tauto

/-- `wfB` depends only on the accounts, anchors, transactions and
entries. -/
theorem wfB_fields (s1 s2 : DBState)
    (ha : s2.accounts = s1.accounts) (hi : s2.idem = s1.idem)
    (ht : s2.txs = s1.txs) (he : s2.entries = s1.entries) :
    wfB s2 = wfB s1 := by
  unfold wfB
  rw [ha, hi, ht, he]

/-- Appending an element whose key is fresh keeps the key list
duplicate-free. -/
theorem nodup_concat_of_any_false {α : Type} (l : List α) (f : α → String)
    (x : α) (hnd : (l.map f).Nodup)
    (hfresh : l.any (fun y => f y == f x) = false) :
    ((l ++ [x]).map f).Nodup := by
  rw [List.map_append]
  refine List.Nodup.append hnd (by simp) ?_
  intro k hk hk2
  simp only [List.map_cons, List.map_nil, List.mem_singleton] at hk2
  rw [List.mem_map] at hk
  obtain ⟨y, hy, hyk⟩ := hk
  rw [List.any_eq_false] at hfresh
  have := hfresh y hy
  rw [hyk] at this
  rw [hk2] at this
  simp at this

/-- Transport of well-formedness along equal relational fields. -/
theorem wf_of_fields (s1 s2 : DBState)
    (ha : s2.accounts = s1.accounts) (hi : s2.idem = s1.idem)
    (ht : s2.txs = s1.txs) (he : s2.entries = s1.entries)
    (h : wf s1) : wf s2 := by
  unfold wf
  rw [wfB_fields s1 s2 ha hi ht he]
  exact h

/-- Every operation preserves structural well-formedness. -/
theorem wf_runOp (s : DBState) (op : Op) (h : wf s) : wf (runOp s op) := by
  cases op with
  | createAccount label currency correlationId accId eventId now =>
    rcases hr : (CreateAccount s label currency correlationId accId
        eventId now).1 with e | t
    · have hkeep := CreateAccount_err s label currency correlationId accId
        eventId now e hr
      simp only [runOp]
      rw [hkeep]
      exact h
    · obtain ⟨ht, hs2, _, _, _, _, hfresh, _⟩ := CreateAccount_ok s label
        currency correlationId accId eventId now t hr
      simp only [runOp]
      rw [hs2]
      rw [wf_iff] at h ⊢
      obtain ⟨h1, h2, h3, h4, h5, h6, h7, h8, h9⟩ := h
      refine ⟨?_, h2, h3, h4, ?_, h6, h7, h8, h9⟩
      · exact nodup_concat_of_any_false s.accounts (fun a => a.account_id)
          ⟨accId, trimChars label, strToUpper (trimChars currency)⟩ h1
          (by simpa using hfresh)
      · intro e he
        rw [List.any_append]
        rw [h5 e he]
        rfl
  | postTransfer a ids =>
    rcases hr : (PostTransfer s a ids).1 with e | t
    · have hkeep := PostTransfer_err s a ids e hr
      simp only [runOp]
      rw [hkeep]
      exact h
    · rcases hE : PostTransfer s a ids with ⟨r1, s2⟩
      rw [hE] at hr
      dsimp only at hr
      subst hr
      obtain ⟨shape, hshape, hcase⟩ := PostTransfer_ok s a ids t s2 hE
      simp only [runOp]
      rw [hE]
      show wf s2
      rcases hcase with ⟨r, _, _, _, hs2⟩ |
        ⟨hnone, hts, htxf, hkeyf, hextf, hfa, hta, hevf, hpos, hcur, hneac, hs2⟩
      · rw [hs2]
        exact h
      · rw [hs2]
        rw [wf_iff] at h ⊢
        obtain ⟨h1, h2, h3, h4, h5, h6, h7, h8, h9⟩ := h
        have hkeyfree : ∀ q ∈ s.idem, (q.key == shape.idempotencyKey) = false := by
          intro q hq
          have := List.find?_eq_none.mp hnone q hq
          simpa using this
        have hentnil : s.entries.filter (fun e => e.tx_id == ids.txId) = [] := by
          rw [List.filter_eq_nil_iff]
          intro e he habs
          have hetx := h6 e he
          rw [List.any_eq_true] at hetx
          obtain ⟨tx0, htx0, hp0⟩ := hetx
          rw [List.any_eq_false] at htxf
          have hf0 := htxf tx0 htx0
          have he2 : tx0.tx_id = e.tx_id := by simpa using hp0
          rw [beq_iff_eq] at habs
          rw [he2, habs] at hf0
          simp at hf0
        refine ⟨h1, ?_, ?_, ?_, ?_, ?_, ?_, ?_, ?_⟩
        · -- idem keys nodup
          refine nodup_concat_of_any_false s.idem (fun r => r.key) _ h2 ?_
          rw [List.any_eq_false]
          intro q hq
          simpa using hkeyfree q hq
        · -- tx ids nodup
          refine nodup_concat_of_any_false s.txs (fun t => t.tx_id) _ h3 ?_
          simpa using htxf
        · -- idempotency keys nodup
          refine nodup_concat_of_any_false s.txs (fun t => t.idempotency_key)
            _ h4 ?_
          simpa using hkeyf
        · -- entries -> accounts
          intro e he
          show (s.accounts.any (fun x => x.account_id == e.account_id)) = true
          rcases List.mem_append.mp he with hm | hm
          · exact h5 e hm
          · rcases List.mem_cons.mp hm with rfl | hm2
            · exact hfa
            · rw [List.mem_singleton] at hm2
              subst hm2
              exact hta
        · -- entries -> txs
          intro e he
          show ((s.txs ++ [(⟨ids.txId, shape.externalRef, shape.correlationId,
            shape.idempotencyKey⟩ : LedgerTx)]).any
              (fun t => t.tx_id == e.tx_id)) = true
          rw [List.any_append]
          rcases List.mem_append.mp he with hm | hm
          · rw [h6 e hm]
            rfl
          · have hid : e.tx_id = ids.txId := by
              rcases List.mem_cons.mp hm with rfl | hm2
              · rfl
              · rw [List.mem_singleton] at hm2
                subst hm2
                rfl
            have hx : ([(⟨ids.txId, shape.externalRef, shape.correlationId,
                shape.idempotencyKey⟩ : LedgerTx)].any
                  (fun t => t.tx_id == e.tx_id)) = true := by
              simp [hid]
            rw [hx, Bool.or_true]
        · -- per-tx entry pairs
          intro tx htx
          rcases List.mem_append.mp htx with hm | hm
          · show isEntryPair ((s.entries ++ _).filter
              (fun e => e.tx_id == tx.tx_id)) = true
            rw [List.filter_append]
            have hnewnil : ([(⟨ids.debitEntryId, ids.txId, a.fromAcc, .debit,
                shape.amountCents, shape.currency⟩ : LedgerEntry),
                ⟨ids.creditEntryId, ids.txId, a.toAcc, .credit,
                shape.amountCents, shape.currency⟩].filter
                  (fun e => e.tx_id == tx.tx_id)) = [] := by
              have hne : ¬ ids.txId = tx.tx_id := by
                intro he0
                rw [List.any_eq_false] at htxf
                have := htxf tx hm
                simp [he0] at this
              simp [hne]
            rw [hnewnil, List.append_nil]
            exact h7 tx hm
          · rw [List.mem_singleton] at hm
            subst hm
            show isEntryPair ((s.entries ++ _).filter
              (fun e => e.tx_id == ids.txId)) = true
            rw [List.filter_append, hentnil]
            simp [isEntryPair, hpos]
        · -- txs -> idem anchors
          intro tx htx
          show ((s.idem ++ [(⟨shape.idempotencyKey, hashTransferIdem shape,
            some ids.txId, some [("tx_id", JVal.s ids.txId)],
            IdemStatus.committed, ids.now⟩ : IdemRow)]).any
              (fun r => r.key == tx.idempotency_key)) = true
          rw [List.any_append]
          rcases List.mem_append.mp htx with hm | hm
          · rw [h8 tx hm]
            rfl
          · rw [List.mem_singleton] at hm
            have hkey : tx.idempotency_key = shape.idempotencyKey := by
              rw [hm]
            have hx : ([(⟨shape.idempotencyKey, hashTransferIdem shape,
                some ids.txId, some [("tx_id", JVal.s ids.txId)],
                IdemStatus.committed, ids.now⟩ : IdemRow)].any
                  (fun r => r.key == tx.idempotency_key)) = true := by
              simp [hkey]
            rw [hx, Bool.or_true]
        · -- idem anchors -> txs
          intro r hr tid htid
          show ((s.txs ++ [(⟨ids.txId, shape.externalRef, shape.correlationId,
            shape.idempotencyKey⟩ : LedgerTx)]).any
              (fun t0 => t0.tx_id == tid &&
                t0.idempotency_key == r.key)) = true
          rw [List.any_append]
          rcases List.mem_append.mp hr with hm | hm
          · rw [h9 r hm tid htid]
            rfl
          · rw [List.mem_singleton] at hm
            have hkey : r.key = shape.idempotencyKey := by rw [hm]
            have htid2 : tid = ids.txId := by
              rw [hm] at htid
              simpa using htid.symm
            have hx : ([(⟨ids.txId, shape.externalRef, shape.correlationId,
                shape.idempotencyKey⟩ : LedgerTx)].any
                  (fun t0 => t0.tx_id == tid &&
                    t0.idempotency_key == r.key)) = true := by
              simp [hkey, htid2]
            rw [hx, Bool.or_true]
  | insertValuation v eventId now =>
    simp only [runOp]
    rcases hI : insertValuationSnapshot s v eventId now with e | s2
    · exact h
    · obtain ⟨hs2, _, _, _⟩ := insertValuationSnapshot_ok s v eventId now s2 hI
      subst hs2
      exact wf_of_fields s _ rfl rfl rfl rfl h
  | insertLiquidity v eventId now =>
    simp only [runOp]
    rcases hI : insertLiquiditySnapshot s v eventId now with e | s2
    · exact h
    · obtain ⟨hs2, _, _, _⟩ := insertLiquiditySnapshot_ok s v eventId now s2 hI
      subst hs2
      exact wf_of_fields s _ rfl rfl rfl rfl h
  | tamperLedgerTx p f => rw [runOp_tamper_id s _ trivial]; exact h
  | tamperLedgerEntry p f => rw [runOp_tamper_id s _ trivial]; exact h
  | tamperEventLog p f => rw [runOp_tamper_id s _ trivial]; exact h
  | tamperValuation p f => rw [runOp_tamper_id s _ trivial]; exact h
  | tamperLiquidity p f => rw [runOp_tamper_id s _ trivial]; exact h
  | purgeLedgerTx p => rw [runOp_tamper_id s _ trivial]; exact h
  | purgeLedgerEntry p => rw [runOp_tamper_id s _ trivial]; exact h
  | purgeEventLog p => rw [runOp_tamper_id s _ trivial]; exact h
  | purgeValuation p => rw [runOp_tamper_id s _ trivial]; exact h
  | purgeLiquidity p => rw [runOp_tamper_id s _ trivial]; exact h

/-- Every operation sequence preserves structural well-formedness. -/
theorem wf_runOps (ops : List Op) (s : DBState) (h : wf s) :
    wf (runOps s ops) := by
  induction ops generalizing s with
  | nil => exact h
  | cons op rest ih => exact ih (runOp s op) (wf_runOp s op h)

/-- The genesis state is well-formed. -/
theorem wf_init : wf initState := by unfold wf; decide

/-- A credit/debit difference over a filter is the sum of signed
amounts. -/
theorem sum_signed_filter (l : List LedgerEntry) (p : LedgerEntry → Bool) :
    ((l.filter p).map signedAmount).sum =
    ((l.filter (fun e => p e && e.direction == Direction.credit)).map
      (fun e => e.amount_cents)).sum -
    ((l.filter (fun e => p e && e.direction == Direction.debit)).map
      (fun e => e.amount_cents)).sum := by
  induction l with
  | nil => simp
  | cons e rest ih =>
    by_cases hp : p e = true
    · cases hd : e.direction
      · simp only [List.filter_cons, hp, hd, Bool.true_and]
        simp only [show (Direction.debit == Direction.credit) = false from rfl,
          show (Direction.debit == Direction.debit) = true from rfl,
          Bool.false_eq_true, Bool.and_false, Bool.and_true,
          if_true, if_false, List.map_cons, List.sum_cons]
        have hs : signedAmount e = -e.amount_cents := by
          unfold signedAmount
          rw [hd]
          rfl
        rw [hs, ih]
        ring
      · simp only [List.filter_cons, hp, hd, Bool.true_and]
        simp only [show (Direction.credit == Direction.credit) = true from rfl,
          show (Direction.credit == Direction.debit) = false from rfl,
          Bool.false_eq_true, Bool.and_false, Bool.and_true,
          if_true, if_false, List.map_cons, List.sum_cons]
        have hs : signedAmount e = e.amount_cents := by
          unfold signedAmount
          rw [hd]
          rfl
        rw [hs, ih]
        ring
    · have hp2 : p e = false := by
        cases hpe : p e
        · rfl
        · exact absurd hpe hp
      simp only [List.filter_cons, hp2, Bool.false_and, Bool.false_eq_true,
        if_false, ih]

/-- Summing an indicator over duplicate-free keys picks the value
once. -/
theorem sum_map_ite_single (keys : List String) (hnd : keys.Nodup)
    (x : String) (hx : x ∈ keys) (c : Int) :
    (keys.map (fun k => if x == k then c else 0)).sum = c := by
  induction keys with
  | nil => cases hx
  | cons k ks ih =>
    rw [List.nodup_cons] at hnd
    rcases List.mem_cons.mp hx with rfl | hm
    · simp only [List.map_cons, List.sum_cons, beq_self_eq_true, if_true]
      have hz : (ks.map (fun k0 => if x == k0 then c else 0)).sum = 0 := by
        apply List.sum_eq_zero
        intro y hy
        rw [List.mem_map] at hy
        obtain ⟨k0, hk0, hky⟩ := hy
        have hne : ¬ x = k0 := fun he => hnd.1 (he ▸ hk0)
        rw [← hky]
        simp [hne]
      rw [hz]
      ring
    · have hne : ¬ x = k := by
        intro he
        subst he
        exact hnd.1 hm
      simp only [List.map_cons, List.sum_cons]
      rw [ih hnd.2 hm]
      simp [hne]

/-- Sums distribute over pointwise addition. -/
theorem sum_map_add {α : Type} (l : List α) (f g : α → Int) :
    (l.map (fun x => f x + g x)).sum = (l.map f).sum + (l.map g).sum := by
  induction l with
  | nil => simp
  | cons a as ih =>
    simp only [List.map_cons, List.sum_cons, ih]
    ring

/-- Partitioning a list by duplicate-free covering keys preserves the
total sum. -/
theorem sum_partition (l : List LedgerEntry) (keys : List String)
    (f : LedgerEntry → String) (g : LedgerEntry → Int)
    (hnd : keys.Nodup) (hcov : ∀ e ∈ l, f e ∈ keys) :
    (keys.map (fun k => ((l.filter (fun e => f e == k)).map g).sum)).sum =
    (l.map g).sum := by
  induction l with
  | nil => simp
  | cons e rest ih =>
    have hcov2 : ∀ x ∈ rest, f x ∈ keys := fun x hx =>
      hcov x (List.mem_cons_of_mem e hx)
    have hin : f e ∈ keys := hcov e (List.mem_cons_self e rest)
    have hstep : ∀ k ∈ keys,
        (((e :: rest).filter (fun x => f x == k)).map g).sum =
        (if f e == k then g e else 0) +
          ((rest.filter (fun x => f x == k)).map g).sum := by
      intro k _
      rcases hfk : f e == k with _ | _
      · simp [List.filter_cons, hfk]
      · simp [List.filter_cons, hfk]
    rw [List.map_congr_left hstep, sum_map_add]
    rw [sum_map_ite_single keys hnd (f e) hin (g e)]
    rw [ih hcov2]
    simp

/-- A balanced entry pair nets to zero. -/
theorem isEntryPair_sum_zero (l : List LedgerEntry)
    (h : isEntryPair l = true) : (l.map signedAmount).sum = 0 := by
  match l with
  | [] => simp [isEntryPair] at h
  | [d] => simp [isEntryPair] at h
  | d :: c :: x :: rest => simp [isEntryPair] at h
  | [d, c] =>
    unfold isEntryPair at h
    simp only [Bool.and_eq_true, Bool.or_eq_true, beq_iff_eq,
      decide_eq_true_eq, and_assoc] at h
    obtain ⟨hdir, hamt, hcur, hpos1, hpos2⟩ := h
    rcases hdir with ⟨hd, hc⟩ | ⟨hd, hc⟩ <;>
      simp [signedAmount, hd, hc, hamt]

/-- `balanceCents` as a signed sum over the account filter. -/
theorem balanceCents_signed (s : DBState) (accId : String) :
    balanceCents s accId =
    ((s.entries.filter (fun e => e.account_id == accId)).map
      signedAmount).sum := by
  rw [sum_signed_filter]
  rfl

/-- `txNet` as a signed sum over the transaction filter. -/
theorem txNet_signed (s : DBState) (txId : String) :
    txNet s txId =
    ((s.entries.filter (fun e => e.tx_id == txId)).map signedAmount).sum := by
  rw [sum_signed_filter]
  rfl

/-- In a well-formed state every transaction nets to zero. -/
theorem txNet_zero_of_wf (s : DBState) (hwf : wf s) :
    ∀ t ∈ s.txs, txNet s t.tx_id = 0 := by
  intro t ht
  rw [txNet_signed]
  exact isEntryPair_sum_zero _ ((wf_spec s hwf).2.2.2.2.2.2.1 t ht)

/-- In a well-formed state the balances of all accounts sum to zero:
entries partition by account and by transaction, and each transaction
nets to zero. -/
theorem sum_balances_zero (s : DBState) (hwf : wf s) :
    (s.accounts.map (fun a => balanceCents s a.account_id)).sum = 0 := by
  obtain ⟨h1, _, h3, _, h5, h6, h7, _, _⟩ := wf_spec s hwf
  have hmap : s.accounts.map (fun a => balanceCents s a.account_id) =
      (s.accounts.map (fun a => a.account_id)).map
        (fun k => ((s.entries.filter (fun e => e.account_id == k)).map
          signedAmount).sum) := by
    rw [List.map_map]
    exact List.map_congr_left (fun a _ => balanceCents_signed s a.account_id)
  rw [hmap]
  have hcov1 : ∀ e ∈ s.entries,
      e.account_id ∈ s.accounts.map (fun a => a.account_id) := by
    intro e he
    have := h5 e he
    rw [List.any_eq_true] at this
    obtain ⟨a, ha, hak⟩ := this
    rw [beq_iff_eq] at hak
    rw [List.mem_map]
    exact ⟨a, ha, hak⟩
  rw [sum_partition s.entries (s.accounts.map (fun a => a.account_id))
    (fun e => e.account_id) signedAmount h1 hcov1]
  have hcov2 : ∀ e ∈ s.entries,
      e.tx_id ∈ s.txs.map (fun t => t.tx_id) := by
    intro e he
    have := h6 e he
    rw [List.any_eq_true] at this
    obtain ⟨t, ht, htk⟩ := this
    rw [beq_iff_eq] at htk
    rw [List.mem_map]
    exact ⟨t, ht, htk⟩
  rw [← sum_partition s.entries (s.txs.map (fun t => t.tx_id))
    (fun e => e.tx_id) signedAmount h3 hcov2]
  apply List.sum_eq_zero
  intro x hx
  rw [List.mem_map] at hx
  obtain ⟨k, hk, hkx⟩ := hx
  rw [List.mem_map] at hk
  obtain ⟨t, ht, htk⟩ := hk
  rw [← hkx, ← htk]
  exact isEntryPair_sum_zero _ (h7 t ht)

/-- C9: after any sequence of operations from the genesis state, every
ledger transaction's CREDIT sum minus DEBIT sum is zero, and the sum of
`balanceCents` over all accounts is zero. -/
theorem claim_C9 (ops : List Op) :
    (∀ t ∈ (runOps initState ops).txs,
      txNet (runOps initState ops) t.tx_id = 0) ∧
    ((runOps initState ops).accounts.map
      (fun a => balanceCents (runOps initState ops) a.account_id)).sum = 0 := by
  have hwf := wf_runOps ops initState wf_init
  exact ⟨txNet_zero_of_wf _ hwf, sum_balances_zero _ hwf⟩

/-- Witness: the conservation conclusions at a concrete one-operation
sequence. -/
theorem claim_C9_witness :
    (∀ t ∈ (runOps initState
        [.createAccount "alice" "eur" "corr-1" "acc-1" "ev-1" "t1"]).txs,
      txNet (runOps initState
        [.createAccount "alice" "eur" "corr-1" "acc-1" "ev-1" "t1"])
          t.tx_id = 0) ∧
    ((runOps initState
        [.createAccount "alice" "eur" "corr-1" "acc-1" "ev-1" "t1"]).accounts.map
      (fun a => balanceCents (runOps initState
        [.createAccount "alice" "eur" "corr-1" "acc-1" "ev-1" "t1"])
          a.account_id)).sum = 0 :=
  claim_C9 [.createAccount "alice" "eur" "corr-1" "acc-1" "ev-1" "t1"]

end CoreLedger
